import Mathlib

/-!
# Downstream LDM-7: a shallow embedding of `mcast_lib/C/down7.c`

The coordinator object `Down7`, its three tasks and the handlers that the RPC
dispatcher calls are embedded as pure functions on an explicit state.  Threads
are serialised: a session is a list of task steps, each of which runs under
the lock that the source takes for it.  What the collaborators decide (the RPC
layer, the product-queue, `pthread_create`, the global flag `done`) is an
explicit argument of the function that consults it.  Everything a function
does to the outside world is appended to the field `events` of the state.

Three more parts follow the coordinator: the connection attempt `getSocket` of
the same file, the unsigned integers of the registry (`registry/registry.c`),
and the REQUEST, ALLOW and EXEC entries of the configuration file
(`protocol2/ldm_config_file.c`).  There, strings are lists of characters, the
linked lists of the source are lists, and an allocation that can fail has a
flag that says whether it succeeds.
-/

namespace LDM

/-! ## Constants of absent headers -/

/-- Index of a VCMTP product: an unsigned integer in the source. -/
abbrev VcmtpProdIndex := Nat

/-- The sixteen bytes of a product signature (`signaturet`), read as one number;
`memset(sig, 0, sizeof(signaturet))` gives `0` and `memcpy` copies the number. -/
abbrev signaturet := Nat

/-- Modelled from the spec: the enumerators of `Ldm7Status`, declared in the
absent `ldm.h`.  Section 7 of the spec names the statuses; the source compares
them with each other and with zero only, so any assignment of distinct
positive numbers gives the same behaviour.  `LDM7_OK` is the success value. -/
def LDM7_OK : Int := 0

/-- Modelled from the spec: the status "external shutdown" (`ldm.h` is absent). -/
def LDM7_SHUTDOWN : Int := 1

/-- Modelled from the spec: the status "timed out" (`ldm.h` is absent). -/
def LDM7_TIMEDOUT : Int := 2

/-- Modelled from the spec: the status "RPC failure" (`ldm.h` is absent). -/
def LDM7_RPC : Int := 3

/-- Modelled from the spec: the status "invalid address or feed" (`ldm.h` is absent). -/
def LDM7_INVAL : Int := 4

/-- Modelled from the spec: the status "not authorized" (`ldm.h` is absent). -/
def LDM7_UNAUTH : Int := 5

/-- Modelled from the spec: the status "IPv6 unsupported" (`ldm.h` is absent). -/
def LDM7_IPV6 : Int := 6

/-- Modelled from the spec: the status "connection refused" (`ldm.h` is absent). -/
def LDM7_REFUSED : Int := 7

/-- Modelled from the spec: the status "fatal system error" (`ldm.h` is absent). -/
def LDM7_SYSTEM : Int := 8

/-- Value of `RPC_TIMEDOUT` in `enum clnt_stat` of the system header `rpc/clnt.h`. -/
def RPC_TIMEDOUT : Int := 5

/-- Value of `EINVAL` in the system header `errno.h`. -/
def EINVAL : Int := 22

/-- Modelled from the spec: the product-store outcome "duplicate", `PQUEUE_DUP`
of the absent `pq.h`; the source only requires it to differ from `0` and `EINVAL`. -/
def PQUEUE_DUP : Int := -2

/-- Modelled from the spec: the product-store outcome "too large", `PQUEUE_BIG`
of the absent `pq.h`; the source only requires it to differ from `0` and `EINVAL`. -/
def PQUEUE_BIG : Int := -3

/-! ## Data -/

/-- Metadata of a data-product; only the signature is read by `down7.c`. -/
structure prod_info where
  signature : signaturet
  deriving DecidableEq, Repr

/-- A data-product: metadata and data bytes. -/
structure product where
  info : prod_info
  data : List Nat
  deriving DecidableEq, Repr

/-- Argument of `deliver_missed_product_7_svc`: the index the upstream LDM-7
claims for the product, and the product. -/
structure MissedProduct where
  iProd : VcmtpProdIndex
  prod : product
  deriving DecidableEq, Repr

/-- Argument of `request_backlog_7`, as filled in by `requestSessionBacklog`. -/
structure BacklogSpec where
  after : signaturet
  afterIsSet : Bool
  before : signaturet
  timeOffset : Nat
  deriving DecidableEq, Repr

/-- What a function of `down7.c` does to its collaborators, in program order. -/
inductive Event where
  /-- The call `request_product_7(&iProd, clnt)`. -/
  | request_product_7 (iProd : VcmtpProdIndex)
  /-- The call `request_backlog_7(&spec, clnt)`. -/
  | request_backlog_7 (spec : BacklogSpec)
  /-- The call `pthread_create(&backlogThread, NULL, requestSessionBacklog, down7)`
  and the status it returned. -/
  | pthread_create_backlog (status : Int)
  /-- The call `pq_insert(pq, prod)` and the status it returned. -/
  | pq_insert (prod : product) (status : Int)
  /-- The call `deliveryFailure(msg, info, rqstp)`, which destroys the server-side
  RPC transport. -/
  | deliveryFailure (info : prod_info)
  /-- The warning logged by `no_such_product_7_svc`. -/
  | uwarn_no_such_product (iProd : VcmtpProdIndex)
  /-- The call `mlr_stop(down7->mlr)`. -/
  | mlr_stop
  /-- The call `shutdown(down7->sock, SHUT_WR)`. -/
  | shutdown_wr
  /-- The call `shutdown(down7->sock, SHUT_RD)`. -/
  | shutdown_rd
  deriving DecidableEq, Repr

/-! ## Multicast session memory (`mldm_receiver_memory`, absent from the sources)

The functions `msm_*` are declared and defined outside the sources at hand.  Their
effect on the queues is the one of section 3 and 4.1 of the spec.  Their results
follow `mldm_receiver_memory_test.c`, which asserts `true` after every successful
call (`msm_addMissedFile`, `msm_addRequestedFile`, `msm_peekMissedFileNoWait`,
`msm_removeMissedFileNoWait`, `msm_removeRequestedFileNoWait`,
`msm_setLastMcastProd`, `msm_getLastMcastProd`, `msm_close`) and `false` after a
read of an empty queue; `down7.c` reads `msm_peekRequestedFileNoWait`,
`msm_getLastMcastProd` and `msm_close` in the same way.  The blocking peek
`msm_peekMissedFileWait` is not exercised by the test; its result follows the
same convention as the results of the other functions of the module, among
them its sibling `msm_peekMissedFileNoWait`: `true` when an index is returned.
-/

/-- Modelled from the spec: the session memory of section 3, whose implementation
`mldm_receiver_memory.c` is absent: the two FIFO queues of product indices, the
signature of the last product received by multicast, and whether the missed
queue has been shut down. -/
structure McastSessionMemory where
  missedQ : List VcmtpProdIndex
  requestedQ : List VcmtpProdIndex
  lastMcastProd : Option signaturet
  missedShutDown : Bool
  deriving DecidableEq, Repr

/-- Modelled from the spec: `msm_addMissedFile` (`recordMissed(idx)`): appends the
index to the missed queue.  `ok` says whether the queue accepted the entry; the
result is `true` on success, as `mldm_receiver_memory_test.c` asserts. -/
def msm_addMissedFile (msm : McastSessionMemory) (iProd : VcmtpProdIndex) (ok : Bool) :
    Bool × McastSessionMemory :=
  if ok then (true, { msm with missedQ := msm.missedQ ++ [iProd] }) else (false, msm)

/-- Modelled from the spec: `msm_addRequestedFile` (`recordRequested(idx)`): appends
the index to the requested queue.  `ok` says whether the queue accepted the entry;
the result is `true` on success, as `mldm_receiver_memory_test.c` asserts
(`status = msm_addRequestedFile(msm, iProd); OP_ASSERT_TRUE(status);`). -/
def msm_addRequestedFile (msm : McastSessionMemory) (iProd : VcmtpProdIndex) (ok : Bool) :
    Bool × McastSessionMemory :=
  if ok then (true, { msm with requestedQ := msm.requestedQ ++ [iProd] }) else (false, msm)

/-- Modelled from the spec: `msm_peekMissedFileWait`
(`peekMissedBlocking() -> idx | fails with ShutDown`): after a shutdown every call
reports the shutdown; otherwise the oldest entry is returned and stays in the
queue, and the call blocks while the queue is empty (`none`).  The result is
`true` with the oldest entry in `*iProd`, and `false` for the shutdown with
`*iProd` left as it was: `true` on success, as `mldm_receiver_memory_test.c`
asserts for every function of the module that it calls
(`status = msm_peekMissedFileNoWait(msm, &iProd); OP_ASSERT_TRUE(status);`) and as
`down7.c` reads `msm_peekRequestedFileNoWait` and `msm_close`. -/
def msm_peekMissedFileWait (msm : McastSessionMemory) (iProd : VcmtpProdIndex) :
    Option (Bool × VcmtpProdIndex) :=
  if msm.missedShutDown then some (false, iProd)
  else match msm.missedQ with
    | [] => none
    | head :: _ => some (true, head)

/-- Modelled from the spec: `msm_peekMissedFileNoWait`: the oldest entry of the
missed queue, which stays in the queue; `none` stands for the result `false`. -/
def msm_peekMissedFileNoWait (msm : McastSessionMemory) : Option VcmtpProdIndex :=
  msm.missedQ.head?

/-- Modelled from the spec: `msm_removeMissedFileNoWait`: removes and returns the
oldest entry of the missed queue; `none` stands for the result `false`. -/
def msm_removeMissedFileNoWait (msm : McastSessionMemory) :
    Option VcmtpProdIndex × McastSessionMemory :=
  (msm.missedQ.head?, { msm with missedQ := msm.missedQ.tail })

/-- Modelled from the spec: `msm_peekRequestedFileNoWait`: the oldest entry of the
requested queue, which stays in the queue; `none` stands for the result `false`. -/
def msm_peekRequestedFileNoWait (msm : McastSessionMemory) : Option VcmtpProdIndex :=
  msm.requestedQ.head?

/-- Modelled from the spec: `msm_removeRequestedFileNoWait`: removes and returns the
oldest entry of the requested queue; `none` stands for the result `false`. -/
def msm_removeRequestedFileNoWait (msm : McastSessionMemory) :
    Option VcmtpProdIndex × McastSessionMemory :=
  (msm.requestedQ.head?, { msm with requestedQ := msm.requestedQ.tail })

/-- Modelled from the spec: `msm_shutDownMissedFiles` (`shutdownMissed()`). -/
def msm_shutDownMissedFiles (msm : McastSessionMemory) : McastSessionMemory :=
  { msm with missedShutDown := true }

/-- Modelled from the spec: `msm_setLastMcastProd` (`setLastMulticastSignature(sig)`):
overwrites the signature. -/
def msm_setLastMcastProd (msm : McastSessionMemory) (sig : signaturet) : McastSessionMemory :=
  { msm with lastMcastProd := some sig }

/-- Modelled from the spec: `msm_getLastMcastProd`
(`getLastMulticastSignature() -> (signature, present)`): the buffer `sig` is
overwritten when a signature is present and left alone otherwise. -/
def msm_getLastMcastProd (msm : McastSessionMemory) (sig : signaturet) : Bool × signaturet :=
  match msm.lastMcastProd with
  | some s => (true, s)
  | none => (false, sig)

/-- Modelled from the spec: `msm_open` (`open(serverKey, feedKey)`): `ok` says
whether the durable store could be opened; the queues and the signature are the
stored ones and the missed queue is open for blocking reads. -/
def msm_open (stored : McastSessionMemory) (ok : Bool) : Option McastSessionMemory :=
  if ok then some { stored with missedShutDown := false } else none

/-! ## The coordinator object -/

/-- The fields of `struct Down7` that the modelled functions read or write.  The
handles (`pq`, `clnt`, `mlr`, the threads, the mutexes and the condition
variable) are left out; `events` records the calls made on them. -/
structure Down7 where
  feedtype : Nat
  msm : McastSessionMemory
  exitStatus : Int
  sock : Int
  taskExited : Int
  mcastWorking : Bool
  firstMcast : signaturet
  prevLastMcast : signaturet
  prevLastMcastSet : Bool
  events : List Event
  deriving DecidableEq, Repr

/-- The assignments at the end of `down7_new`.  `stored` is the session memory
that `msm_open` will find for the server and the feed. -/
def down7_new (feedtype : Nat) (stored : McastSessionMemory) : Down7 :=
  { feedtype := feedtype
    msm := stored
    exitStatus := -1
    sock := -1
    taskExited := 0
    mcastWorking := false
    firstMcast := 0
    prevLastMcast := 0
    prevLastMcastSet := false
    events := [] }

/-- The function `taskExit`: under the wait-lock, the status is stored if no
status has been stored yet, and the task-exited flag is set. -/
def taskExit (down7 : Down7) (status : Int) : Down7 :=
  let d := if down7.exitStatus < 0 then { down7 with exitStatus := status } else down7
  { d with taskExited := 1 }

/-! ## The requester task -/

/-- The function `requestProduct`: the asynchronous send `request_product_7`, then
the test of the client status `clntStat` that `clnt_stat(clnt)` returns. -/
def requestProduct (down7 : Down7) (iProd : VcmtpProdIndex) (clntStat : Int) : Int × Down7 :=
  let d := { down7 with events := down7.events ++ [Event.request_product_7 iProd] }
  if clntStat ≠ RPC_TIMEDOUT then (LDM7_RPC, d) else (0, d)

/-- The function `makeRequest`.  `uninit` is the indeterminate content of the
local `iProd`, which is declared without a value; `addOk` says whether the
requested queue accepts the entry and `clntStat` is the client status after the
send.  The result is `none` while the call is blocked in the peek of an empty,
open missed queue.  The two tests are the ones of the source:
`if (msm_peekMissedFileWait(down7->msm, &iProd)) status = LDM7_SHUTDOWN;` and
`if (msm_addRequestedFile(down7->msm, iProd)) status = LDM7_SYSTEM; else ...`,
where each function returns `true` when it has succeeded. -/
def makeRequest (down7 : Down7) (uninit : VcmtpProdIndex) (addOk : Bool) (clntStat : Int) :
    Option (Int × Down7) :=
  match msm_peekMissedFileWait down7.msm uninit with
  | none => none
  | some peeked =>
    if peeked.1 then some (LDM7_SHUTDOWN, down7)
    else
      let iProd := peeked.2
      let added := msm_addRequestedFile down7.msm iProd addOk
      if added.1 then
        some (LDM7_SYSTEM, { down7 with msm := added.2 })
      else
        let removed := msm_removeMissedFileNoWait added.2
        some (requestProduct { down7 with msm := removed.2 } (removed.1.getD iProd) clntStat)

/-- The function `startRequester`: `makeRequest` is repeated while it returns `0`,
then `taskExit` reports the status.  Each element of the list is the triple
(`uninit`, `addOk`, `clntStat`) of one iteration; the result is `none` when the
task is blocked in a peek or the list ends before the loop does. -/
def startRequester (down7 : Down7) :
    List (VcmtpProdIndex × Bool × Int) → Option (Int × Down7)
  | [] => none
  | (uninit, addOk, clntStat) :: rest =>
    match makeRequest down7 uninit addOk clntStat with
    | none => none
    | some (status, d) =>
      if status = 0 then startRequester d rest else some (status, taskExit d status)

/-! ## The callbacks of the multicast receiver -/

/-- The function `down7_missedProduct`: the index is added to the missed queue and
the result of the addition is ignored. -/
def down7_missedProduct (down7 : Down7) (iProd : VcmtpProdIndex) (ok : Bool) : Down7 :=
  { down7 with msm := (msm_addMissedFile down7.msm iProd ok).2 }

/-- The function `requestSessionBacklog`, the body of the backlog thread.
`uninit` is the indeterminate content of the local `spec.after`, `timeOffset`
the value of `getTimeOffset()`, `clntStat` the client status after the send. -/
def requestSessionBacklog (down7 : Down7) (uninit : signaturet) (timeOffset : Nat)
    (clntStat : Int) : Int × Down7 :=
  let spec : BacklogSpec :=
    { after := if down7.prevLastMcastSet then down7.prevLastMcast else uninit
      afterIsSet := down7.prevLastMcastSet
      before := down7.firstMcast
      timeOffset := timeOffset }
  let d := { down7 with events := down7.events ++ [Event.request_backlog_7 spec] }
  if clntStat ≠ RPC_TIMEDOUT then (LDM7_RPC, d) else (0, d)

/-- The function `down7_lastReceived`.  `createStatus` is the status that
`pthread_create` returns for the backlog thread. -/
def down7_lastReceived (down7 : Down7) (last : prod_info) (createStatus : Int) : Down7 :=
  let d := { down7 with msm := msm_setLastMcastProd down7.msm last.signature }
  if !d.mcastWorking then
    { d with
      mcastWorking := true
      firstMcast := last.signature
      events := d.events ++ [Event.pthread_create_backlog createStatus] }
  else d

/-! ## The handlers of the unicast receiver -/

/-- The function `insertAndUnlock`: `insertStatus` is the status that `pq_insert`
returns; the logging is left out. -/
def insertAndUnlock (down7 : Down7) (prod : product) (insertStatus : Int) : Int × Down7 :=
  (insertStatus, { down7 with events := down7.events ++ [Event.pq_insert prod insertStatus] })

/-- The function `deliver_product`: `lockStatus` is the status that `pq_lock`
returns. -/
def deliver_product (down7 : Down7) (prod : product) (lockStatus insertStatus : Int) :
    Int × Down7 :=
  if lockStatus ≠ 0 then (LDM7_SYSTEM, down7)
  else
    let r := insertAndUnlock down7 prod insertStatus
    if r.1 ≠ 0 then ((if r.1 = EINVAL then LDM7_SYSTEM else 0), r.2) else (r.1, r.2)

/-- The function `deliveryFailure`: logs and destroys the server-side transport. -/
def deliveryFailure (down7 : Down7) (info : prod_info) : Down7 :=
  { down7 with events := down7.events ++ [Event.deliveryFailure info] }

/-- The function `deliver_missed_product_7_svc`. -/
def deliver_missed_product_7_svc (down7 : Down7) (missedProd : MissedProduct)
    (lockStatus insertStatus : Int) : Down7 :=
  match msm_peekRequestedFileNoWait down7.msm with
  | none => deliveryFailure down7 missedProd.prod.info
  | some iProd =>
    if iProd ≠ missedProd.iProd then deliveryFailure down7 missedProd.prod.info
    else
      let d := { down7 with msm := (msm_removeRequestedFileNoWait down7.msm).2 }
      let r := deliver_product d missedProd.prod lockStatus insertStatus
      if r.1 ≠ 0 then deliveryFailure r.2 missedProd.prod.info else r.2

/-- The function `no_such_product_7_svc`: a warning is logged. -/
def no_such_product_7_svc (down7 : Down7) (iProd : VcmtpProdIndex) : Down7 :=
  { down7 with events := down7.events ++ [Event.uwarn_no_such_product iProd] }

/-- The function `deliver_backlog_product_7_svc`. -/
def deliver_backlog_product_7_svc (down7 : Down7) (prod : product)
    (lockStatus insertStatus : Int) : Down7 :=
  let r := deliver_product down7 prod lockStatus insertStatus
  if r.1 ≠ 0 then deliveryFailure r.2 prod.info else r.2

/-! ## Sessions: the serialised steps of the tasks -/

/-- One step of a task of a session, with what the collaborators decide in it. -/
inductive TaskStep where
  /-- A task ends and calls `taskExit(down7, status)`. -/
  | taskExit (status : Int)
  /-- The multicast receiver calls `down7_missedProduct(down7, iProd)`. -/
  | missedProduct (iProd : VcmtpProdIndex) (ok : Bool)
  /-- The multicast receiver calls `down7_lastReceived(down7, last)`. -/
  | lastReceived (last : prod_info) (createStatus : Int)
  /-- The backlog thread runs `requestSessionBacklog(down7)`. -/
  | sessionBacklog (uninit : signaturet) (timeOffset : Nat) (clntStat : Int)
  /-- The requester runs one call of `makeRequest(down7)`. -/
  | makeRequest (uninit : VcmtpProdIndex) (addOk : Bool) (clntStat : Int)
  /-- The RPC dispatcher calls `deliver_missed_product_7_svc`. -/
  | deliverMissed (missedProd : MissedProduct) (lockStatus insertStatus : Int)
  /-- The RPC dispatcher calls `deliver_backlog_product_7_svc`. -/
  | deliverBacklog (prod : product) (lockStatus insertStatus : Int)
  /-- The RPC dispatcher calls `no_such_product_7_svc`. -/
  | noSuchProduct (iProd : VcmtpProdIndex)
  deriving DecidableEq, Repr

/-- Effect of one task step on the coordinator object.  A `makeRequest` that is
blocked in the peek changes nothing. -/
def TaskStep.run (down7 : Down7) : TaskStep → Down7
  | TaskStep.taskExit status => LDM.taskExit down7 status
  | TaskStep.missedProduct iProd ok => down7_missedProduct down7 iProd ok
  | TaskStep.lastReceived last createStatus => down7_lastReceived down7 last createStatus
  | TaskStep.sessionBacklog uninit timeOffset clntStat =>
    (requestSessionBacklog down7 uninit timeOffset clntStat).2
  | TaskStep.makeRequest uninit addOk clntStat =>
    match LDM.makeRequest down7 uninit addOk clntStat with
    | none => down7
    | some r => r.2
  | TaskStep.deliverMissed missedProd lockStatus insertStatus =>
    deliver_missed_product_7_svc down7 missedProd lockStatus insertStatus
  | TaskStep.deliverBacklog prod lockStatus insertStatus =>
    deliver_backlog_product_7_svc down7 prod lockStatus insertStatus
  | TaskStep.noSuchProduct iProd => no_such_product_7_svc down7 iProd

/-- The steps of a list, one after the other. -/
def runSteps (down7 : Down7) (steps : List TaskStep) : Down7 :=
  steps.foldl TaskStep.run down7

/-- Whether a step is a call of `taskExit`. -/
def TaskStep.isExit : TaskStep → Bool
  | TaskStep.taskExit _ => true
  | _ => false

/-- Status of the first call of `taskExit` among the steps, if there is one. -/
def firstExit : List TaskStep → Option Int
  | [] => none
  | TaskStep.taskExit status :: _ => some status
  | _ :: rest => firstExit rest

/-- What the collaborators decide during one call of `runDown7Once`. -/
structure Session where
  /-- Whether `msm_open` returns a session memory. -/
  msmOpenOk : Bool
  /-- Status returned by `newClient`. -/
  newClientStatus : Int
  /-- Status in the reply of `subscribe_7`; `none` when the reply is `NULL`. -/
  reply : Option Int
  /-- Value of `clntStatusToLdm7Status(clnt_stat(clnt))` when the reply is `NULL`. -/
  clntLdm7Status : Int
  /-- Indeterminate initial value of the local `status` of `subscribeAndExecute`. -/
  uninitStatus : Int
  /-- Status of `pthread_create` for the unicast receiver. -/
  createReceive : Int
  /-- Status of `pthread_create` for the requester. -/
  createRequest : Int
  /-- Status of `pthread_create` for the multicast receiver. -/
  createMcast : Int
  /-- Steps of the tasks while the coordinator waits in `waitOnTasks`. -/
  running : List TaskStep
  /-- Value of `done` when the coordinator leaves the wait loop. -/
  doneAtWake : Bool
  /-- Steps of the tasks between the stop calls of `terminateTasks` and the end
  of its joins. -/
  draining : List TaskStep
  /-- Value of `done` when `waitOnTasks` returns. -/
  doneAtReturn : Bool
  /-- Whether `msm_close` returns true. -/
  msmCloseOk : Bool
  deriving DecidableEq, Repr

/-- The function `terminateTasks`: the stop calls, the joins (during which the
tasks run the steps `draining`), and the result `down7->exitStatus`. -/
def terminateTasks (down7 : Down7) (draining : List TaskStep) : Int × Down7 :=
  let d := { down7 with
    msm := msm_shutDownMissedFiles down7.msm
    events := down7.events ++ [Event.mlr_stop, Event.shutdown_wr, Event.shutdown_rd] }
  let d := runSteps d draining
  (d.exitStatus, d)

/-- The function `startTasks`: the three calls of `pthread_create` in the order
of the source; on a failure the result is `LDM7_SYSTEM` after `terminateTasks`. -/
def startTasks (down7 : Down7) (s : Session) : Int × Down7 :=
  let status : Int :=
    if s.createReceive ≠ 0 then LDM7_SYSTEM
    else if s.createRequest ≠ 0 then LDM7_SYSTEM
    else if s.createMcast ≠ 0 then LDM7_SYSTEM
    else 0
  if status ≠ 0 then (status, (terminateTasks down7 s.draining).2) else (status, down7)

/-- The function `waitOnTasks`.  The coordinator leaves the wait loop when `done`
or `taskExited` is set; the result is `none` when neither is set after the steps
`running`, that is, when it stays blocked. -/
def waitOnTasks (down7 : Down7) (s : Session) : Option (Int × Down7) :=
  let d := runSteps down7 s.running
  if !s.doneAtWake && d.taskExited = 0 then none
  else
    let r := terminateTasks d s.draining
    some ((if s.doneAtReturn then LDM7_SHUTDOWN else r.1), r.2)

/-- The function `execute`. -/
def execute (down7 : Down7) (s : Session) : Option (Int × Down7) :=
  let r := startTasks down7 s
  if r.1 ≠ 0 then some r else waitOnTasks r.2 s

/-- The function `subscribeAndExecute`.  When the reply carries a non-zero status
the local `status` is returned as it was declared, without an assignment. -/
def subscribeAndExecute (down7 : Down7) (s : Session) : Option (Int × Down7) :=
  match s.reply with
  | none => some (s.clntLdm7Status, down7)
  | some replyStatus =>
    if replyStatus = 0 then execute down7 s else some (s.uninitStatus, down7)

/-- The function `createClientAndExecute`. -/
def createClientAndExecute (down7 : Down7) (s : Session) : Option (Int × Down7) :=
  if s.newClientStatus = 0 then subscribeAndExecute down7 s
  else some (s.newClientStatus, down7)

/-- The assignments of `runDown7Once` after a successful `msm_open`: the session
memory handle, and `prevLastMcastSet = msm_getLastMcastProd(msm, prevLastMcast)`.
No other field of the coordinator object is written. -/
def openSession (down7 : Down7) (msm : McastSessionMemory) : Down7 :=
  let got := msm_getLastMcastProd msm down7.prevLastMcast
  { down7 with msm := msm, prevLastMcastSet := got.1, prevLastMcast := got.2 }

/-- The function `runDown7Once`. -/
def runDown7Once (down7 : Down7) (s : Session) : Option (Int × Down7) :=
  match msm_open down7.msm s.msmOpenOk with
  | none => some (LDM7_SYSTEM, down7)
  | some msm =>
    match createClientAndExecute (openSession down7 msm) s with
    | none => none
    | some r => some ((if !s.msmCloseOk then LDM7_SYSTEM else r.1), r.2)

/-- The wait loop of `nap`: `done` is the flag on entry; each element of the list
is one return of `pthread_cond_timedwait`: whether it returned `ETIMEDOUT`, and
the value of `done` after it.  The result is the flag when the loop is left,
`none` when the coordinator is still waiting at the end of the list. -/
def napLoop (done : Bool) : List (Bool × Bool) → Option Bool
  | [] => if done then some true else none
  | (timedOut, doneAfter) :: rest =>
    if done then some true
    else if timedOut then some doneAfter
    else napLoop doneAfter rest

/-- The function `nap`. -/
def nap (done : Bool) (waits : List (Bool × Bool)) : Option Int :=
  match napLoop done waits with
  | none => none
  | some d => some (if d then LDM7_SHUTDOWN else 0)

/-- What the collaborators decide during one iteration of the loop of
`down7_execute`: the session, the flag `done` on entry of `nap`, and the waits
of `nap`. -/
structure Iteration where
  session : Session
  napDone : Bool
  napWaits : List (Bool × Bool)
  deriving DecidableEq, Repr

/-- The function `down7_execute`: one element of the list for each iteration of
the loop; the result is `none` when the loop has not ended at the end of the
list or the coordinator stays blocked. -/
def down7_execute (down7 : Down7) : List Iteration → Option (Int × Down7)
  | [] => none
  | it :: rest =>
    match runDown7Once down7 it.session with
    | none => none
    | some (status, d) =>
      if LDM7_SYSTEM = status then some (status, d)
      else
        match nap it.napDone it.napWaits with
        | none => none
        | some napStatus =>
          if LDM7_SHUTDOWN ≠ napStatus then down7_execute d rest else some (napStatus, d)

/-- The coordinator object on entry of each call of `runDown7Once` that the loop of
`down7_execute` makes, in order. -/
def sessionEntries (down7 : Down7) : List Iteration → List Down7
  | [] => []
  | it :: rest =>
    down7 ::
      match runDown7Once down7 it.session with
      | none => []
      | some (status, d) =>
        if LDM7_SYSTEM = status then []
        else
          match nap it.napDone it.napWaits with
          | none => []
          | some napStatus =>
            if LDM7_SHUTDOWN ≠ napStatus then sessionEntries d rest else []

/-! ## Example runs -/

/-- An empty session memory: what `msm_open` finds after `msm_delete`. -/
def emptyMemory : McastSessionMemory :=
  { missedQ := [], requestedQ := [], lastMcastProd := none, missedShutDown := false }

/-- A session in which the session memory opens and closes, the client connects,
the subscription is accepted, the three threads are created and no shutdown is
requested; the tasks take the steps `running` while the coordinator waits and
the steps `draining` while it joins them. -/
def startedSession (running draining : List TaskStep) : Session :=
  { msmOpenOk := true
    newClientStatus := 0
    reply := some 0
    clntLdm7Status := LDM7_RPC
    uninitStatus := 0
    createReceive := 0
    createRequest := 0
    createMcast := 0
    running := running
    doneAtWake := false
    draining := draining
    doneAtReturn := false
    msmCloseOk := true }

/-- A session in which the unicast receiver loses its connection and exits with
`LDM7_RPC`; `terminateTasks` then stops the two other tasks, which exit with
`LDM7_SHUTDOWN`. -/
def connectionLost : Session :=
  startedSession [TaskStep.taskExit LDM7_RPC]
    [TaskStep.taskExit LDM7_SHUTDOWN, TaskStep.taskExit LDM7_SHUTDOWN]

/-- A session in which the multicast receiver cannot be created and exits with
`LDM7_SYSTEM`; `terminateTasks` then stops the requester, which exits with
`LDM7_SHUTDOWN`, and the unicast receiver, which exits with `LDM7_RPC`. -/
def receiverFails : Session :=
  startedSession [TaskStep.taskExit LDM7_SYSTEM]
    [TaskStep.taskExit LDM7_SHUTDOWN, TaskStep.taskExit LDM7_RPC]

/-- A session in which no task does anything while the coordinator waits. -/
def idle : Session := startedSession [] []

/-- A session in which products with the signatures `first` and `second` are
received by multicast, the backlog thread (if one was started) sends its
request, and the unicast receiver then loses its connection. -/
def receiving (first second : signaturet) (backlog : List TaskStep) : Session :=
  startedSession
    ([TaskStep.lastReceived ⟨first⟩ 0] ++ backlog ++
      [TaskStep.lastReceived ⟨second⟩ 0, TaskStep.taskExit LDM7_RPC])
    [TaskStep.taskExit LDM7_SHUTDOWN, TaskStep.taskExit LDM7_SHUTDOWN]

/-- The deliveries of scenario A: products that claim the indices 3, 1, 2, in that
order, each with the results of `pq_lock` and `pq_insert`: the product-queue is
locked every time and the insertions yield ok, duplicate and too-large. -/
def scenarioA : List (MissedProduct × Int × Int) :=
  [(⟨3, ⟨⟨30⟩, []⟩⟩, 0, 0), (⟨1, ⟨⟨10⟩, []⟩⟩, 0, PQUEUE_DUP), (⟨2, ⟨⟨20⟩, []⟩⟩, 0, PQUEUE_BIG)]

/-- An iteration of the loop of `down7_execute` whose `nap` times out without a
shutdown. -/
def retry (s : Session) : Iteration :=
  { session := s, napDone := false, napWaits := [(true, false)] }

/-- An iteration of the loop of `down7_execute` during whose `nap` the shutdown is
requested. -/
def lastIteration (s : Session) : Iteration :=
  { session := s, napDone := false, napWaits := [(false, true)] }

/-- Whether an event is an attempt to start the backlog thread. -/
def Event.isBacklogStart : Event → Bool
  | Event.pthread_create_backlog _ => true
  | _ => false

/-- Whether an event is a backlog request. -/
def Event.isBacklogRequest : Event → Bool
  | Event.request_backlog_7 _ => true
  | _ => false

/-! ## The nap and its deadline -/

/-- The function `nap` with the deadline it computes.  `now` is the value of
`time(NULL)` on entry, so that `absTime` has `tv_sec = now + 60` and
`tv_nsec = 0`.  Each element of `waits` is one call of `pthread_cond_timedwait`:
from the deadline that it is given, whether it returned `ETIMEDOUT` and the
value of `done` after it.  The loop is the one of `nap`. -/
def napAt (now : Nat) (done : Bool) (waits : List (Nat × Nat → Bool × Bool)) : Option Int :=
  nap done (waits.map fun wait => wait (now + 60, 0))

/-! ## Example runs of the coordinator -/

/-- A session for which the session memory cannot be opened. -/
def memoryUnavailable : Session :=
  { startedSession [] [] with msmOpenOk := false }

/-- A session like `connectionLost` at whose end the session memory cannot be
closed. -/
def memoryNotClosed : Session :=
  { connectionLost with msmCloseOk := false }

/-- A session in which the upstream LDM-7 answers the subscription with the
status `LDM7_UNAUTH`; `uninit` is the indeterminate value of the local `status`
of `subscribeAndExecute`. -/
def notAuthorized (uninit : Int) : Session :=
  { startedSession [] [] with reply := some LDM7_UNAUTH, uninitStatus := uninit }

/-- A session in which `subscribe_7` returns no reply and the RPC client status
maps to `LDM7_TIMEDOUT`. -/
def noReply : Session :=
  { startedSession [] [] with reply := none, clntLdm7Status := LDM7_TIMEDOUT }

/-- A session in which the multicast receiver ends on its own: `mlr_start` returns
`LDM7_SHUTDOWN` (as in `mldm_receiver_test.c`, where the VCMTP receiver returns
`0` without having been stopped) while the flag `done` is clear;
`terminateTasks` then stops the requester and the unicast receiver. -/
def receiverEnds : Session :=
  startedSession [TaskStep.taskExit LDM7_SHUTDOWN]
    [TaskStep.taskExit LDM7_SHUTDOWN, TaskStep.taskExit LDM7_RPC]

/-- A session during which the shutdown is requested: the flag `done` wakes the
coordinator, `terminateTasks` stops the three tasks, and the flag is still set
when `waitOnTasks` returns. -/
def shutdownRequested : Session :=
  { startedSession []
      [TaskStep.taskExit LDM7_SHUTDOWN, TaskStep.taskExit LDM7_SHUTDOWN,
        TaskStep.taskExit LDM7_RPC] with
    doneAtWake := true, doneAtReturn := true }

/-- An iteration of the loop of `down7_execute` whose `nap` finds the flag `done`
set on entry. -/
def stopped (s : Session) : Iteration :=
  { session := s, napDone := true, napWaits := [] }

/-- A session in which the upstream LDM-7 refuses the connection: `newClient`
returns `LDM7_REFUSED`. -/
def refused : Session :=
  { startedSession [] [] with newClientStatus := LDM7_REFUSED }

/-- An iteration of the loop of `down7_execute` whose `nap`, if it were entered,
would wait without end. -/
def unwoken (s : Session) : Iteration :=
  { session := s, napDone := false, napWaits := [] }

/-! ## The rest of the session memory -/

/-- Modelled from the spec: `msm_close` (`close(handle)`, "flush and release").
`ok` says whether the store could be released; the result is `true` on success,
as `mldm_receiver_memory_test.c` asserts.  The second component is the content
of the durable store of the key, which the next `msm_open` finds: every
operation is persisted when it is made. -/
def msm_close (msm : McastSessionMemory) (ok : Bool) : Bool × McastSessionMemory :=
  (ok, msm)

/-- Modelled from the spec: `msm_delete`, which removes the durable store of a
key, so that the next `msm_open` creates an empty one;
`mldm_receiver_memory_test.c` asserts the result `true`. -/
def msm_delete (_stored : McastSessionMemory) : Bool × McastSessionMemory :=
  (true, emptyMemory)

/-- Modelled from the spec: `msm_clearAllMissedFiles`, which empties the two
queues (`mldm_receiver_memory_test.c` calls it before it fills them). -/
def msm_clearAllMissedFiles (msm : McastSessionMemory) : McastSessionMemory :=
  { msm with missedQ := [], requestedQ := [] }

/-- Modelled from the spec: `msm_getAnyMissedFileNoWait`, which removes and returns
the oldest entry of the requested queue and, when that queue is empty, the oldest
entry of the missed queue; `none` stands for the result `false`.  The order is
the one that `mldm_receiver_memory_test.c` expects after it has reopened the
memory (`2` from the requested queue, then `3` from the missed queue). -/
def msm_getAnyMissedFileNoWait (msm : McastSessionMemory) :
    Option VcmtpProdIndex × McastSessionMemory :=
  match msm.requestedQ with
  | iProd :: rest => (some iProd, { msm with requestedQ := rest })
  | [] =>
    match msm.missedQ with
    | iProd :: rest => (some iProd, { msm with missedQ := rest })
    | [] => (none, msm)

/-- The indices of a list added to the missed queue, one successful call of
`msm_addMissedFile` for each. -/
def addMissedFiles (msm : McastSessionMemory) (indices : List VcmtpProdIndex) :
    McastSessionMemory :=
  indices.foldl (fun m iProd => (msm_addMissedFile m iProd true).2) msm

/-- The indices of a list added to the requested queue, one successful call of
`msm_addRequestedFile` for each. -/
def addRequestedFiles (msm : McastSessionMemory) (indices : List VcmtpProdIndex) :
    McastSessionMemory :=
  indices.foldl (fun m iProd => (msm_addRequestedFile m iProd true).2) msm

/-- The results of `n` successive calls of `msm_removeMissedFileNoWait`, in order,
and the session memory after them. -/
def removeMissedFiles : Nat → McastSessionMemory →
    List (Option VcmtpProdIndex) × McastSessionMemory
  | 0, msm => ([], msm)
  | n + 1, msm =>
    let r := msm_removeMissedFileNoWait msm
    let rest := removeMissedFiles n r.2
    (r.1 :: rest.1, rest.2)

/-- The results of `n` successive calls of `msm_removeRequestedFileNoWait`, in
order, and the session memory after them. -/
def removeRequestedFiles : Nat → McastSessionMemory →
    List (Option VcmtpProdIndex) × McastSessionMemory
  | 0, msm => ([], msm)
  | n + 1, msm =>
    let r := msm_removeRequestedFileNoWait msm
    let rest := removeRequestedFiles n r.2
    (r.1 :: rest.1, rest.2)

/-- The session memory after the calls of `test_missed_mcast_files` up to
`msm_close`: the indices 1, 2, 3 are missed, 1 and 2 are moved to the requested
queue, and 1 is removed from it. -/
def testedMemory (msm : McastSessionMemory) : McastSessionMemory :=
  let m := addMissedFiles (msm_clearAllMissedFiles msm) [1, 2, 3]
  let m := (msm_addRequestedFile m 1 true).2
  let m := (msm_removeMissedFileNoWait m).2
  let m := (msm_removeMissedFileNoWait m).2
  let m := (msm_addRequestedFile m 2 true).2
  (msm_removeRequestedFileNoWait m).2

/-! ## The connection to the upstream LDM-7 -/

/-- Value of `ENOENT` in the system header `errno.h`. -/
def ENOENT : Int := 2

/-- Value of `EAGAIN` in the system header `errno.h`. -/
def EAGAIN : Int := 11

/-- Value of `ENOMEM` in the system header `errno.h`. -/
def ENOMEM : Int := 12

/-- Value of `ENOSYS` in the system header `errno.h`. -/
def ENOSYS : Int := 38

/-- Value of `EAFNOSUPPORT` in the system header `errno.h`. -/
def EAFNOSUPPORT : Int := 97

/-- Value of `ETIMEDOUT` in the system header `errno.h`. -/
def ETIMEDOUT : Int := 110

/-- Value of `ECONNREFUSED` in the system header `errno.h`. -/
def ECONNREFUSED : Int := 111

/-- Value of `AF_INET` in the system header `sys/socket.h`. -/
def AF_INET : Int := 2

/-- Value of `AF_INET6` in the system header `sys/socket.h`. -/
def AF_INET6 : Int := 10

/-- What the library calls of `getSocket` decide. -/
structure Connection where
  /-- Result of `sa_getInetSockAddr`: `0`, or one of `EAGAIN`, `EINVAL` (invalid
  port number), `ENOENT` (the identifier does not resolve), `ENOMEM`, `ENOSYS`,
  as `inetutil.h` documents. -/
  addrStatus : Int
  /-- The field `ss_family` of the address that `sa_getInetSockAddr` sets. -/
  ss_family : Int
  /-- Result of `socket`: a descriptor, or `-1`. -/
  fd : Int
  /-- Value of `errno` when it is read after a failed `socket`. -/
  socketErrno : Int
  /-- Result of `connect`: `0` on success. -/
  connectResult : Int
  /-- Value of `errno` when it is read after a failed `connect`. -/
  connectErrno : Int
  deriving DecidableEq, Repr

/-- The function `getSocket`.  The result is the status and, when they are set,
the values of `*sock` and of `sockAddr->ss_family`. -/
def getSocket (c : Connection) : Int × Option (Int × Int) :=
  let status := c.addrStatus
  if status = 0 then
    let useIPv6 := c.ss_family = AF_INET6
    if c.fd = -1 then
      ((if useIPv6 ∧ c.socketErrno = EAFNOSUPPORT then LDM7_IPV6 else LDM7_SYSTEM), none)
    else if c.connectResult ≠ 0 then
      ((if c.connectErrno = ETIMEDOUT then LDM7_TIMEDOUT
        else if c.connectErrno = ECONNREFUSED then LDM7_REFUSED
        else LDM7_SYSTEM), none)
    else (status, some (c.fd, c.ss_family))
  else (status, none)

/-- A connection attempt to a host identifier that does not resolve:
`sa_getInetSockAddr` returns `ENOENT` and nothing else is called. -/
def unresolvedHost : Connection :=
  { addrStatus := ENOENT, ss_family := 0, fd := -1, socketErrno := 0,
    connectResult := -1, connectErrno := 0 }

/-- A connection attempt to a service address with an invalid port number:
`sa_getInetSockAddr` returns `EINVAL` and nothing else is called. -/
def invalidPort : Connection :=
  { addrStatus := EINVAL, ss_family := 0, fd := -1, socketErrno := 0,
    connectResult := -1, connectErrno := 0 }

/-- A connection attempt during which the address resolves to an IPv4 address,
the socket is created with descriptor 3, and `connect` fails with `errno`. -/
def connectFails (errno : Int) : Connection :=
  { addrStatus := 0, ss_family := AF_INET, fd := 3, socketErrno := 0,
    connectResult := -1, connectErrno := errno }

/-! ## The registry: unsigned integers (`registry/registry.c`)

A C string is a list of characters without the terminating NUL.  The library
functions `strtoul` and `snprintf` are embedded as ISO C specifies them
(7.22.1.4 and 7.21.6.1), for an `unsigned long` of 64 bits and an `unsigned`
of 32 bits.
-/

/-- Value of `EILSEQ` in the system header `errno.h`. -/
def EILSEQ : Int := 84

/-- Value of `ERANGE` in the system header `errno.h`. -/
def ERANGE : Int := 34

/-- Value of `ULONG_MAX` in the system header `limits.h` (64 bits). -/
def ULONG_MAX : Nat := 2 ^ 64 - 1

/-- Value of `UINT_MAX` in the system header `limits.h` (32 bits). -/
def UINT_MAX : Nat := 2 ^ 32 - 1

/-- The library function `isspace` in the "C" locale: space, and the characters
from horizontal tab (9) to carriage return (13). -/
def isspace (c : Char) : Bool :=
  c.toNat = 32 || (9 ≤ c.toNat && c.toNat ≤ 13)

/-- Value of a character as a digit of `strtoul`: `0` to `9`, and the letters
`a` (or `A`) to `z` (or `Z`) for 10 to 35. -/
def digitValue (c : Char) : Option Nat :=
  if 48 ≤ c.toNat ∧ c.toNat ≤ 57 then some (c.toNat - 48)
  else if 97 ≤ c.toNat ∧ c.toNat ≤ 122 then some (c.toNat - 97 + 10)
  else if 65 ≤ c.toNat ∧ c.toNat ≤ 90 then some (c.toNat - 65 + 10)
  else none

/-- Whether a character is a digit of the base. -/
def isDigitOf (base : Nat) (c : Char) : Bool :=
  match digitValue c with
  | some d => decide (d < base)
  | none => false

/-- The longest run of digits of the base at the start of a string: its value
on top of `acc`, and the rest of the string. -/
def scanDigits (base : Nat) : List Char → Nat → Nat × List Char
  | [], acc => (acc, [])
  | c :: cs, acc =>
    match digitValue c with
    | some d => if d < base then scanDigits base cs (acc * base + d) else (acc, c :: cs)
    | none => (acc, c :: cs)

/-- Whether a string starts with `0x` or `0X` followed by a hexadecimal digit. -/
def hexPrefix : List Char → Bool
  | z :: x :: h :: _ =>
    decide (z = '0') && (decide (x = 'x') || decide (x = 'X')) && isDigitOf 16 h
  | _ => false

/-- The library function `strtoul(nptr, &end, 0)` called with `errno == 0`: the
value, the string at `end`, and `errno` after the call.  Leading white space and
one sign are skipped; the base is 16 after `0x` or `0X` followed by a
hexadecimal digit, 8 after `0`, and 10 otherwise; a value above `ULONG_MAX`
yields `ULONG_MAX` and `ERANGE`; after a minus sign the value is negated in
`unsigned long`.  When there is no digit the value is `0`, `end` is `nptr`, and
`errno` is `noConvErrno`: `0` or `EINVAL`, as the implementation chooses. -/
def strtoul (nptr : List Char) (noConvErrno : Int) : Nat × List Char × Int :=
  let t := nptr.dropWhile isspace
  let neg := decide (t.head? = some '-')
  let u :=
    match t with
    | c :: rest => if c = '-' ∨ c = '+' then rest else t
    | [] => t
  let hex := hexPrefix u
  let base := if hex then 16 else if u.head? = some '0' then 8 else 10
  let digits := if hex then u.drop 2 else u
  match digits with
  | [] => (0, nptr, noConvErrno)
  | c :: _ =>
    if isDigitOf base c then
      let r := scanDigits base digits 0
      if ULONG_MAX < r.1 then (ULONG_MAX, r.2, ERANGE)
      else ((if neg then (2 ^ 64 - r.1) % 2 ^ 64 else r.1), r.2, 0)
    else (0, nptr, noConvErrno)

/-- The function `parseUint`: the status and, on success, the value stored in
`*(unsigned*)value`, which is `val` converted to `unsigned`. -/
def parseUint (string : List Char) (noConvErrno : Int) : Int × Option Nat :=
  let r := strtoul string noConvErrno
  if r.2.1 ≠ [] ∨ (r.1 = 0 ∧ r.2.2 ≠ 0) then (EILSEQ, none)
  else (0, some (r.1 % 2 ^ 32))

/-- The decimal digits of a number, most significant first: what the conversion
`%u` of `snprintf` writes. -/
def decimal (n : Nat) : List Char :=
  if n < 10 then [Char.ofNat (48 + n)]
  else decimal (n / 10) ++ [Char.ofNat (48 + n % 10)]
decreasing_by omega

/-- The function `formatUint`: `snprintf(buf, sizeof(buf)-1, "%u", value)`, whose
output of at most ten digits fits the buffer of 80 bytes, and `sb_set`, which
sets the string-buffer unless it fails with `ENOMEM` (`sbOk` is false). -/
def formatUint (value : Nat) (sbOk : Bool) : Int × Option (List Char) :=
  if sbOk then (0, some (decimal value)) else (ENOMEM, none)

/-- Modelled from the spec: the values of the registry by absolute path name.
The node tree (`node.c`) and the backend are absent; the spec names the
registry as persistent storage only, and the comments of `putNodeValue` and
`getNodeValue` say that a value is put under a name as a string and returned
as the string that was put. -/
abbrev Registry := List (List Char × List Char)

/-- Modelled from the spec: `rn_getValue` of the absent `node.c`: the string last
put under the path, `none` (the status `ENOENT`) when there is none. -/
def rn_getValue (reg : Registry) (path : List Char) : Option (List Char) :=
  (reg.find? fun entry => decide (entry.1 = path)).map fun entry => entry.2

/-- Modelled from the spec: `rn_putValue` of the absent `node.c`: the string
replaces what was put under the path before. -/
def rn_putValue (reg : Registry) (path string : List Char) : Registry :=
  (path, string) :: reg.filter fun entry => decide (entry.1 ≠ path)

/-- The function `reg_putUint`, that is, `putValue` and `putNodeValue` with the
functions of `uintStruct`.  `nodeStatus` is the first non-zero status of
`initRegistry`, `reg_splitAbsPath` and `rn_ensure` (`0` when they succeed),
`sbOk` says whether `sb_set` succeeds, `putStatus` is the status of
`rn_putValue` and `flushStatus` the one of `flush`. -/
def reg_putUint (reg : Registry) (path : List Char) (value : Nat) (nodeStatus : Int)
    (sbOk : Bool) (putStatus flushStatus : Int) : Int × Registry :=
  if nodeStatus ≠ 0 then (nodeStatus, reg)
  else
    match formatUint value sbOk with
    | (_, some string) =>
      if putStatus ≠ 0 then (putStatus, reg)
      else (flushStatus, rn_putValue reg path string)
    | (status, none) => (status, reg)

/-- The function `reg_getUint`, that is, `getValue` and `getNodeValue` with the
functions of `uintStruct`.  `nodeStatus` is the first non-zero status of
`initRegistry`, `rn_getLastNode`, the test that the path names a value, `flush`
and `sync` (`0` when they succeed). -/
def reg_getUint (reg : Registry) (path : List Char) (nodeStatus : Int) (noConvErrno : Int) :
    Int × Option Nat :=
  if nodeStatus ≠ 0 then (nodeStatus, none)
  else
    match rn_getValue reg path with
    | none => (ENOENT, none)
    | some string => parseUint string noConvErrno

/-! ## The configuration file: REQUEST entries (`protocol2/ldm_config_file.c`)

The linked lists of the source are lists; a pointer to a server-entry is the
first entry of the list with the same server information.  Every allocation
that can fail has a flag that says whether it succeeds.
-/

/-- A feedtype (`feedtypet`): an unsigned integer of 32 bits, read as a set of
feeds, one for each bit. -/
abbrev feedtypet := Nat

/-- Value of `NONE`, the empty feedtype of the absent `ldm.h`: the source treats
`ft == NONE` as the negation of `if (ft)`. -/
def NONE : feedtypet := 0

/-- The operator `~` on a feedtype: the complement in 32 bits. -/
def feedtype_not (feedtype : feedtypet) : feedtypet :=
  (2 ^ 32 - 1) ^^^ (feedtype % 2 ^ 32)

/-- The type `Subscription`. -/
structure Subscription where
  pattern : List Char
  feedtype : feedtypet
  deriving DecidableEq, Repr

/-- The function `sub_remove`: the result and the target after the call. -/
def sub_remove (target remove : Subscription) : Int × Subscription :=
  if target.pattern = remove.pattern ∧ target.feedtype &&& remove.feedtype ≠ 0 then
    (1, { target with feedtype := target.feedtype &&& feedtype_not remove.feedtype })
  else (0, target)

/-- The function `sub_isEmpty`. -/
def sub_isEmpty (sub : Subscription) : Bool :=
  decide (sub.feedtype = NONE)

/-- The function `sub_equal`. -/
def sub_equal (sub1 sub2 : Subscription) : Bool :=
  decide (sub1.feedtype = sub2.feedtype) && decide (sub1.pattern = sub2.pattern)

/-- The type `ServerInfo` (a `SUS`): host identifier and port number. -/
structure ServerInfo where
  string : List Char
  integer : Nat
  deriving DecidableEq, Repr

/-- The function `serverInfo_equal`, that is, `sus_equal`. -/
def serverInfo_equal (server1 server2 : ServerInfo) : Bool :=
  decide (server1.string = server2.string) && decide (server1.integer = server2.integer)

/-- The type `ServerEntry`: the requests are the subscriptions of the linked list
`requests`, the one added last first. -/
structure ServerEntry where
  serverInfo : ServerInfo
  requests : List Subscription
  deriving DecidableEq, Repr

/-- The type `SubEntry`: a subscription and the servers it is requested from. -/
structure SubEntry where
  subscription : Subscription
  servers : List ServerInfo
  deriving DecidableEq, Repr

/-- The static lists `serverEntries` (from its head) and `subsHead` (from the head
to `subsTail`). -/
structure Requests where
  serverEntries : List ServerEntry
  subs : List SubEntry
  deriving DecidableEq, Repr

/-- Whether the allocations of one call of `lcf_addRequest` succeed, in the order
in which the call makes them. -/
structure Allocations where
  /-- The call `serverInfo_new` in `lcf_addRequest`. -/
  serverInfo : Bool
  /-- The call `serverEntry_new` in `servers_addIfAbsent`. -/
  serverEntry : Bool
  /-- The call `sub_new` in `lcf_addRequest`. -/
  sub : Bool
  /-- The call `sub_clone` in `addRequest`. -/
  origSub : Bool
  /-- The call `sub_clone` in `serverEntry_reduceSub`. -/
  reduceSub : Bool
  /-- The call `req_new` in `serverEntry_add`. -/
  request : Bool
  /-- The call `subEntry_new` in `subs_addIfAbsent`. -/
  subEntry : Bool
  /-- The calls `realloc` and `serverInfo_clone` in `subEntry_add`. -/
  subEntryServer : Bool
  deriving DecidableEq, Repr

/-- The function `serverEntry_reduceSub`: the status and the subscription after
the call; the logging is left out. -/
def serverEntry_reduceSub (entry : ServerEntry) (sub : Subscription) (cloneOk : Bool) :
    Int × Subscription :=
  if cloneOk then (0, entry.requests.foldl (fun s entrySub => (sub_remove s entrySub).2) sub)
  else (-1, sub)

/-- The function `serverEntry_add`: the status, the entry and the subscription
after the call. -/
def serverEntry_add (entry : ServerEntry) (sub : Subscription) (cloneOk requestOk : Bool) :
    Int × ServerEntry × Subscription :=
  let r := serverEntry_reduceSub entry sub cloneOk
  if r.1 ≠ 0 then (-1, entry, r.2)
  else if sub_isEmpty r.2 then (0, entry, r.2)
  else if requestOk then (0, { entry with requests := r.2 :: entry.requests }, r.2)
  else (-1, entry, r.2)

/-- The function `servers_addIfAbsent`: the list after the call, in which the
first entry with the server information is the one returned; `none` stands for
the result `NULL`. -/
def servers_addIfAbsent (serverEntries : List ServerEntry) (server : ServerInfo)
    (entryOk : Bool) : Option (List ServerEntry) :=
  if serverEntries.any fun entry => serverInfo_equal server entry.serverInfo then
    some serverEntries
  else if entryOk then some ({ serverInfo := server, requests := [] } :: serverEntries)
  else none

/-- The first server-entry with the server information: what the pointer that
`servers_addIfAbsent` returns designates. -/
def serverEntryOf (serverEntries : List ServerEntry) (server : ServerInfo) :
    Option ServerEntry :=
  serverEntries.find? fun entry => serverInfo_equal server entry.serverInfo

/-- The list of server-entries after the entry that `servers_addIfAbsent` returned
for the server has been assigned to. -/
def setServerEntry (server : ServerInfo) (newEntry : ServerEntry) :
    List ServerEntry → List ServerEntry
  | [] => []
  | entry :: rest =>
    if serverInfo_equal server entry.serverInfo then newEntry :: rest
    else entry :: setServerEntry server newEntry rest

/-- The function `subs_addIfAbsent`: the list after the call, in which the first
entry with an equal subscription is the one returned; `none` stands for the
result `NULL`. -/
def subs_addIfAbsent (subs : List SubEntry) (sub : Subscription) (entryOk : Bool) :
    Option (List SubEntry) :=
  if subs.any fun entry => sub_equal sub entry.subscription then some subs
  else if entryOk then some (subs ++ [{ subscription := sub, servers := [] }])
  else none

/-- The function `subEntry_add` on the entry that `subs_addIfAbsent` returned for
the subscription: the status and the list after the call. -/
def subEntry_add (sub : Subscription) (server : ServerInfo) (ok : Bool) :
    List SubEntry → Int × List SubEntry
  | [] => (-1, [])
  | entry :: rest =>
    if sub_equal sub entry.subscription then
      if ok then (0, { entry with servers := entry.servers ++ [server] } :: rest)
      else (-1, entry :: rest)
    else
      let r := subEntry_add sub server ok rest
      (r.1, entry :: r.2)

/-- The function `addRequest`: the status, the server-entry and the list of
subscription-entries after the call; the logging is left out. -/
def addRequest (sub : Subscription) (serverEntry : ServerEntry) (subs : List SubEntry)
    (a : Allocations) : Int × ServerEntry × List SubEntry :=
  if !a.origSub then (-1, serverEntry, subs)
  else
    let added := serverEntry_add serverEntry sub a.reduceSub a.request
    if added.1 ≠ 0 then (-1, added.2.1, subs)
    else if sub_isEmpty added.2.2 then (0, added.2.1, subs)
    else
      match subs_addIfAbsent subs added.2.2 a.subEntry with
      | none => (-1, added.2.1, subs)
      | some subs =>
        let r := subEntry_add added.2.2 serverEntry.serverInfo a.subEntryServer subs
        ((if r.1 ≠ 0 then -1 else 0), added.2.1, r.2)

/-- The function `lcf_addRequest`: the status and the two static lists after the
call. -/
def lcf_addRequest (st : Requests) (feedtype : feedtypet) (pattern hostId : List Char)
    (port : Nat) (a : Allocations) : Int × Requests :=
  if !a.serverInfo then (-1, st)
  else
    let server : ServerInfo := { string := hostId, integer := port }
    match servers_addIfAbsent st.serverEntries server a.serverEntry with
    | none => (-1, st)
    | some serverEntries =>
      match serverEntryOf serverEntries server with
      | none => (-1, { st with serverEntries := serverEntries })
      | some serverEntry =>
        if !a.sub then (-1, { st with serverEntries := serverEntries })
        else
          let r := addRequest { pattern := pattern, feedtype := feedtype } serverEntry st.subs a
          (r.1, { serverEntries := setServerEntry server r.2.1 serverEntries, subs := r.2.2 })

/-- A REQUEST entry of the configuration file, with what the allocations of its
call of `lcf_addRequest` do. -/
structure RequestEntry where
  feedtype : feedtypet
  pattern : List Char
  hostId : List Char
  port : Nat
  alloc : Allocations
  deriving DecidableEq, Repr

/-- The static lists after the calls of `lcf_addRequest` for the REQUEST entries
of a list, in order. -/
def addRequests (st : Requests) (entries : List RequestEntry) : Requests :=
  entries.foldl
    (fun st e => (lcf_addRequest st e.feedtype e.pattern e.hostId e.port e.alloc).2) st

/-- The static lists before the first entry is added. -/
def noRequests : Requests :=
  { serverEntries := [], subs := [] }

/-- Allocations that all succeed. -/
def allocated : Allocations :=
  { serverInfo := true, serverEntry := true, sub := true, origSub := true, reduceSub := true,
    request := true, subEntry := true, subEntryServer := true }

/-- The requests stored for a server; none when the server has no entry. -/
def requestsOf (st : Requests) (server : ServerInfo) : List Subscription :=
  match serverEntryOf st.serverEntries server with
  | none => []
  | some entry => entry.requests

/-- The feeds of the requests of a list that have a given pattern: the bitwise
or of their feedtypes. -/
def feedsOf (pattern : List Char) (requests : List Subscription) : feedtypet :=
  requests.foldr
    (fun req acc => if req.pattern = pattern then req.feedtype ||| acc else acc) 0

/-- The invariant of a server-entry: no stored request has the feedtype `NONE`,
and two stored requests with the same pattern have disjoint feedtypes. -/
def ServerEntry.disjoint (entry : ServerEntry) : Prop :=
  (∀ req ∈ entry.requests, req.feedtype ≠ NONE) ∧
  entry.requests.Pairwise fun r1 r2 =>
    r1.pattern = r2.pattern → r1.feedtype &&& r2.feedtype = 0

/-- The invariant of a server-entry can be checked. -/
instance ServerEntry.decidableDisjoint (entry : ServerEntry) : Decidable entry.disjoint := by
  unfold ServerEntry.disjoint
  infer_instance

/-- The feeds that the REQUEST entries of a list ask from a server with a given
pattern: the bitwise or of their feedtypes. -/
def requestedFeeds (pattern : List Char) (server : ServerInfo) (entries : List RequestEntry) :
    feedtypet :=
  entries.foldr
    (fun e acc =>
      if e.pattern = pattern ∧ ({ string := e.hostId, integer := e.port } : ServerInfo) = server
      then e.feedtype ||| acc else acc) 0

/-! ## The configuration file: ALLOW entries -/

/-- The enumeration `host_set_type` of the absent `ldm.h`, with the three kinds
that `contains` tells apart and one for every other value. -/
inductive host_set_type where
  | HS_NONE
  | HS_NAME
  | HS_DOTTED_QUAD
  | HS_REGEXP
  deriving DecidableEq, Repr

/-- The type `host_set`: the kind, the string `cp`, and the compiled regular
expression `rgx`, given by the strings for which `regexec` returns `0`. -/
structure host_set where
  type : host_set_type
  cp : List Char
  rgx : List Char → Bool

/-- The library function `strcasecmp`, compared with `0`. -/
def strcasecmp_eq (s1 s2 : List Char) : Bool :=
  decide (s1.map Char.toLower = s2.map Char.toLower)

/-- The function `contains`. -/
def contains (hsp : host_set) (name dotAddr : List Char) : Bool :=
  match hsp.type with
  | host_set_type.HS_NAME => strcasecmp_eq name hsp.cp
  | host_set_type.HS_DOTTED_QUAD => decide (dotAddr = hsp.cp)
  | host_set_type.HS_REGEXP => hsp.rgx dotAddr || hsp.rgx name
  | host_set_type.HS_NONE => false

/-- The type `AllowEntry`; the patterns are given by their regular expressions. -/
structure AllowEntry where
  hsp : host_set
  okPattern : List Char
  notPattern : Option (List Char)
  ft : feedtypet

/-- The type `prod_spec`: feedtype and pattern; the compiled pattern is left out. -/
structure prod_spec where
  feedtype : feedtypet
  pattern : List Char
  deriving DecidableEq, Repr

/-- The type `prod_class_t`: the product specifications `psa`; the time range is
left out. -/
structure prod_class where
  psa : List prod_spec
  deriving DecidableEq, Repr

/-- The constant `MAXHITS` of `lcf_reduceToAllowed`. -/
def MAXHITS : Nat := 128

/-- The first loop of `lcf_reduceToAllowed`: from the array `feedType` with its
`nhits` elements, the array after the loop over the entries. -/
def matchingFeedtypes (name dotAddr : List Char) :
    List AllowEntry → List feedtypet → List feedtypet
  | [], feedType => feedType
  | entry :: rest, feedType =>
    if contains entry.hsp name dotAddr then
      let feedType := feedType ++ [entry.ft]
      if feedType.length ≥ MAXHITS then feedType
      else matchingFeedtypes name dotAddr rest feedType
    else matchingFeedtypes name dotAddr rest feedType

/-- The loop over `jj` of `lcf_reduceToAllowed` for one product specification:
from the value of the local `ft` before the loop, its value after the loop and
the feedtype of the specification after the loop. -/
def firstHit (feedtype : feedtypet) : List feedtypet → feedtypet → feedtypet × feedtypet
  | [], ft => (ft, feedtype)
  | hit :: rest, _ =>
    let ft := feedtype &&& hit
    if ft ≠ 0 then (ft, ft) else firstHit feedtype rest ft

/-- The body of the loop over `ii` of `lcf_reduceToAllowed`; `uninit` is the
indeterminate value of the local `ft` at its declaration. -/
def intersectSpec (uninit : feedtypet) (feedType : List feedtypet) (sp : prod_spec) :
    prod_spec :=
  let r := firstHit sp.feedtype feedType uninit
  if r.1 = NONE then { sp with feedtype := NONE } else { sp with feedtype := r.2 }

/-- Modelled from the spec: `clss_scrunch` of the absent `prod_class.c`, which
removes the product specifications whose feedtype is `NONE`; the spec leaves
the product classes out, and the comment of `lcf_reduceToAllowed` says that the
result may be the empty set. -/
def clss_scrunch (clssp : prod_class) : prod_class :=
  { psa := clssp.psa.filter fun sp => decide (sp.feedtype ≠ NONE) }

/-- The function `lcf_reduceToAllowed`: the status and, when it is set,
`*intersect`.  `allowEntries` is the list from `allowEntryHead`, `dotAddr` the
result of `inet_ntoa`, `newOk` says whether `new_prod_class` returns a class,
and `cpError` is the status of `cp_prod_class`, which copies `want`. -/
def lcf_reduceToAllowed (allowEntries : List AllowEntry) (name dotAddr : List Char)
    (want : prod_class) (uninit : feedtypet) (newOk : Bool) (cpError : Int) :
    Int × Option prod_class :=
  let feedType :=
    if allowEntries.isEmpty || want.psa.isEmpty then []
    else matchingFeedtypes name dotAddr allowEntries []
  if !newOk then (ENOMEM, none)
  else if feedType.length ≠ 0 then
    if cpError = 0 then
      (0, some (clss_scrunch { psa := want.psa.map (intersectSpec uninit feedType) }))
    else (cpError, none)
  else (0, some { psa := [] })

/-- The feedtype that is left of a wanted feedtype: its intersection with the
first allowed feedtype that it intersects, `NONE` when there is none. -/
def allowedFeedtype (allowed : List feedtypet) (wanted : feedtypet) : feedtypet :=
  ((allowed.map fun ft => wanted &&& ft).find? fun ft => decide (ft ≠ NONE)).getD NONE

/-- The intersection of a wanted product class with what the ALLOW entries allow
to a host: the allowed feedtypes are those of the first `MAXHITS` entries whose
host set contains the host, in the order of the configuration file; every
wanted specification gets its allowed feedtype, and the specifications that are
left with `NONE` are removed. -/
def allowedClass (allowEntries : List AllowEntry) (name dotAddr : List Char)
    (want : prod_class) : prod_class :=
  { psa :=
      (want.psa.map fun sp =>
        { sp with
          feedtype :=
            allowedFeedtype
              (((allowEntries.filter fun entry => contains entry.hsp name dotAddr).take
                MAXHITS).map fun entry => entry.ft) sp.feedtype }).filter
        fun sp => decide (sp.feedtype ≠ NONE) }

/-- A component of an upstream filter. -/
structure FilterComponent where
  feedtype : feedtypet
  okPattern : List Char
  notPattern : Option (List Char)
  deriving DecidableEq, Repr

/-- Modelled from the spec: the type `UpFilter` of the absent `UpFilter.c`, known
here by how `lcf_getUpstreamFilter` uses it: the components that were added. -/
abbrev UpFilter := List FilterComponent

/-- The error objects that `lcf_getUpstreamFilter` creates. -/
inductive ErrorObj where
  /-- "Couldn't get new upstream filter". -/
  | noFilter
  /-- "Couldn't add upstream filter component for server". -/
  | noComponent
  deriving DecidableEq, Repr

/-- Modelled from the spec: `upFilter_addComponent` of the absent `UpFilter.c`:
on success the component is in the filter and the result is `NULL` (`false`); on
failure the filter is unchanged and the result is an error object (`true`).
`succeeds` says which it is. -/
def upFilter_addComponent (filt : UpFilter) (feedtype : feedtypet) (okPattern : List Char)
    (notPattern : Option (List Char)) (succeeds : Bool) : Bool × UpFilter :=
  if succeeds then (false, filt ++ [⟨feedtype, okPattern, notPattern⟩]) else (true, filt)

/-- Modelled from the spec: `upFilter_getComponentCount` of the absent
`UpFilter.c`. -/
def upFilter_getComponentCount (filt : UpFilter) : Nat :=
  filt.length

/-- The loop over the ALLOW entries of `lcf_getUpstreamFilter` for one wanted
feedtype: the entry at which the loop is left by `break`, with the feedtype of
the component. -/
def controllingEntry (name dotAddr : List Char) (wanted : feedtypet) :
    List AllowEntry → Option (feedtypet × AllowEntry)
  | [] => none
  | entry :: rest =>
    let feedtype := entry.ft &&& wanted
    if feedtype ≠ 0 ∧ contains entry.hsp name dotAddr = true then some (feedtype, entry)
    else controllingEntry name dotAddr wanted rest

/-- The loop over the wanted product specifications of `lcf_getUpstreamFilter`:
from `errObj` and the filter before the loop, their values after it.  `addOk`
says for a filter and a feedtype whether `upFilter_addComponent` succeeds. -/
def addComponents (allowEntries : List AllowEntry) (name dotAddr : List Char)
    (addOk : UpFilter → feedtypet → Bool) :
    List prod_spec → Option ErrorObj × UpFilter → Option ErrorObj × UpFilter
  | [], state => state
  | sp :: rest, (errObj, filt) =>
    match controllingEntry name dotAddr sp.feedtype allowEntries with
    | none => addComponents allowEntries name dotAddr addOk rest (errObj, filt)
    | some (feedtype, entry) =>
      let r := upFilter_addComponent filt feedtype entry.okPattern entry.notPattern
        (addOk filt feedtype)
      addComponents allowEntries name dotAddr addOk rest
        ((if r.1 then some ErrorObj.noComponent else none), r.2)

/-- The function `lcf_getUpstreamFilter`: the error object (`none` for `NULL`) and
what is assigned to `*upFilter`: `none` when nothing is assigned, `some none`
for `NULL`, `some (some filt)` for a filter.  `newOk` says whether
`upFilter_new` succeeds. -/
def lcf_getUpstreamFilter (allowEntries : List AllowEntry) (name dotAddr : List Char)
    (want : prod_class) (newOk : Bool) (addOk : UpFilter → feedtypet → Bool) :
    Option ErrorObj × Option (Option UpFilter) :=
  if !newOk then (some ErrorObj.noFilter, none)
  else
    let r := addComponents allowEntries name dotAddr addOk want.psa (none, [])
    match r.1 with
    | some errObj => (some errObj, none)
    | none =>
      if upFilter_getComponentCount r.2 > 0 then (none, some (some r.2))
      else (none, some none)

/-- An ALLOW entry for the host `h` and the feeds `ft`, with the pattern `.*`. -/
def allowHost (ft : feedtypet) : AllowEntry :=
  { hsp := { type := host_set_type.HS_NAME, cp := ['h'], rgx := fun _ => false }
    okPattern := ['.', '*']
    notPattern := none
    ft := ft }

/-! ## The configuration file: EXEC entries -/

/-- The type `Process`: the process identifier and the words of the command
line (`wrdexp.we_wordv`, of which there are `we_wordc`). -/
structure Process where
  pid : Int
  wrdexp : List (List Char)
  deriving DecidableEq, Repr

/-- The terminating character of a C string. -/
def NUL : Char := Char.ofNat 0

/-- The library function `snprintf(cp, size, "%s", text)` as ISO C specifies it
(7.21.6.5), on a buffer of which `cp` is the offset: the result is the length
of the text; when `size` is not zero, the characters of the text beyond the
first `size - 1` are discarded and a NUL is written after those that are
written.  The conversion `%s` of a string has no encoding error. -/
def snprintf (buf : List Char) (cp size : Nat) (text : List Char) : Int × List Char :=
  (text.length,
    if size = 0 then buf
    else
      buf.take cp ++ (text.take (size - 1) ++ [NUL]) ++
        buf.drop (cp + (text.take (size - 1)).length + 1))

/-- The loop of `lcf_getCommandLine` over the words from the word `i` on: the
status, the offset `cp - buf` and the buffer after the loop. -/
def writeWords : List (List Char) → Nat → List Char → Nat → Nat → Int × Nat × List Char
  | [], _, buf, cp, _ => (0, cp, buf)
  | word :: rest, i, buf, cp, size =>
    let r := snprintf buf cp size (if i = 0 then word else ' ' :: word)
    if 0 ≤ r.1 ∧ r.1 ≤ size then
      writeWords rest (i + 1) r.2 (cp + r.1.toNat) (size - r.1.toNat)
    else (-1, cp, r.2)

/-- The function `lcf_getCommandLine`: the result and the buffer after the call.
`processes` is the list from the head `processes`. -/
def lcf_getCommandLine (processes : List Process) (pid : Int) (buf : List Char)
    (size : Nat) : Int × List Char :=
  match processes.find? fun ep => decide (ep.pid = pid) with
  | none => (-2, buf)
  | some ep =>
    let r := writeWords ep.wrdexp 0 buf 0 size
    ((if r.1 ≠ -1 then (r.2.1 : Int) else r.1), r.2.2)

/-- The words of a command line joined by single spaces. -/
def joinWords : List (List Char) → List Char
  | [] => []
  | [word] => word
  | word :: rest => word ++ ' ' :: joinWords rest

/-! ## Theorems -/

/-- Once a non-negative status is stored, further calls of `taskExit` keep it. -/
theorem foldl_taskExit_latched (statuses : List Int) (down7 : Down7)
    (hset : 0 ≤ down7.exitStatus) :
    (statuses.foldl taskExit down7).exitStatus = down7.exitStatus := by
  induction statuses generalizing down7 with
  | nil => rfl
  | cons s rest ih =>
    have hkeep : (taskExit down7 s).exitStatus = down7.exitStatus := by
      simp [taskExit, not_lt.mpr hset]
    rw [List.foldl_cons, ih (taskExit down7 s) (by rw [hkeep]; exact hset), hkeep]

/-- Once the task-exited flag is set, further calls of `taskExit` keep it set. -/
theorem foldl_taskExit_flag (statuses : List Int) (down7 : Down7)
    (hflag : down7.taskExited = 1) :
    (statuses.foldl taskExit down7).taskExited = 1 := by
  induction statuses generalizing down7 with
  | nil => exact hflag
  | cons s rest ih =>
    rw [List.foldl_cons]
    exact ih (taskExit down7 s) (by simp [taskExit])

/-- C1: for a coordinator whose exit-status slot is unset (`exitStatus = -1`) and a
non-empty serialised sequence `s1, ..., sn` of task exits with non-negative
statuses, after all calls of `taskExit` the slot holds `s1` and the task-exited
flag is set. -/
theorem C1_taskExit_first_status_wins (down7 : Down7) (s1 : Int) (rest : List Int)
    (hunset : down7.exitStatus = -1) (hnonneg : ∀ s ∈ s1 :: rest, 0 ≤ s) :
    ((s1 :: rest).foldl taskExit down7).exitStatus = s1 ∧
      ((s1 :: rest).foldl taskExit down7).taskExited = 1 := by
  have hs1 : 0 ≤ s1 := hnonneg s1 (List.mem_cons_self _ _)
  have hfirst : (taskExit down7 s1).exitStatus = s1 := by
    simp [taskExit, hunset]
  refine ⟨?_, ?_⟩
  · rw [List.foldl_cons, foldl_taskExit_latched rest _ (by rw [hfirst]; exact hs1), hfirst]
  · rw [List.foldl_cons]
    exact foldl_taskExit_flag rest _ (by simp [taskExit])

/-- Witness of C1: three tasks exit with the statuses `LDM7_RPC`, `LDM7_SHUTDOWN`,
`LDM7_SYSTEM`, in that order, on a new coordinator. -/
theorem C1_taskExit_first_status_wins_witness :
    ((down7_new 0 ⟨[], [], none, false⟩).exitStatus = -1 ∧
      ∀ s ∈ [LDM7_RPC, LDM7_SHUTDOWN, LDM7_SYSTEM], 0 ≤ s) ∧
    (([LDM7_RPC, LDM7_SHUTDOWN, LDM7_SYSTEM].foldl taskExit
        (down7_new 0 ⟨[], [], none, false⟩)).exitStatus = LDM7_RPC ∧
      ([LDM7_RPC, LDM7_SHUTDOWN, LDM7_SYSTEM].foldl taskExit
        (down7_new 0 ⟨[], [], none, false⟩)).taskExited = 1) :=
  ⟨⟨rfl, by decide⟩,
    C1_taskExit_first_status_wins (down7_new 0 ⟨[], [], none, false⟩) LDM7_RPC
      [LDM7_SHUTDOWN, LDM7_SYSTEM] rfl (by decide)⟩

/-- C4: when the requested queue is empty or its head differs from the index that
the delivered product claims, `deliver_missed_product_7_svc` reports a delivery
failure and does nothing else: no product-store insertion is made and the
session memory, with the requested queue, is unchanged. -/
theorem C4_unexpected_product_rejected (down7 : Down7) (missedProd : MissedProduct)
    (lockStatus insertStatus : Int)
    (hhead : down7.msm.requestedQ.head? ≠ some missedProd.iProd) :
    deliver_missed_product_7_svc down7 missedProd lockStatus insertStatus =
      { down7 with events := down7.events ++ [Event.deliveryFailure missedProd.prod.info] } := by
  unfold deliver_missed_product_7_svc msm_peekRequestedFileNoWait
  cases hq : down7.msm.requestedQ.head? with
  | none => rfl
  | some iProd =>
    have hne : iProd ≠ missedProd.iProd := by
      intro heq
      exact hhead (by rw [hq, heq])
    simp [hne, deliveryFailure]

/-- Witness of C4: a product that claims index 7 arrives while the head of the
requested queue is 9. -/
theorem C4_unexpected_product_rejected_witness :
    (down7_new 0 ⟨[], [9, 7], none, false⟩).msm.requestedQ.head? ≠ some 7 ∧
    deliver_missed_product_7_svc (down7_new 0 ⟨[], [9, 7], none, false⟩)
        ⟨7, ⟨⟨42⟩, []⟩⟩ 0 0 =
      { down7_new 0 ⟨[], [9, 7], none, false⟩ with
        events := (down7_new 0 ⟨[], [9, 7], none, false⟩).events ++
          [Event.deliveryFailure ⟨42⟩] } :=
  ⟨by decide,
    C4_unexpected_product_rejected (down7_new 0 ⟨[], [9, 7], none, false⟩)
      ⟨7, ⟨⟨42⟩, []⟩⟩ 0 0 (by decide)⟩

/-- The function `deliver_product` leaves the session memory alone. -/
theorem deliver_product_msm (down7 : Down7) (prod : product) (lockStatus insertStatus : Int) :
    (deliver_product down7 prod lockStatus insertStatus).2.msm = down7.msm := by
  unfold deliver_product insertAndUnlock
  dsimp only
  split_ifs <;> rfl

/-- The function `deliveryFailure` leaves the session memory alone. -/
theorem deliveryFailure_msm (down7 : Down7) (info : prod_info) :
    (deliveryFailure down7 info).msm = down7.msm := rfl

/-- The function `deliver_product` with the product-queue unlocked and an insertion
that does not report `EINVAL`: the result is `0` and the insertion is the one
event added. -/
theorem deliver_product_accepts (down7 : Down7) (prod : product) (insertStatus : Int)
    (hins : insertStatus ≠ EINVAL) :
    deliver_product down7 prod 0 insertStatus =
      (0, { down7 with events := down7.events ++ [Event.pq_insert prod insertStatus] }) := by
  unfold deliver_product insertAndUnlock
  by_cases h0 : insertStatus = 0
  · simp [h0]
  · simp [h0, hins]

/-- A delivery that passes the head check pops the head of the requested queue,
whatever the product-queue answers. -/
theorem deliver_missed_pops (down7 : Down7) (missedProd : MissedProduct)
    (lockStatus insertStatus : Int) (tail : List VcmtpProdIndex)
    (hq : down7.msm.requestedQ = missedProd.iProd :: tail) :
    (deliver_missed_product_7_svc down7 missedProd lockStatus insertStatus).msm.requestedQ
      = tail := by
  unfold deliver_missed_product_7_svc msm_peekRequestedFileNoWait
  simp only [hq, List.head?_cons, ne_eq, not_true_eq_false, if_false]
  split_ifs
  · rw [deliver_product_msm]
    simp [msm_removeRequestedFileNoWait, hq]
  · rw [deliveryFailure_msm, deliver_product_msm]
    simp [msm_removeRequestedFileNoWait, hq]

/-- A delivery that passes the head check, finds the product-queue unlocked and
whose insertion does not report `EINVAL` adds the insertion to the events and
nothing else. -/
theorem deliver_missed_events (down7 : Down7) (missedProd : MissedProduct)
    (insertStatus : Int) (tail : List VcmtpProdIndex)
    (hq : down7.msm.requestedQ = missedProd.iProd :: tail) (hins : insertStatus ≠ EINVAL) :
    (deliver_missed_product_7_svc down7 missedProd 0 insertStatus).events
      = down7.events ++ [Event.pq_insert missedProd.prod insertStatus] := by
  unfold deliver_missed_product_7_svc msm_peekRequestedFileNoWait
  simp only [hq, List.head?_cons, ne_eq, not_true_eq_false, if_false]
  rw [deliver_product_accepts _ _ _ hins]
  simp

/-- C5: when the requested queue starts with `i1, ..., in` and products claiming
these indices are delivered in that order, every delivery passes the head check
and pops the head, so that exactly the entries behind `in` remain (none when the
queue was `i1, ..., in`); and when every insertion takes place (`pq_lock` returns
`0`) and yields ok, duplicate or too-large, the handler makes the `n` insertions
and nothing else: no delivery failure is reported. -/
theorem C5_deliveries_in_order_drain (down7 : Down7) (ds : List (MissedProduct × Int × Int))
    (behind : List VcmtpProdIndex)
    (hq : down7.msm.requestedQ = ds.map (fun x => x.1.iProd) ++ behind) :
    (runSteps down7
        (ds.map fun x => TaskStep.deliverMissed x.1 x.2.1 x.2.2)).msm.requestedQ = behind ∧
      ((∀ x ∈ ds, x.2.1 = 0 ∧ (x.2.2 = 0 ∨ x.2.2 = PQUEUE_DUP ∨ x.2.2 = PQUEUE_BIG)) →
        (runSteps down7 (ds.map fun x => TaskStep.deliverMissed x.1 x.2.1 x.2.2)).events
          = down7.events ++ ds.map (fun x => Event.pq_insert x.1.prod x.2.2)) := by
  induction ds generalizing down7 with
  | nil => exact ⟨by simpa [runSteps] using hq, fun _ => by simp [runSteps]⟩
  | cons x xs ih =>
    have hq1 : down7.msm.requestedQ = x.1.iProd :: (xs.map (fun y => y.1.iProd) ++ behind) := by
      simpa using hq
    have hpop := deliver_missed_pops down7 x.1 x.2.1 x.2.2 _ hq1
    obtain ⟨ihq, ihe⟩ := ih (deliver_missed_product_7_svc down7 x.1 x.2.1 x.2.2) hpop
    refine ⟨by simpa [runSteps, TaskStep.run] using ihq, fun hall => ?_⟩
    obtain ⟨hlock, hins⟩ := hall x (List.mem_cons_self _ _)
    have hx : x.2.2 ≠ EINVAL := by
      rcases hins with h | h | h <;> rw [h] <;> decide
    have hev := deliver_missed_events down7 x.1 x.2.2 _ hq1 hx
    have hrest := ihe (fun y hy => hall y (List.mem_cons_of_mem _ hy))
    simp only [runSteps, TaskStep.run, List.map_cons, List.foldl_cons] at hrest ⊢
    rw [hrest, hlock, hev]
    simp

/-- Witness of C5 (scenario A): the requested queue is `[3, 1, 2]` and the products
3, 1, 2 are delivered in that order; the insertions yield ok, duplicate and
too-large. -/
theorem C5_deliveries_in_order_drain_witness :
    ((down7_new 0 ⟨[], [3, 1, 2], none, false⟩).msm.requestedQ =
        scenarioA.map (fun x => x.1.iProd) ++ [] ∧
      ∀ x ∈ scenarioA, x.2.1 = 0 ∧ (x.2.2 = 0 ∨ x.2.2 = PQUEUE_DUP ∨ x.2.2 = PQUEUE_BIG)) ∧
    ((runSteps (down7_new 0 ⟨[], [3, 1, 2], none, false⟩)
        (scenarioA.map fun x => TaskStep.deliverMissed x.1 x.2.1 x.2.2)).msm.requestedQ = [] ∧
      (runSteps (down7_new 0 ⟨[], [3, 1, 2], none, false⟩)
        (scenarioA.map fun x => TaskStep.deliverMissed x.1 x.2.1 x.2.2)).events =
        (down7_new 0 ⟨[], [3, 1, 2], none, false⟩).events ++
          scenarioA.map (fun x => Event.pq_insert x.1.prod x.2.2)) :=
  ⟨⟨rfl, by decide⟩,
    (C5_deliveries_in_order_drain (down7_new 0 ⟨[], [3, 1, 2], none, false⟩)
      scenarioA [] rfl).1,
    (C5_deliveries_in_order_drain (down7_new 0 ⟨[], [3, 1, 2], none, false⟩)
      scenarioA [] rfl).2 (by decide)⟩

/-- The first call of `down7_lastReceived` on a coordinator whose multicast-working
flag is clear. -/
theorem lastReceived_first (down7 : Down7) (last : prod_info) (createStatus : Int)
    (hclear : down7.mcastWorking = false) :
    down7_lastReceived down7 last createStatus =
      { down7 with
        msm := msm_setLastMcastProd down7.msm last.signature
        mcastWorking := true
        firstMcast := last.signature
        events := down7.events ++ [Event.pthread_create_backlog createStatus] } := by
  simp [down7_lastReceived, hclear]

/-- A call of `down7_lastReceived` on a coordinator whose multicast-working flag is
set only overwrites the signature in the session memory. -/
theorem lastReceived_later (down7 : Down7) (last : prod_info) (createStatus : Int)
    (hset : down7.mcastWorking = true) :
    down7_lastReceived down7 last createStatus =
      { down7 with msm := msm_setLastMcastProd down7.msm last.signature } := by
  simp [down7_lastReceived, hset]

/-- Calls of `down7_lastReceived` on a coordinator whose multicast-working flag is
set change neither the flag nor `firstMcast` nor the events. -/
theorem foldl_lastReceived_later (calls : List (prod_info × Int)) (down7 : Down7)
    (hset : down7.mcastWorking = true) :
    (calls.foldl (fun d c => down7_lastReceived d c.1 c.2) down7).mcastWorking = true ∧
      (calls.foldl (fun d c => down7_lastReceived d c.1 c.2) down7).firstMcast
        = down7.firstMcast ∧
      (calls.foldl (fun d c => down7_lastReceived d c.1 c.2) down7).events = down7.events := by
  induction calls generalizing down7 with
  | nil => exact ⟨hset, rfl, rfl⟩
  | cons c rest ih =>
    have hstep := lastReceived_later down7 c.1 c.2 hset
    have := ih (down7_lastReceived down7 c.1 c.2) (by rw [hstep]; exact hset)
    rw [List.foldl_cons]
    rw [hstep] at this ⊢
    exact this

/-- C8: starting from a coordinator whose multicast-working flag is clear, after
any `n >= 1` calls of `down7_lastReceived` exactly one attempt to start the
backlog thread has been made, by the first call; `firstMcast` is the signature
of the first call; and the flag is set.  (The statement for the list made of the
first call alone is the state after the first call.) -/
theorem C8_lastReceived_starts_backlog_once (down7 : Down7) (first : prod_info × Int)
    (rest : List (prod_info × Int)) (hclear : down7.mcastWorking = false) :
    ((first :: rest).foldl (fun d c => down7_lastReceived d c.1 c.2) down7).events
        = down7.events ++ [Event.pthread_create_backlog first.2] ∧
      ((first :: rest).foldl (fun d c => down7_lastReceived d c.1 c.2) down7).firstMcast
        = first.1.signature ∧
      ((first :: rest).foldl (fun d c => down7_lastReceived d c.1 c.2) down7).mcastWorking
        = true := by
  have hstep := lastReceived_first down7 first.1 first.2 hclear
  have hrest := foldl_lastReceived_later rest (down7_lastReceived down7 first.1 first.2)
    (by rw [hstep])
  rw [List.foldl_cons]
  refine ⟨?_, ?_, hrest.1⟩
  · rw [hrest.2.2, hstep]
  · rw [hrest.2.1, hstep]

/-- Witness of C8: three products with the signatures 11, 12, 13 are received on a
new coordinator. -/
theorem C8_lastReceived_starts_backlog_once_witness :
    (down7_new 0 ⟨[], [], none, false⟩).mcastWorking = false ∧
    (([(⟨11⟩, (0 : Int)), (⟨12⟩, 0), (⟨13⟩, 0)].foldl
        (fun d (c : prod_info × Int) => down7_lastReceived d c.1 c.2)
        (down7_new 0 ⟨[], [], none, false⟩)).events
        = (down7_new 0 ⟨[], [], none, false⟩).events ++ [Event.pthread_create_backlog 0] ∧
      ([(⟨11⟩, (0 : Int)), (⟨12⟩, 0), (⟨13⟩, 0)].foldl
        (fun d (c : prod_info × Int) => down7_lastReceived d c.1 c.2)
        (down7_new 0 ⟨[], [], none, false⟩)).firstMcast = 11 ∧
      ([(⟨11⟩, (0 : Int)), (⟨12⟩, 0), (⟨13⟩, 0)].foldl
        (fun d (c : prod_info × Int) => down7_lastReceived d c.1 c.2)
        (down7_new 0 ⟨[], [], none, false⟩)).mcastWorking = true) :=
  ⟨rfl,
    C8_lastReceived_starts_backlog_once (down7_new 0 ⟨[], [], none, false⟩) (⟨11⟩, 0)
      [(⟨12⟩, 0), (⟨13⟩, 0)] rfl⟩

/-! ### What the task steps leave alone -/

/-- The function `makeRequest` changes the session memory and the events only, and
the events by appending. -/
theorem makeRequest_frame (down7 : Down7) (uninit : VcmtpProdIndex) (addOk : Bool)
    (clntStat : Int) (r : Int × Down7)
    (h : makeRequest down7 uninit addOk clntStat = some r) :
    ∃ msm added, r.2 = { down7 with msm := msm, events := down7.events ++ added } := by
  unfold makeRequest at h
  split at h
  · exact absurd h (by simp)
  · rename_i peeked _
    split at h
    · injection h with h
      subst h
      exact ⟨down7.msm, [], by simp⟩
    · dsimp only at h
      split at h
      · injection h with h
        subst h
        exact ⟨(msm_addRequestedFile down7.msm peeked.2 addOk).2, [], by simp⟩
      · injection h with h
        subst h
        unfold requestProduct
        dsimp only
        split <;> exact ⟨_, _, rfl⟩

/-- A `makeRequest` step changes the session memory and the events only, and the
events by appending. -/
theorem run_makeRequest_frame (down7 : Down7) (uninit : VcmtpProdIndex) (addOk : Bool)
    (clntStat : Int) :
    ∃ msm added, TaskStep.run down7 (TaskStep.makeRequest uninit addOk clntStat) =
      { down7 with msm := msm, events := down7.events ++ added } := by
  simp only [TaskStep.run]
  cases h : makeRequest down7 uninit addOk clntStat with
  | none => exact ⟨down7.msm, [], by simp⟩
  | some r => exact makeRequest_frame down7 uninit addOk clntStat r h

/-- No task step writes `prevLastMcast` or `prevLastMcastSet`. -/
theorem run_prevLastMcast (down7 : Down7) (step : TaskStep) :
    (TaskStep.run down7 step).prevLastMcast = down7.prevLastMcast ∧
      (TaskStep.run down7 step).prevLastMcastSet = down7.prevLastMcastSet := by
  cases step with
  | makeRequest uninit addOk clntStat =>
    obtain ⟨msm, added, h⟩ := run_makeRequest_frame down7 uninit addOk clntStat
    rw [h]
    exact ⟨rfl, rfl⟩
  | _ =>
    simp only [TaskStep.run, taskExit, down7_missedProduct, down7_lastReceived,
      requestSessionBacklog, deliver_missed_product_7_svc,
      deliver_backlog_product_7_svc, deliver_product, insertAndUnlock, deliveryFailure,
      no_such_product_7_svc]
    repeat' split
    all_goals simp_all

/-- Once the multicast-working flag is set, no task step clears it or writes
`firstMcast`. -/
theorem run_mcastWorking (down7 : Down7) (step : TaskStep)
    (hset : down7.mcastWorking = true) :
    (TaskStep.run down7 step).mcastWorking = true ∧
      (TaskStep.run down7 step).firstMcast = down7.firstMcast := by
  cases step with
  | makeRequest uninit addOk clntStat =>
    obtain ⟨msm, added, h⟩ := run_makeRequest_frame down7 uninit addOk clntStat
    rw [h]
    exact ⟨hset, rfl⟩
  | _ =>
    simp only [TaskStep.run, taskExit, down7_missedProduct, down7_lastReceived,
      requestSessionBacklog, deliver_missed_product_7_svc,
      deliver_backlog_product_7_svc, deliver_product, insertAndUnlock, deliveryFailure,
      no_such_product_7_svc]
    repeat' split
    all_goals simp_all

/-- Once the task-exited flag is set, no task step clears it. -/
theorem run_taskExited (down7 : Down7) (step : TaskStep) (hset : down7.taskExited = 1) :
    (TaskStep.run down7 step).taskExited = 1 := by
  cases step with
  | makeRequest uninit addOk clntStat =>
    obtain ⟨msm, added, h⟩ := run_makeRequest_frame down7 uninit addOk clntStat
    rw [h]
    exact hset
  | _ =>
    simp only [TaskStep.run, taskExit, down7_missedProduct, down7_lastReceived,
      requestSessionBacklog, deliver_missed_product_7_svc,
      deliver_backlog_product_7_svc, deliver_product, insertAndUnlock, deliveryFailure,
      no_such_product_7_svc]
    repeat' split
    all_goals simp_all

/-- Every task step keeps the events that were there and appends its own. -/
theorem run_events_kept (down7 : Down7) (step : TaskStep) :
    down7.events <+: (TaskStep.run down7 step).events := by
  cases step with
  | makeRequest uninit addOk clntStat =>
    obtain ⟨msm, added, h⟩ := run_makeRequest_frame down7 uninit addOk clntStat
    rw [h]
    exact List.prefix_append _ _
  | _ =>
    simp only [TaskStep.run, taskExit, down7_missedProduct, down7_lastReceived,
      requestSessionBacklog, deliver_missed_product_7_svc,
      deliver_backlog_product_7_svc, deliver_product, insertAndUnlock, deliveryFailure,
      no_such_product_7_svc]
    repeat' split
    all_goals simp_all

/-- The steps of a list write neither `prevLastMcast` nor `prevLastMcastSet`. -/
theorem runSteps_prevLastMcast (steps : List TaskStep) (down7 : Down7) :
    (runSteps down7 steps).prevLastMcast = down7.prevLastMcast ∧
      (runSteps down7 steps).prevLastMcastSet = down7.prevLastMcastSet := by
  induction steps generalizing down7 with
  | nil => exact ⟨rfl, rfl⟩
  | cons step rest ih =>
    have h1 := run_prevLastMcast down7 step
    have h2 := ih (TaskStep.run down7 step)
    simp only [runSteps, List.foldl_cons] at h2 ⊢
    exact ⟨h2.1.trans h1.1, h2.2.trans h1.2⟩

/-- Once the multicast-working flag is set, the steps of a list neither clear it
nor write `firstMcast`. -/
theorem runSteps_mcastWorking (steps : List TaskStep) (down7 : Down7)
    (hset : down7.mcastWorking = true) :
    (runSteps down7 steps).mcastWorking = true ∧
      (runSteps down7 steps).firstMcast = down7.firstMcast := by
  induction steps generalizing down7 with
  | nil => exact ⟨hset, rfl⟩
  | cons step rest ih =>
    have h1 := run_mcastWorking down7 step hset
    have h2 := ih (TaskStep.run down7 step) h1.1
    simp only [runSteps, List.foldl_cons] at h2 ⊢
    exact ⟨h2.1, h2.2.trans h1.2⟩

/-- Once the task-exited flag is set, the steps of a list do not clear it. -/
theorem runSteps_taskExited (steps : List TaskStep) (down7 : Down7)
    (hset : down7.taskExited = 1) : (runSteps down7 steps).taskExited = 1 := by
  induction steps generalizing down7 with
  | nil => exact hset
  | cons step rest ih =>
    have h2 := ih (TaskStep.run down7 step) (run_taskExited down7 step hset)
    simpa only [runSteps, List.foldl_cons] using h2

/-- The steps of a list keep the events that were there. -/
theorem runSteps_events_kept (steps : List TaskStep) (down7 : Down7) :
    down7.events <+: (runSteps down7 steps).events := by
  induction steps generalizing down7 with
  | nil => exact List.prefix_refl _
  | cons step rest ih =>
    have h2 := ih (TaskStep.run down7 step)
    simp only [runSteps, List.foldl_cons] at h2 ⊢
    exact (run_events_kept down7 step).trans h2

/-- The steps of two lists, one list after the other. -/
theorem runSteps_append (down7 : Down7) (xs ys : List TaskStep) :
    runSteps down7 (xs ++ ys) = runSteps (runSteps down7 xs) ys := by
  simp [runSteps, List.foldl_append]

/-- After a list of steps that contains a call of `taskExit` the task-exited flag
is set. -/
theorem runSteps_exit_sets_flag (steps : List TaskStep) (down7 : Down7) (status : Int)
    (hmem : TaskStep.taskExit status ∈ steps) : (runSteps down7 steps).taskExited = 1 := by
  obtain ⟨xs, ys, rfl⟩ := List.append_of_mem hmem
  rw [runSteps_append]
  have : runSteps (runSteps down7 xs) (TaskStep.taskExit status :: ys) =
      runSteps (taskExit (runSteps down7 xs) status) ys := rfl
  rw [this]
  exact runSteps_taskExited ys _ (by simp [taskExit])

/-! ### Sessions in which the three tasks are started -/

/-- A task step other than a call of `down7_lastReceived` writes neither the
multicast-working flag nor `firstMcast`. -/
theorem run_mcastWorking_other (down7 : Down7) (step : TaskStep)
    (hother : ∀ last createStatus, step ≠ TaskStep.lastReceived last createStatus) :
    (TaskStep.run down7 step).mcastWorking = down7.mcastWorking ∧
      (TaskStep.run down7 step).firstMcast = down7.firstMcast := by
  cases step with
  | makeRequest uninit addOk clntStat =>
    obtain ⟨msm, added, h⟩ := run_makeRequest_frame down7 uninit addOk clntStat
    rw [h]
    exact ⟨rfl, rfl⟩
  | lastReceived last createStatus => exact absurd rfl (hother last createStatus)
  | _ =>
    simp only [TaskStep.run, taskExit, down7_missedProduct,
      requestSessionBacklog, deliver_missed_product_7_svc,
      deliver_backlog_product_7_svc, deliver_product, insertAndUnlock, deliveryFailure,
      no_such_product_7_svc]
    repeat' split
    all_goals simp_all

/-- Steps other than calls of `down7_lastReceived` write neither the
multicast-working flag nor `firstMcast`. -/
theorem runSteps_mcastWorking_other (steps : List TaskStep) (down7 : Down7)
    (hother : ∀ step ∈ steps, ∀ last createStatus,
      step ≠ TaskStep.lastReceived last createStatus) :
    (runSteps down7 steps).mcastWorking = down7.mcastWorking ∧
      (runSteps down7 steps).firstMcast = down7.firstMcast := by
  induction steps generalizing down7 with
  | nil => exact ⟨rfl, rfl⟩
  | cons step rest ih =>
    have h1 := run_mcastWorking_other down7 step (hother step (List.mem_cons_self _ _))
    have h2 := ih (TaskStep.run down7 step) (fun x hx => hother x (List.mem_cons_of_mem _ hx))
    simp only [runSteps, List.foldl_cons] at h2 ⊢
    exact ⟨h2.1.trans h1.1, h2.2.trans h1.2⟩

/-- The call of `runDown7Once` in a session in which the session memory opens, the
client connects, the subscription is accepted, the three threads are created
and the coordinator is woken: the tasks run on the object that `openSession`
returns, and the result is the one of `waitOnTasks`, or `LDM7_SYSTEM` when the
session memory cannot be closed. -/
theorem runDown7Once_started (down7 : Down7) (s : Session)
    (hopen : s.msmOpenOk = true) (hclient : s.newClientStatus = 0) (hreply : s.reply = some 0)
    (hthreads : s.createReceive = 0 ∧ s.createRequest = 0 ∧ s.createMcast = 0)
    (hwake : s.doneAtWake = true ∨
      (runSteps (openSession down7 { down7.msm with missedShutDown := false })
        s.running).taskExited = 1) :
    runDown7Once down7 s =
      some ((if !s.msmCloseOk then LDM7_SYSTEM
          else if s.doneAtReturn then LDM7_SHUTDOWN
          else (terminateTasks
            (runSteps (openSession down7 { down7.msm with missedShutDown := false }) s.running)
            s.draining).1),
        (terminateTasks
          (runSteps (openSession down7 { down7.msm with missedShutDown := false }) s.running)
          s.draining).2) := by
  obtain ⟨h1, h2, h3⟩ := hthreads
  have hw : (!s.doneAtWake &&
      decide ((runSteps (openSession down7 { down7.msm with missedShutDown := false })
        s.running).taskExited = 0)) = false := by
    rcases hwake with h | h
    · simp [h]
    · simp [h]
  simp only [runDown7Once, msm_open, hopen, if_true, createClientAndExecute, hclient,
    subscribeAndExecute, hreply, execute, startTasks, h1, h2, h3, waitOnTasks]
  simp [hw]

/-- The request that `requestSessionBacklog` sends, as a function of the fields it
reads. -/
theorem requestSessionBacklog_events (down7 : Down7) (uninit : signaturet) (timeOffset : Nat)
    (clntStat : Int) :
    (requestSessionBacklog down7 uninit timeOffset clntStat).2.events =
      down7.events ++ [Event.request_backlog_7
        { after := if down7.prevLastMcastSet then down7.prevLastMcast else uninit
          afterIsSet := down7.prevLastMcastSet
          before := down7.firstMcast
          timeOffset := timeOffset }] := by
  unfold requestSessionBacklog
  dsimp only
  split <;> rfl

/-- What `openSession` reads from the session memory. -/
theorem openSession_prevLastMcast (down7 : Down7) (msm : McastSessionMemory)
    (uninit : signaturet) :
    (openSession down7 msm).prevLastMcastSet = msm.lastMcastProd.isSome ∧
      (if (openSession down7 msm).prevLastMcastSet then (openSession down7 msm).prevLastMcast
        else uninit) = msm.lastMcastProd.getD uninit := by
  unfold openSession msm_getLastMcastProd
  cases msm.lastMcastProd <;> simp

/-- The steps of a list around two of its steps. -/
theorem runSteps_split (down7 : Down7) (pre mid post : List TaskStep) (a b : TaskStep) :
    runSteps down7 (pre ++ a :: mid ++ b :: post) =
      runSteps (TaskStep.run (runSteps (TaskStep.run (runSteps down7 pre) a) mid) b) post := by
  simp [runSteps, List.foldl_append]

/-- C9: in a session that `runDown7Once` starts on a coordinator whose
multicast-working flag is clear, the backlog request that
`requestSessionBacklog` sends after the first call of `down7_lastReceived` has
`before` = the signature of that first product, `afterIsSet` = whether the
session memory held a last-product signature when `runDown7Once` opened it,
`after` = that signature when there is one (the indeterminate content of the
local otherwise), and `timeOffset` = the value of `getTimeOffset()`; steps of
other tasks before and after do not change this. -/
theorem C9_backlog_request_bounds (down7 : Down7) (s : Session)
    (pre mid post : List TaskStep) (last : prod_info) (uninit : signaturet)
    (timeOffset : Nat) (clntStat : Int)
    (hfresh : down7.mcastWorking = false)
    (hopen : s.msmOpenOk = true) (hclient : s.newClientStatus = 0) (hreply : s.reply = some 0)
    (hthreads : s.createReceive = 0 ∧ s.createRequest = 0 ∧ s.createMcast = 0)
    (hrun : s.running = pre ++ TaskStep.lastReceived last 0 :: mid ++
      TaskStep.sessionBacklog uninit timeOffset clntStat :: post)
    (hpre : ∀ step ∈ pre, ∀ l c, step ≠ TaskStep.lastReceived l c)
    (hwake : s.doneAtWake = true ∨ ∃ status, TaskStep.taskExit status ∈ s.running) :
    ∃ r, runDown7Once down7 s = some r ∧
      Event.request_backlog_7
        { after := down7.msm.lastMcastProd.getD uninit
          afterIsSet := down7.msm.lastMcastProd.isSome
          before := last.signature
          timeOffset := timeOffset } ∈ r.2.events := by
  have hwake2 : s.doneAtWake = true ∨
      (runSteps (openSession down7 { down7.msm with missedShutDown := false })
        s.running).taskExited = 1 := by
    rcases hwake with h | ⟨status, h⟩
    · exact Or.inl h
    · exact Or.inr (runSteps_exit_sets_flag _ _ status h)
  refine ⟨_, runDown7Once_started down7 s hopen hclient hreply hthreads hwake2, ?_⟩
  -- the object the tasks start on
  generalize hd0 : openSession down7 { down7.msm with missedShutDown := false } = d0
  have hopened := openSession_prevLastMcast down7 { down7.msm with missedShutDown := false } uninit
  rw [hd0] at hopened
  have hd0w : d0.mcastWorking = false := by rw [← hd0]; exact hfresh
  -- the steps before the first receipt
  have hp1 := runSteps_mcastWorking_other pre d0 hpre
  have hp2 := runSteps_prevLastMcast pre d0
  generalize hd1 : runSteps d0 pre = d1 at hp1 hp2
  -- the first receipt
  have hl := lastReceived_first d1 last 0 (by rw [hp1.1, hd0w])
  generalize hd2 : down7_lastReceived d1 last 0 = d2 at hl
  have hd2w : d2.mcastWorking = true := by rw [hl]
  have hd2f : d2.firstMcast = last.signature := by rw [hl]
  have hd2p : d2.prevLastMcast = d1.prevLastMcast ∧ d2.prevLastMcastSet = d1.prevLastMcastSet := by
    rw [hl]; exact ⟨rfl, rfl⟩
  -- the steps between the receipt and the request
  have hm1 := runSteps_mcastWorking mid d2 hd2w
  have hm2 := runSteps_prevLastMcast mid d2
  generalize hd3 : runSteps d2 mid = d3 at hm1 hm2
  -- the request
  have hreq := requestSessionBacklog_events d3 uninit timeOffset clntStat
  rw [hm2.1, hm2.2, hd2p.1, hd2p.2, hp2.1, hp2.2, hm1.2, hd2f, hopened.2, hopened.1] at hreq
  -- the steps after the request, and the end of the session
  have hsplit : runSteps d0 s.running =
      runSteps (requestSessionBacklog d3 uninit timeOffset clntStat).2 post := by
    rw [hrun, runSteps_split, hd1]
    show runSteps (TaskStep.run (runSteps (down7_lastReceived d1 last 0) mid) _) post = _
    rw [hd2, hd3]
    rfl
  have hmem : Event.request_backlog_7
      { after := down7.msm.lastMcastProd.getD uninit
        afterIsSet := down7.msm.lastMcastProd.isSome
        before := last.signature
        timeOffset := timeOffset } ∈ (runSteps d0 s.running).events := by
    rw [hsplit]
    refine (runSteps_events_kept post _).subset ?_
    rw [hreq]
    simp
  unfold terminateTasks
  dsimp only
  refine (runSteps_events_kept s.draining _).subset ?_
  simp only [List.mem_append]
  exact Or.inl hmem

/-- Witness of C9 (scenario B): the session memory holds the signature 100 of the
previous session and the first product received in this session has the
signature 200; the request is (after 100, before 200). -/
theorem C9_backlog_request_bounds_witness :
    ((down7_new 0 ⟨[], [], some 100, false⟩).mcastWorking = false ∧
      (receiving 200 201 [TaskStep.sessionBacklog 7 3600 RPC_TIMEDOUT]).running =
        [] ++ TaskStep.lastReceived ⟨200⟩ 0 :: [] ++
          TaskStep.sessionBacklog 7 3600 RPC_TIMEDOUT ::
            [TaskStep.lastReceived ⟨201⟩ 0, TaskStep.taskExit LDM7_RPC]) ∧
    ∃ r, runDown7Once (down7_new 0 ⟨[], [], some 100, false⟩)
        (receiving 200 201 [TaskStep.sessionBacklog 7 3600 RPC_TIMEDOUT]) = some r ∧
      Event.request_backlog_7
        { after := 100, afterIsSet := true, before := 200, timeOffset := 3600 } ∈ r.2.events :=
  ⟨⟨rfl, rfl⟩,
    C9_backlog_request_bounds (down7_new 0 ⟨[], [], some 100, false⟩)
      (receiving 200 201 [TaskStep.sessionBacklog 7 3600 RPC_TIMEDOUT])
      [] [] [TaskStep.lastReceived ⟨201⟩ 0, TaskStep.taskExit LDM7_RPC] ⟨200⟩ 7 3600 RPC_TIMEDOUT
      rfl rfl rfl rfl ⟨rfl, rfl, rfl⟩ rfl (fun _ h => absurd h (List.not_mem_nil _))
      (Or.inr ⟨LDM7_RPC, by decide⟩)⟩

/-! ### The branches of `makeRequest` -/

/-- The function `makeRequest` when the peek returns an index: the result `true`
of the peek is taken for the shutdown, so that the result is `LDM7_SHUTDOWN`
and nothing is changed. -/
theorem makeRequest_peeked (down7 : Down7) (uninit : VcmtpProdIndex) (addOk : Bool)
    (clntStat : Int) (iProd : VcmtpProdIndex) (rest : List VcmtpProdIndex)
    (hopen : down7.msm.missedShutDown = false) (hq : down7.msm.missedQ = iProd :: rest) :
    makeRequest down7 uninit addOk clntStat = some (LDM7_SHUTDOWN, down7) := by
  simp [makeRequest, msm_peekMissedFileWait, hopen, hq]

/-- The function `makeRequest` on a missed queue that has been shut down, when the
requested queue accepts an entry: the content of the local `iProd` is added to
the requested queue, no request is sent and the result is `LDM7_SYSTEM`. -/
theorem makeRequest_shutDown_added (down7 : Down7) (uninit : VcmtpProdIndex) (clntStat : Int)
    (hshut : down7.msm.missedShutDown = true) :
    makeRequest down7 uninit true clntStat =
      some (LDM7_SYSTEM,
        { down7 with
          msm := { down7.msm with requestedQ := down7.msm.requestedQ ++ [uninit] } }) := by
  simp [makeRequest, msm_peekMissedFileWait, hshut, msm_addRequestedFile]

/-- The function `makeRequest` on a missed queue that has been shut down, when the
requested queue does not accept an entry: the oldest entry of the missed queue
is removed, the requested queue is unchanged and a request is sent, for the
removed entry or, when there is none, for the content of the local `iProd`. -/
theorem makeRequest_shutDown_not_added (down7 : Down7) (uninit : VcmtpProdIndex)
    (clntStat : Int) (hshut : down7.msm.missedShutDown = true) :
    makeRequest down7 uninit false clntStat =
      some (requestProduct
        { down7 with msm := { down7.msm with missedQ := down7.msm.missedQ.tail } }
        (down7.msm.missedQ.head?.getD uninit) clntStat) := by
  simp [makeRequest, msm_peekMissedFileWait, hshut, msm_addRequestedFile,
    msm_removeMissedFileNoWait]

/-- The function `makeRequest` neither shuts the missed queue down nor opens it. -/
theorem makeRequest_missedShutDown (down7 : Down7) (uninit : VcmtpProdIndex) (addOk : Bool)
    (clntStat : Int) (r : Int × Down7)
    (h : makeRequest down7 uninit addOk clntStat = some r) :
    r.2.msm.missedShutDown = down7.msm.missedShutDown := by
  cases hs : down7.msm.missedShutDown with
  | true =>
    cases addOk with
    | true =>
      rw [makeRequest_shutDown_added down7 uninit clntStat hs] at h
      injection h with h
      subst h
      exact hs
    | false =>
      rw [makeRequest_shutDown_not_added down7 uninit clntStat hs] at h
      injection h with h
      subst h
      unfold requestProduct
      dsimp only
      split <;> exact hs
  | false =>
    cases hq : down7.msm.missedQ with
    | nil =>
      simp [makeRequest, msm_peekMissedFileWait, hs, hq] at h
    | cons iProd rest =>
      rw [makeRequest_peeked down7 uninit addOk clntStat iProd rest hs hq] at h
      injection h with h
      subst h
      exact hs

/-! ### The exit status across sessions -/

/-- Once a non-negative status is stored, no task step overwrites it. -/
theorem run_exitStatus_latched (down7 : Down7) (step : TaskStep)
    (hset : 0 ≤ down7.exitStatus) :
    (TaskStep.run down7 step).exitStatus = down7.exitStatus := by
  cases step with
  | makeRequest uninit addOk clntStat =>
    obtain ⟨msm, added, h⟩ := run_makeRequest_frame down7 uninit addOk clntStat
    rw [h]
  | _ =>
    simp only [TaskStep.run, taskExit, down7_missedProduct, down7_lastReceived,
      requestSessionBacklog, deliver_missed_product_7_svc,
      deliver_backlog_product_7_svc, deliver_product, insertAndUnlock, deliveryFailure,
      no_such_product_7_svc]
    repeat' split
    all_goals simp_all
    all_goals omega

/-- Once a non-negative status is stored, the steps of a list do not overwrite it. -/
theorem runSteps_exitStatus_latched (steps : List TaskStep) (down7 : Down7)
    (hset : 0 ≤ down7.exitStatus) :
    (runSteps down7 steps).exitStatus = down7.exitStatus := by
  induction steps generalizing down7 with
  | nil => rfl
  | cons step rest ih =>
    have h1 := run_exitStatus_latched down7 step hset
    have h2 := ih (TaskStep.run down7 step) (by rw [h1]; exact hset)
    simp only [runSteps, List.foldl_cons] at h2 ⊢
    exact h2.trans h1

/-- A session that `runDown7Once` starts on a coordinator that holds the status and
the flag of an earlier session: whatever the tasks do, and without any task
exit, the coordinator is woken, and when no shutdown is requested and the
session memory closes the session reports the earlier status. -/
theorem runDown7Once_reports_earlier_status (down7 : Down7) (s : Session)
    (hopen : s.msmOpenOk = true) (hclient : s.newClientStatus = 0) (hreply : s.reply = some 0)
    (hthreads : s.createReceive = 0 ∧ s.createRequest = 0 ∧ s.createMcast = 0)
    (hdone : s.doneAtReturn = false) (hclose : s.msmCloseOk = true)
    (hflag : down7.taskExited = 1) (hstatus : 0 ≤ down7.exitStatus) :
    (runDown7Once down7 s).map Prod.fst = some down7.exitStatus := by
  have hwake : s.doneAtWake = true ∨
      (runSteps (openSession down7 { down7.msm with missedShutDown := false })
        s.running).taskExited = 1 :=
    Or.inr (runSteps_taskExited _ _ hflag)
  rw [runDown7Once_started down7 s hopen hclient hreply hthreads hwake]
  simp only [hdone, hclose, Option.map_some', terminateTasks]
  have h1 : (runSteps (openSession down7 { down7.msm with missedShutDown := false })
      s.running).exitStatus = down7.exitStatus :=
    runSteps_exitStatus_latched _ _ hstatus
  have h2 := runSteps_exitStatus_latched s.draining
    { runSteps (openSession down7 { down7.msm with missedShutDown := false }) s.running with
      msm := msm_shutDownMissedFiles
        (runSteps (openSession down7 { down7.msm with missedShutDown := false }) s.running).msm
      events := (runSteps (openSession down7 { down7.msm with missedShutDown := false })
        s.running).events ++ [Event.mlr_stop, Event.shutdown_wr, Event.shutdown_rd] }
    (by rw [h1]; exact hstatus)
  simp only [Bool.not_true, Bool.false_eq_true, if_false]
  rw [h2, h1]

/-! ### The two queues under the operations that move an index -/

/-- C2, the source at a run of two sessions: the exit-status slot and the
task-exited flag are written by `down7_new` and by `taskExit` only, so the
second call of `runDown7Once` starts with the status `LDM7_RPC` and the flag of
the first session.  In the second session the first task to exit reports
`LDM7_SYSTEM`, which the same session reports on a new coordinator, but the
session reports `LDM7_RPC`; and `waitOnTasks` no longer waits for a task to exit
(in an idle session it blocks on a new coordinator and returns in a second
session). -/
theorem C2_exit_status_survives_session :
    (sessionEntries (down7_new 0 emptyMemory)
        [retry connectionLost, lastIteration receiverFails]).map
        (fun d => (d.exitStatus, d.taskExited)) = [(-1, 0), (LDM7_RPC, 1)] ∧
      firstExit (receiverFails.running ++ receiverFails.draining) = some LDM7_SYSTEM ∧
      (sessionEntries (down7_new 0 emptyMemory)
        [retry connectionLost, lastIteration receiverFails]).map
        (fun d => (runDown7Once d receiverFails).map Prod.fst)
        = [some LDM7_SYSTEM, some LDM7_RPC] ∧
      (sessionEntries (down7_new 0 emptyMemory)
        [retry connectionLost, lastIteration receiverFails]).map
        (fun d => (runDown7Once d idle).map Prod.fst) = [none, some LDM7_RPC] := by
  decide

/-- C3: the requester stops at the first index of the missed queue.  Whenever
the missed queue is open and not empty, the first call of `makeRequest` takes
the result `true` of the successful peek for the shutdown: the requester exits
with `LDM7_SHUTDOWN` by one call of `taskExit`, whatever the requested queue
and the RPC layer would do, without a request and with both queues as they
were.  At scenario A, with the missed queue `[3, 1, 2]`, no request is sent,
the missed queue is still `[3, 1, 2]` and the requested queue is still empty. -/
theorem C3_requester_stops_at_first_index :
    (∀ (down7 : Down7) (iProd : VcmtpProdIndex) (rest : List VcmtpProdIndex)
      (uninit : VcmtpProdIndex) (addOk : Bool) (clntStat : Int)
      (more : List (VcmtpProdIndex × Bool × Int)),
      down7.msm.missedShutDown = false → down7.msm.missedQ = iProd :: rest →
      startRequester down7 ((uninit, addOk, clntStat) :: more) =
        some (LDM7_SHUTDOWN, taskExit down7 LDM7_SHUTDOWN)) ∧
    startRequester (down7_new 0 ⟨[3, 1, 2], [], none, false⟩)
        [(0, true, RPC_TIMEDOUT), (0, true, RPC_TIMEDOUT), (0, true, RPC_TIMEDOUT)] =
      some (LDM7_SHUTDOWN,
        { down7_new 0 ⟨[3, 1, 2], [], none, false⟩ with
          exitStatus := LDM7_SHUTDOWN, taskExited := 1, events := [] }) := by
  refine ⟨?_, by decide⟩
  intro down7 iProd rest uninit addOk clntStat more hopen hq
  have hne : ¬ LDM7_SHUTDOWN = (0 : Int) := by decide
  simp [startRequester, makeRequest_peeked down7 uninit addOk clntStat iProd rest hopen hq, hne]

/-- Witness of C3: the missed queue `[9, 4]` with the requested queue `[8]`. -/
theorem C3_requester_stops_at_first_index_witness :
    startRequester (down7_new 0 ⟨[9, 4], [8], none, false⟩) [(0, true, RPC_TIMEDOUT)] =
      some (LDM7_SHUTDOWN, taskExit (down7_new 0 ⟨[9, 4], [8], none, false⟩) LDM7_SHUTDOWN) :=
  C3_requester_stops_at_first_index.1 (down7_new 0 ⟨[9, 4], [8], none, false⟩) 9 [4] 0 true
    RPC_TIMEDOUT [] rfl rfl

/-- C10, the source at a run of two sessions in each of which two products are
received by multicast: the multicast-working flag is written by `down7_new` and
by `down7_lastReceived` only, so the second session starts with the flag set.
After the second session `firstMcast` is still the signature 11 of the first
product of the first session, `prevLastMcast` is the signature 12 that
`runDown7Once` read for the second session, and the events hold one attempt to
start the backlog thread and one backlog request, both of the first session. -/
theorem C10_backlog_not_started_in_second_session :
    (sessionEntries (down7_new 0 emptyMemory)
        [retry (receiving 11 12 [TaskStep.sessionBacklog 7 3600 RPC_TIMEDOUT]),
          lastIteration (receiving 21 22 [])]).map (fun d => d.mcastWorking)
        = [false, true] ∧
      (down7_execute (down7_new 0 emptyMemory)
        [retry (receiving 11 12 [TaskStep.sessionBacklog 7 3600 RPC_TIMEDOUT]),
          lastIteration (receiving 21 22 [])]).map
        (fun r => (r.1, r.2.firstMcast, r.2.prevLastMcastSet, r.2.prevLastMcast,
          r.2.events.filter Event.isBacklogStart, r.2.events.filter Event.isBacklogRequest))
        = some (LDM7_SHUTDOWN, 11, true, 12, [Event.pthread_create_backlog 0],
          [Event.request_backlog_7
            { after := 7, afterIsSet := false, before := 11, timeOffset := 3600 }]) :=
  ⟨by decide, rfl⟩

/-! ### The retry loop -/

/-- The function `nap` returns `LDM7_SHUTDOWN` or `0`. -/
theorem nap_result (done : Bool) (waits : List (Bool × Bool)) (status : Int)
    (h : nap done waits = some status) : status = LDM7_SHUTDOWN ∨ status = 0 := by
  unfold nap at h
  cases hl : napLoop done waits with
  | none => rw [hl] at h; exact absurd h (by simp)
  | some d =>
    rw [hl] at h
    injection h with h
    subst h
    cases d
    · exact Or.inr rfl
    · exact Or.inl rfl

/-- Whenever `down7_execute` returns, the result is `LDM7_SYSTEM` or
`LDM7_SHUTDOWN`. -/
theorem down7_execute_result (its : List Iteration) (down7 : Down7) (r : Int × Down7)
    (h : down7_execute down7 its = some r) : r.1 = LDM7_SYSTEM ∨ r.1 = LDM7_SHUTDOWN := by
  induction its generalizing down7 with
  | nil => exact absurd h (by simp [down7_execute])
  | cons it rest ih =>
    unfold down7_execute at h
    cases hs : runDown7Once down7 it.session with
    | none => rw [hs] at h; exact absurd h (by simp)
    | some sr =>
      obtain ⟨status, d⟩ := sr
      rw [hs] at h
      dsimp only at h
      by_cases hsys : LDM7_SYSTEM = status
      · rw [if_pos hsys] at h
        injection h with h
        subst h
        exact Or.inl hsys.symm
      · rw [if_neg hsys] at h
        cases hn : nap it.napDone it.napWaits with
        | none => rw [hn] at h; exact absurd h (by simp)
        | some napStatus =>
          rw [hn] at h
          dsimp only at h
          by_cases hshut : LDM7_SHUTDOWN ≠ napStatus
          · rw [if_pos hshut] at h
            exact ih d h
          · rw [if_neg hshut] at h
            injection h with h
            subst h
            exact Or.inr (not_not.mp hshut).symm

/-- C11: in the loop of `down7_execute`, after a session that returned
`LDM7_SYSTEM` the loop stops and returns `LDM7_SYSTEM`, whatever `nap` would do
(no nap follows, no further session is entered); after a session that returned
any other status and a nap that reported the shutdown it stops and returns
`LDM7_SHUTDOWN`; after a session that returned any other status and a nap that
returned `0` it enters another session on the coordinator object that the
session left; and whenever it returns, the result is `LDM7_SYSTEM` or
`LDM7_SHUTDOWN`. -/
theorem C11_execute_loop_decision (down7 : Down7) (it : Iteration) (rest : List Iteration) :
    (∀ r, runDown7Once down7 it.session = some r → r.1 = LDM7_SYSTEM →
      down7_execute down7 (it :: rest) = some r ∧
        sessionEntries down7 (it :: rest) = [down7]) ∧
    (∀ r, runDown7Once down7 it.session = some r → r.1 ≠ LDM7_SYSTEM →
      nap it.napDone it.napWaits = some LDM7_SHUTDOWN →
      down7_execute down7 (it :: rest) = some (LDM7_SHUTDOWN, r.2) ∧
        sessionEntries down7 (it :: rest) = [down7]) ∧
    (∀ r, runDown7Once down7 it.session = some r → r.1 ≠ LDM7_SYSTEM →
      nap it.napDone it.napWaits = some 0 →
      down7_execute down7 (it :: rest) = down7_execute r.2 rest ∧
        sessionEntries down7 (it :: rest) = down7 :: sessionEntries r.2 rest) ∧
    (∀ r, down7_execute down7 (it :: rest) = some r →
      r.1 = LDM7_SYSTEM ∨ r.1 = LDM7_SHUTDOWN) := by
  refine ⟨?_, ?_, ?_, fun r h => down7_execute_result _ _ r h⟩
  · intro r hr hsys
    obtain ⟨status, d⟩ := r
    simp only at hsys
    subst hsys
    simp [down7_execute, sessionEntries, hr]
  · intro r hr hsys hnap
    obtain ⟨status, d⟩ := r
    have hne : ¬ LDM7_SYSTEM = status := fun h => hsys h.symm
    simp [down7_execute, sessionEntries, hr, hne, hnap]
  · intro r hr hsys hnap
    obtain ⟨status, d⟩ := r
    have hne : ¬ LDM7_SYSTEM = status := fun h => hsys h.symm
    have h0 : ¬ LDM7_SHUTDOWN = (0 : Int) := by decide
    simp [down7_execute, sessionEntries, hr, hne, hnap, h0]

/-- Witness of C11 on a new coordinator: a session for which the session memory
cannot be opened returns `LDM7_SYSTEM` and ends the loop although the nap would
wait without end; a refused connection followed by a nap during which the
shutdown is requested ends the loop with `LDM7_SHUTDOWN`; a refused connection
followed by a nap that times out is followed by another session. -/
theorem C11_execute_loop_decision_witness :
    (runDown7Once (down7_new 0 emptyMemory) (unwoken memoryUnavailable).session =
        some (LDM7_SYSTEM, down7_new 0 emptyMemory) ∧
      down7_execute (down7_new 0 emptyMemory) [unwoken memoryUnavailable, retry idle] =
        some (LDM7_SYSTEM, down7_new 0 emptyMemory)) ∧
    ((runDown7Once (down7_new 0 emptyMemory) (lastIteration refused).session =
        some (LDM7_REFUSED, down7_new 0 emptyMemory) ∧
      LDM7_REFUSED ≠ LDM7_SYSTEM ∧
      nap (lastIteration refused).napDone (lastIteration refused).napWaits =
        some LDM7_SHUTDOWN) ∧
      down7_execute (down7_new 0 emptyMemory) [lastIteration refused, retry idle] =
        some (LDM7_SHUTDOWN, down7_new 0 emptyMemory)) ∧
    ((runDown7Once (down7_new 0 emptyMemory) (retry refused).session =
        some (LDM7_REFUSED, down7_new 0 emptyMemory) ∧
      nap (retry refused).napDone (retry refused).napWaits = some 0) ∧
      sessionEntries (down7_new 0 emptyMemory) [retry refused, lastIteration refused] =
        down7_new 0 emptyMemory ::
          sessionEntries (down7_new 0 emptyMemory) [lastIteration refused]) :=
  ⟨⟨rfl,
      ((C11_execute_loop_decision (down7_new 0 emptyMemory) (unwoken memoryUnavailable)
        [retry idle]).1 (LDM7_SYSTEM, down7_new 0 emptyMemory) rfl rfl).1⟩,
    ⟨⟨rfl, by decide, rfl⟩,
      ((C11_execute_loop_decision (down7_new 0 emptyMemory) (lastIteration refused)
        [retry idle]).2.1 (LDM7_REFUSED, down7_new 0 emptyMemory) rfl (by decide) rfl).1⟩,
    ⟨⟨rfl, rfl⟩,
      ((C11_execute_loop_decision (down7_new 0 emptyMemory) (retry refused)
        [lastIteration refused]).2.2.1 (LDM7_REFUSED, down7_new 0 emptyMemory) rfl (by decide)
        rfl).2⟩⟩

/-- With the flag `done` set on entry, `nap` performs no wait and reports the
shutdown. -/
theorem nap_done_on_entry (waits : List (Bool × Bool)) :
    nap true waits = some LDM7_SHUTDOWN := by
  cases waits with
  | nil => rfl
  | cons w rest => rfl

/-- C12, the claim refuted on a new coordinator: the multicast receiver ends on its
own, so that the first session returns `LDM7_SHUTDOWN` while the flag `done` is
clear; the nap times out, a second session is entered, and the loop returns the
`LDM7_SYSTEM` of that second session. -/
theorem C12_shutdown_status_is_retried :
    (runDown7Once (down7_new 0 emptyMemory) receiverEnds).map Prod.fst = some LDM7_SHUTDOWN ∧
      (sessionEntries (down7_new 0 emptyMemory)
        [retry receiverEnds, unwoken memoryUnavailable]).length = 2 ∧
      (down7_execute (down7_new 0 emptyMemory)
        [retry receiverEnds, unwoken memoryUnavailable]).map Prod.fst = some LDM7_SYSTEM := by
  decide

/-- C12 as amended: whenever `runDown7Once` returns `LDM7_SHUTDOWN` and the flag
`done` is set when `nap` is entered (as it is when `waitOnTasks` reported the
shutdown because of the flag), `nap` performs no wait and reports the shutdown,
and `down7_execute` stops: it enters no further session and returns
`LDM7_SHUTDOWN` with the coordinator object that the session left. -/
theorem C12_shutdown_flag_stops_loop (down7 : Down7) (it : Iteration) (rest : List Iteration)
    (hstatus : (runDown7Once down7 it.session).map Prod.fst = some LDM7_SHUTDOWN)
    (hdone : it.napDone = true) :
    nap it.napDone it.napWaits = some LDM7_SHUTDOWN ∧
      down7_execute down7 (it :: rest) = runDown7Once down7 it.session ∧
      (down7_execute down7 (it :: rest)).map Prod.fst = some LDM7_SHUTDOWN ∧
      sessionEntries down7 (it :: rest) = [down7] := by
  have hnap : nap it.napDone it.napWaits = some LDM7_SHUTDOWN := by
    rw [hdone]
    exact nap_done_on_entry _
  cases hr : runDown7Once down7 it.session with
  | none => rw [hr] at hstatus; exact absurd hstatus (by simp)
  | some r =>
    obtain ⟨status, d⟩ := r
    rw [hr] at hstatus
    have hst : status = LDM7_SHUTDOWN := by simpa using hstatus
    subst hst
    have hne : ¬ LDM7_SYSTEM = LDM7_SHUTDOWN := by decide
    simp [down7_execute, sessionEntries, hr, hne, hnap]

/-- Witness of C12 as amended: the shutdown is requested during the first session
of a new coordinator. -/
theorem C12_shutdown_flag_stops_loop_witness :
    ((runDown7Once (down7_new 0 emptyMemory) (stopped shutdownRequested).session).map Prod.fst
        = some LDM7_SHUTDOWN ∧
      (stopped shutdownRequested).napDone = true) ∧
    (nap (stopped shutdownRequested).napDone (stopped shutdownRequested).napWaits
        = some LDM7_SHUTDOWN ∧
      down7_execute (down7_new 0 emptyMemory) [stopped shutdownRequested, retry idle] =
        runDown7Once (down7_new 0 emptyMemory) (stopped shutdownRequested).session ∧
      (down7_execute (down7_new 0 emptyMemory)
        [stopped shutdownRequested, retry idle]).map Prod.fst = some LDM7_SHUTDOWN ∧
      sessionEntries (down7_new 0 emptyMemory) [stopped shutdownRequested, retry idle] =
        [down7_new 0 emptyMemory]) :=
  ⟨⟨by decide, rfl⟩,
    C12_shutdown_flag_stops_loop (down7_new 0 emptyMemory) (stopped shutdownRequested)
      [retry idle] (by decide) rfl⟩

/-! ### The subscription -/

/-- The function `subscribeAndExecute` when `subscribe_7` returns no reply: no task
is started and the result is the status mapped from the RPC client status. -/
theorem subscribeAndExecute_no_reply (down7 : Down7) (s : Session) (hreply : s.reply = none) :
    subscribeAndExecute down7 s = some (s.clntLdm7Status, down7) := by
  simp [subscribeAndExecute, hreply]

/-- The function `subscribeAndExecute` when the reply carries a non-zero status: no
task is started and the result is the value that the local `status` happens to
hold, whatever the status of the reply. -/
theorem subscribeAndExecute_rejected (down7 : Down7) (s : Session) (replyStatus : Int)
    (hreply : s.reply = some replyStatus) (hne : replyStatus ≠ 0) :
    subscribeAndExecute down7 s = some (s.uninitStatus, down7) := by
  simp [subscribeAndExecute, hreply, hne]

/-- C13, the source at a subscription that the upstream LDM-7 answers with
`LDM7_UNAUTH`: `subscribeAndExecute` never assigns the status of the reply to
its local `status`, so it returns the value that the local happens to hold:
`0` (success) when that value is `0`, and `LDM7_SYSTEM` when that value is
`LDM7_SYSTEM`, in which case `down7_execute` ends the retry loop with
`LDM7_SYSTEM`.  No task is started in either case. -/
theorem C13_reply_status_not_returned :
    subscribeAndExecute (down7_new 0 emptyMemory) (notAuthorized 0) =
        some (0, down7_new 0 emptyMemory) ∧
      subscribeAndExecute (down7_new 0 emptyMemory) (notAuthorized LDM7_SYSTEM) =
        some (LDM7_SYSTEM, down7_new 0 emptyMemory) ∧
      LDM7_UNAUTH ≠ 0 ∧ LDM7_UNAUTH ≠ LDM7_SYSTEM ∧
      down7_execute (down7_new 0 emptyMemory) [retry (notAuthorized LDM7_SYSTEM), retry idle] =
        some (LDM7_SYSTEM, down7_new 0 emptyMemory) := by
  decide

/-! ### The delivery handlers -/

/-- C14: `deliver_product` returns `0` when the product-queue is locked and the
insertion reports success, `PQUEUE_DUP` or `PQUEUE_BIG`; it returns
`LDM7_SYSTEM` when the insertion reports `EINVAL` and when the product-queue
cannot be locked (no insertion is made then); it reports no delivery failure
itself; and each of the two handlers, once it has called `deliver_product`
(the handler of missed products: once the head check has passed), reports a
delivery failure exactly when the result is not `0`. -/
theorem C14_deliver_product_status (down7 : Down7) (prod : product)
    (missedProd : MissedProduct) (lockStatus insertStatus : Int) :
    ((insertStatus = 0 ∨ insertStatus = PQUEUE_DUP ∨ insertStatus = PQUEUE_BIG) →
      (deliver_product down7 prod 0 insertStatus).1 = 0) ∧
    (deliver_product down7 prod 0 EINVAL).1 = LDM7_SYSTEM ∧
    (lockStatus ≠ 0 →
      deliver_product down7 prod lockStatus insertStatus = (LDM7_SYSTEM, down7)) ∧
    LDM7_SYSTEM ≠ 0 ∧
    (deliver_product down7 prod lockStatus insertStatus).2.events =
      down7.events ++ (if lockStatus = 0 then [Event.pq_insert prod insertStatus] else []) ∧
    (deliver_backlog_product_7_svc down7 prod lockStatus insertStatus).events =
      (deliver_product down7 prod lockStatus insertStatus).2.events ++
        (if (deliver_product down7 prod lockStatus insertStatus).1 ≠ 0
          then [Event.deliveryFailure prod.info] else []) ∧
    (down7.msm.requestedQ.head? = some missedProd.iProd →
      (deliver_missed_product_7_svc down7 missedProd lockStatus insertStatus).events =
        (deliver_product { down7 with msm := (msm_removeRequestedFileNoWait down7.msm).2 }
          missedProd.prod lockStatus insertStatus).2.events ++
        (if (deliver_product { down7 with msm := (msm_removeRequestedFileNoWait down7.msm).2 }
            missedProd.prod lockStatus insertStatus).1 ≠ 0
          then [Event.deliveryFailure missedProd.prod.info] else [])) := by
  refine ⟨?_, ?_, ?_, by decide, ?_, ?_, ?_⟩
  · intro h
    have hne : insertStatus ≠ EINVAL := by
      rcases h with h | h | h <;> rw [h] <;> decide
    rw [deliver_product_accepts down7 prod insertStatus hne]
  · simp [deliver_product, insertAndUnlock, EINVAL]
  · intro h
    simp [deliver_product, h]
  · unfold deliver_product insertAndUnlock
    dsimp only
    split_ifs <;> simp_all
  · unfold deliver_backlog_product_7_svc deliveryFailure
    dsimp only
    split_ifs <;> simp
  · intro hhead
    unfold deliver_missed_product_7_svc msm_peekRequestedFileNoWait deliveryFailure
    simp only [hhead, ne_eq, not_true_eq_false, if_false]
    split_ifs <;> simp

/-- Witness of C14: a product whose insertion would report a duplicate arrives at
the head of the requested queue while the product-queue cannot be locked. -/
theorem C14_deliver_product_status_witness :
    ((PQUEUE_DUP = 0 ∨ PQUEUE_DUP = PQUEUE_DUP ∨ PQUEUE_DUP = PQUEUE_BIG) ∧ (1 : Int) ≠ 0 ∧
      (down7_new 0 ⟨[], [3], none, false⟩).msm.requestedQ.head? = some 3) ∧
    ((deliver_product (down7_new 0 ⟨[], [3], none, false⟩) ⟨⟨30⟩, []⟩ 0 PQUEUE_DUP).1 = 0 ∧
      deliver_product (down7_new 0 ⟨[], [3], none, false⟩) ⟨⟨30⟩, []⟩ 1 PQUEUE_DUP =
        (LDM7_SYSTEM, down7_new 0 ⟨[], [3], none, false⟩) ∧
      (deliver_missed_product_7_svc (down7_new 0 ⟨[], [3], none, false⟩)
        ⟨3, ⟨⟨30⟩, []⟩⟩ 1 PQUEUE_DUP).events = [Event.deliveryFailure ⟨30⟩]) :=
  ⟨⟨by decide, by decide, rfl⟩,
    (C14_deliver_product_status (down7_new 0 ⟨[], [3], none, false⟩) ⟨⟨30⟩, []⟩
      ⟨3, ⟨⟨30⟩, []⟩⟩ 1 PQUEUE_DUP).1 (by decide),
    (C14_deliver_product_status (down7_new 0 ⟨[], [3], none, false⟩) ⟨⟨30⟩, []⟩
      ⟨3, ⟨⟨30⟩, []⟩⟩ 1 PQUEUE_DUP).2.2.1 (by decide),
    (C14_deliver_product_status (down7_new 0 ⟨[], [3], none, false⟩) ⟨⟨30⟩, []⟩
      ⟨3, ⟨⟨30⟩, []⟩⟩ 1 PQUEUE_DUP).2.2.2.2.2.2 rfl⟩

/-- C15: `deliver_backlog_product_7_svc` changes nothing but the events, so that
the missed queue and the requested queue are left as they are; and what it
does (the insertion once the product-queue is locked, and the delivery failure
when the lock or the insertion fails) is decided by the product and the
product-queue alone, not by the content of the queues. -/
theorem C15_backlog_delivery_leaves_queues (down7 : Down7) (prod : product)
    (lockStatus insertStatus : Int) :
    deliver_backlog_product_7_svc down7 prod lockStatus insertStatus =
      { down7 with events := down7.events ++
          (if lockStatus ≠ 0 then [Event.deliveryFailure prod.info]
            else if insertStatus = EINVAL then
              [Event.pq_insert prod insertStatus, Event.deliveryFailure prod.info]
            else [Event.pq_insert prod insertStatus]) } := by
  unfold deliver_backlog_product_7_svc deliver_product insertAndUnlock deliveryFailure
  dsimp only
  by_cases hl : lockStatus = 0
  · by_cases he : insertStatus = EINVAL
    · simp [hl, he, EINVAL, LDM7_SYSTEM]
    · by_cases h0 : insertStatus = 0
      · simp [hl, h0, EINVAL]
      · simp [hl, he, h0]
  · simp [hl, LDM7_SYSTEM]

/-! ### The requester at the end of its loop -/

/-- C16: when the blocking peek of the missed queue reports that the queue has
been shut down, `makeRequest` does not return `LDM7_SHUTDOWN`: the result
`false` of the peek leads to the addition, with the local `iProd` as it was
declared.  When the requested queue accepts the entry, that content is added
to the requested queue and the result is `LDM7_SYSTEM`; otherwise the oldest
entry of the missed queue is removed and a request is sent.  In either case
the result differs from `LDM7_SHUTDOWN` and the requested queue or the events
have changed.  With the missed queue `[5]` shut down, the requester exits with
`LDM7_SYSTEM` and the requested queue `[7]`, after a request for index 5 when
the first addition fails. -/
theorem C16_shutdown_not_reported :
    (∀ (down7 : Down7) (uninit : VcmtpProdIndex) (clntStat : Int),
      down7.msm.missedShutDown = true →
      makeRequest down7 uninit true clntStat =
        some (LDM7_SYSTEM,
          { down7 with
            msm := { down7.msm with requestedQ := down7.msm.requestedQ ++ [uninit] } })) ∧
    (∀ (down7 : Down7) (uninit : VcmtpProdIndex) (clntStat : Int),
      down7.msm.missedShutDown = true →
      makeRequest down7 uninit false clntStat =
        some (requestProduct
          { down7 with msm := { down7.msm with missedQ := down7.msm.missedQ.tail } }
          (down7.msm.missedQ.head?.getD uninit) clntStat)) ∧
    (∀ (down7 : Down7) (uninit : VcmtpProdIndex) (addOk : Bool) (clntStat : Int),
      down7.msm.missedShutDown = true →
      ∃ r, makeRequest down7 uninit addOk clntStat = some r ∧ r.1 ≠ LDM7_SHUTDOWN ∧
        (r.2.msm.requestedQ ≠ down7.msm.requestedQ ∨ r.2.events ≠ down7.events)) ∧
    startRequester (down7_new 0 ⟨[5], [], none, true⟩) [(7, true, RPC_TIMEDOUT)] =
      some (LDM7_SYSTEM,
        { down7_new 0 ⟨[5], [7], none, true⟩ with
          exitStatus := LDM7_SYSTEM, taskExited := 1, events := [] }) ∧
    startRequester (down7_new 0 ⟨[5], [], none, true⟩)
        [(7, false, RPC_TIMEDOUT), (7, true, RPC_TIMEDOUT)] =
      some (LDM7_SYSTEM,
        { down7_new 0 ⟨[], [7], none, true⟩ with
          exitStatus := LDM7_SYSTEM, taskExited := 1,
          events := [Event.request_product_7 5] }) := by
  refine ⟨makeRequest_shutDown_added, makeRequest_shutDown_not_added, ?_, by decide,
    by decide⟩
  intro down7 uninit addOk clntStat hshut
  cases addOk with
  | true =>
    refine ⟨_, makeRequest_shutDown_added down7 uninit clntStat hshut, ?_, Or.inl ?_⟩
    · dsimp only
      decide
    · simp
  | false =>
    refine ⟨_, makeRequest_shutDown_not_added down7 uninit clntStat hshut, ?_, Or.inr ?_⟩
    · unfold requestProduct
      dsimp only
      split
      · dsimp only
        decide
      · dsimp only
        decide
    · unfold requestProduct
      dsimp only
      split <;> simp

/-- Witness of C16: the missed queue still holds index 5 when it is shut down, and
the local `iProd` holds 7. -/
theorem C16_shutdown_not_reported_witness :
    makeRequest (down7_new 0 ⟨[5], [], none, true⟩) 7 true RPC_TIMEDOUT =
      some (LDM7_SYSTEM, down7_new 0 ⟨[5], [7], none, true⟩) ∧
    makeRequest (down7_new 0 ⟨[5], [], none, true⟩) 7 false RPC_TIMEDOUT =
      some (0,
        { down7_new 0 ⟨[], [], none, true⟩ with events := [Event.request_product_7 5] }) :=
  ⟨C16_shutdown_not_reported.1 (down7_new 0 ⟨[5], [], none, true⟩) 7 RPC_TIMEDOUT rfl,
    C16_shutdown_not_reported.2.1 (down7_new 0 ⟨[5], [], none, true⟩) 7 RPC_TIMEDOUT rfl⟩

/-- A call of `makeRequest` that sends a request returns the result of
`requestProduct` for the index it requests, on the coordinator object from whose
missed queue that index has been removed. -/
theorem makeRequest_sends (down7 : Down7) (uninit : VcmtpProdIndex) (addOk : Bool)
    (clntStat : Int) (r : Int × Down7) (iProd : VcmtpProdIndex)
    (hcall : makeRequest down7 uninit addOk clntStat = some r)
    (hsent : r.2.events = down7.events ++ [Event.request_product_7 iProd]) :
    r.1 = (if clntStat ≠ RPC_TIMEDOUT then LDM7_RPC else 0) := by
  unfold makeRequest at hcall
  split at hcall
  · exact absurd hcall (by simp)
  · split at hcall
    · injection hcall with hcall
      subst hcall
      exact absurd hsent (by simp)
    · dsimp only at hcall
      split at hcall
      · injection hcall with hcall
        subst hcall
        exact absurd hsent (by simp)
      · injection hcall with hcall
        subst hcall
        unfold requestProduct
        dsimp only
        split <;> rfl

/-- C17: `requestProduct` returns `0` exactly when the client status after the
send is `RPC_TIMEDOUT`, and `LDM7_RPC` for every other client status; a call of
`makeRequest` that sends a request whose send fails returns `LDM7_RPC`; and
`startRequester` then leaves its loop, whatever further iterations would
bring: it makes no further request and reports `LDM7_RPC` by one call of
`taskExit`. -/
theorem C17_requester_send_failure (down7 : Down7) (iProd uninit : VcmtpProdIndex)
    (addOk : Bool) (clntStat : Int) (rest : List (VcmtpProdIndex × Bool × Int)) :
    ((requestProduct down7 iProd clntStat).1 = 0 ↔ clntStat = RPC_TIMEDOUT) ∧
    (clntStat ≠ RPC_TIMEDOUT → (requestProduct down7 iProd clntStat).1 = LDM7_RPC) ∧
    (∀ r, makeRequest down7 uninit addOk clntStat = some r →
      r.2.events = down7.events ++ [Event.request_product_7 iProd] →
      clntStat ≠ RPC_TIMEDOUT →
      r.1 = LDM7_RPC ∧
        startRequester down7 ((uninit, addOk, clntStat) :: rest) =
          some (LDM7_RPC, taskExit r.2 LDM7_RPC) ∧
        (taskExit r.2 LDM7_RPC).events = r.2.events ∧
        (taskExit r.2 LDM7_RPC).taskExited = 1) := by
  have hne : ¬ LDM7_RPC = (0 : Int) := by decide
  refine ⟨?_, ?_, ?_⟩
  · unfold requestProduct
    dsimp only
    by_cases h : clntStat = RPC_TIMEDOUT
    · simp [h]
    · simp [h, hne]
  · intro h
    simp [requestProduct, h]
  · intro r hcall hsent hfail
    have hstatus := makeRequest_sends down7 uninit addOk clntStat r iProd hcall hsent
    rw [if_pos hfail] at hstatus
    obtain ⟨status, d⟩ := r
    simp only at hstatus
    subst hstatus
    refine ⟨rfl, ?_, ?_, ?_⟩
    · simp [startRequester, hcall, hne]
    · unfold taskExit
      dsimp only
      split_ifs <;> rfl
    · simp [taskExit]

/-- Witness of C17: the call of `makeRequest` requests index 3, the oldest entry
of the missed queue, and the client status after the send is `3`
(`RPC_CANTSEND`). -/
theorem C17_requester_send_failure_witness :
    (makeRequest (down7_new 0 ⟨[3], [], none, true⟩) 0 false 3 =
        some (LDM7_RPC,
          { down7_new 0 ⟨[], [], none, true⟩ with events := [Event.request_product_7 3] }) ∧
      (3 : Int) ≠ RPC_TIMEDOUT) ∧
    startRequester (down7_new 0 ⟨[3], [], none, true⟩)
        [(0, false, 3), (0, false, RPC_TIMEDOUT)] =
      some (LDM7_RPC,
        taskExit
          { down7_new 0 ⟨[], [], none, true⟩ with events := [Event.request_product_7 3] }
          LDM7_RPC) :=
  ⟨⟨rfl, by decide⟩,
    ((C17_requester_send_failure (down7_new 0 ⟨[3], [], none, true⟩) 3 0 false 3
      [(0, false, RPC_TIMEDOUT)]).2.2
      (LDM7_RPC,
        { down7_new 0 ⟨[], [], none, true⟩ with events := [Event.request_product_7 3] })
      rfl rfl (by decide)).2.1⟩

/-! ### The wait of the coordinator -/

/-- A task step other than a call of `taskExit` writes neither the exit status nor
the task-exited flag. -/
theorem run_exit_fields_other (down7 : Down7) (step : TaskStep)
    (hother : step.isExit = false) :
    (TaskStep.run down7 step).exitStatus = down7.exitStatus ∧
      (TaskStep.run down7 step).taskExited = down7.taskExited := by
  cases step with
  | makeRequest uninit addOk clntStat =>
    obtain ⟨msm, added, h⟩ := run_makeRequest_frame down7 uninit addOk clntStat
    rw [h]
    exact ⟨rfl, rfl⟩
  | taskExit status => exact absurd hother (by simp [TaskStep.isExit])
  | _ =>
    simp only [TaskStep.run, down7_missedProduct, down7_lastReceived,
      requestSessionBacklog, deliver_missed_product_7_svc,
      deliver_backlog_product_7_svc, deliver_product, insertAndUnlock, deliveryFailure,
      no_such_product_7_svc]
    repeat' split
    all_goals simp_all

/-- A step that is not a call of `taskExit` is not the first exit. -/
theorem firstExit_cons_other (step : TaskStep) (rest : List TaskStep)
    (hother : step.isExit = false) : firstExit (step :: rest) = firstExit rest := by
  cases step with
  | taskExit status => exact absurd hother (by simp [TaskStep.isExit])
  | _ => rfl

/-- The first exit of a list is a call of `taskExit` of the list. -/
theorem firstExit_mem (steps : List TaskStep) (status : Int)
    (h : firstExit steps = some status) : TaskStep.taskExit status ∈ steps := by
  induction steps with
  | nil => exact absurd h (by simp [firstExit])
  | cons step rest ih =>
    cases hstep : step.isExit with
    | false =>
      rw [firstExit_cons_other step rest hstep] at h
      exact List.mem_cons_of_mem _ (ih h)
    | true =>
      cases step with
      | taskExit first =>
        simp only [firstExit, Option.some.injEq] at h
        subst h
        exact List.mem_cons_self _ _
      | _ => exact absurd hstep (by simp [TaskStep.isExit])

/-- A list without a first exit holds no call of `taskExit`. -/
theorem firstExit_none (steps : List TaskStep) (h : firstExit steps = none) :
    ∀ step ∈ steps, step.isExit = false := by
  induction steps with
  | nil => intro step hmem; exact absurd hmem (List.not_mem_nil _)
  | cons first rest ih =>
    cases hfirst : first.isExit with
    | false =>
      rw [firstExit_cons_other first rest hfirst] at h
      intro step hmem
      rcases List.mem_cons.mp hmem with heq | hmem
      · rw [heq]; exact hfirst
      · exact ih h step hmem
    | true =>
      cases first with
      | taskExit status => exact absurd h (by simp [firstExit])
      | _ => exact absurd hfirst (by simp [TaskStep.isExit])

/-- The first exit of two lists, one after the other. -/
theorem firstExit_append (xs ys : List TaskStep) :
    firstExit (xs ++ ys) = (firstExit xs).orElse (fun _ => firstExit ys) := by
  induction xs with
  | nil => simp [firstExit]
  | cons step rest ih =>
    cases hstep : step.isExit with
    | false =>
      rw [List.cons_append, firstExit_cons_other step _ hstep,
        firstExit_cons_other step _ hstep, ih]
    | true =>
      cases step with
      | taskExit status => simp [firstExit]
      | _ => exact absurd hstep (by simp [TaskStep.isExit])

/-- Steps other than calls of `taskExit` write neither the exit status nor the
task-exited flag. -/
theorem runSteps_exit_fields_other (steps : List TaskStep) (down7 : Down7)
    (hother : ∀ step ∈ steps, step.isExit = false) :
    (runSteps down7 steps).exitStatus = down7.exitStatus ∧
      (runSteps down7 steps).taskExited = down7.taskExited := by
  induction steps generalizing down7 with
  | nil => exact ⟨rfl, rfl⟩
  | cons step rest ih =>
    have h1 := run_exit_fields_other down7 step (hother step (List.mem_cons_self _ _))
    have h2 := ih (TaskStep.run down7 step) (fun x hx => hother x (List.mem_cons_of_mem _ hx))
    simp only [runSteps, List.foldl_cons] at h2 ⊢
    exact ⟨h2.1.trans h1.1, h2.2.trans h1.2⟩

/-- From an unset slot, the steps of a list whose exits carry non-negative
statuses leave the status of the first exit in the slot, and leave the slot
unset when no task exits. -/
theorem runSteps_exitStatus_first (steps : List TaskStep) (down7 : Down7)
    (hunset : down7.exitStatus = -1)
    (hnonneg : ∀ status, TaskStep.taskExit status ∈ steps → 0 ≤ status) :
    (runSteps down7 steps).exitStatus = (firstExit steps).getD (-1) := by
  induction steps generalizing down7 with
  | nil => simpa [runSteps, firstExit] using hunset
  | cons step rest ih =>
    cases hstep : step.isExit with
    | false =>
      have h1 := run_exit_fields_other down7 step hstep
      have h2 := ih (TaskStep.run down7 step) (by rw [h1.1]; exact hunset)
        (fun status hmem => hnonneg status (List.mem_cons_of_mem _ hmem))
      rw [firstExit_cons_other step rest hstep]
      simpa only [runSteps, List.foldl_cons] using h2
    | true =>
      cases step with
      | taskExit status =>
        have hpos : 0 ≤ status := hnonneg status (List.mem_cons_self _ _)
        have hfirst : (taskExit down7 status).exitStatus = status := by
          simp [taskExit, hunset]
        have hlatched := runSteps_exitStatus_latched rest (taskExit down7 status)
          (by rw [hfirst]; exact hpos)
        simp only [runSteps, List.foldl_cons, TaskStep.run, firstExit, Option.getD_some]
          at hlatched ⊢
        rw [hlatched, hfirst]
      | _ => exact absurd hstep (by simp [TaskStep.isExit])

/-- Once the missed queue has been shut down, no task step opens it again. -/
theorem run_missedShutDown (down7 : Down7) (step : TaskStep)
    (hshut : down7.msm.missedShutDown = true) :
    (TaskStep.run down7 step).msm.missedShutDown = true := by
  cases step with
  | makeRequest uninit addOk clntStat =>
    simp only [TaskStep.run]
    cases h : makeRequest down7 uninit addOk clntStat with
    | none => exact hshut
    | some r =>
      dsimp only
      rw [makeRequest_missedShutDown down7 uninit addOk clntStat r h]
      exact hshut
  | _ =>
    simp only [TaskStep.run, taskExit, down7_missedProduct, down7_lastReceived,
      requestSessionBacklog, deliver_missed_product_7_svc,
      deliver_backlog_product_7_svc, deliver_product, insertAndUnlock, deliveryFailure,
      no_such_product_7_svc, msm_addMissedFile, msm_setLastMcastProd,
      msm_removeRequestedFileNoWait]
    repeat' split
    all_goals simp_all

/-- Once the missed queue has been shut down, the steps of a list do not open it
again. -/
theorem runSteps_missedShutDown (steps : List TaskStep) (down7 : Down7)
    (hshut : down7.msm.missedShutDown = true) :
    (runSteps down7 steps).msm.missedShutDown = true := by
  induction steps generalizing down7 with
  | nil => exact hshut
  | cons step rest ih =>
    have h2 := ih (TaskStep.run down7 step) (run_missedShutDown down7 step hshut)
    simpa only [runSteps, List.foldl_cons] using h2

/-- C18: `waitOnTasks` returns exactly when, after the steps that the tasks take
while it waits, the flag `done` or the task-exited flag is set; when it returns
it has made the stop calls of `terminateTasks` (the multicast receiver is
stopped, the missed queue is shut down, the socket is shut down for writing
and for reading) and the tasks have run to their end before the joins; the
missed queue is shut down afterwards; and the result is `LDM7_SHUTDOWN` when
`done` is set at the return and the content of the exit-status slot otherwise.
On a coordinator whose slot is unset and whose task-exited flag is clear on
entry, and for exits with non-negative statuses, the task-exited flag is set
exactly when a task has exited, and the slot holds the status of the first task
to exit. -/
theorem C18_waitOnTasks (down7 : Down7) (s : Session) :
    ((waitOnTasks down7 s).isSome ↔
      (s.doneAtWake = true ∨ (runSteps down7 s.running).taskExited ≠ 0)) ∧
    (∀ r, waitOnTasks down7 s = some r →
      r.2 = runSteps
        { runSteps down7 s.running with
          msm := msm_shutDownMissedFiles (runSteps down7 s.running).msm
          events := (runSteps down7 s.running).events ++
            [Event.mlr_stop, Event.shutdown_wr, Event.shutdown_rd] } s.draining ∧
      r.2.msm.missedShutDown = true ∧
      r.1 = (if s.doneAtReturn then LDM7_SHUTDOWN else r.2.exitStatus)) ∧
    (down7.exitStatus = -1 → down7.taskExited = 0 →
      (∀ status, TaskStep.taskExit status ∈ s.running ++ s.draining → 0 ≤ status) →
      (((runSteps down7 s.running).taskExited ≠ 0 ↔
          ∃ status, TaskStep.taskExit status ∈ s.running) ∧
        ∀ r, waitOnTasks down7 s = some r →
          r.2.exitStatus = (firstExit (s.running ++ s.draining)).getD (-1))) := by
  have hreturn : ∀ r, waitOnTasks down7 s = some r →
      r.2 = runSteps
        { runSteps down7 s.running with
          msm := msm_shutDownMissedFiles (runSteps down7 s.running).msm
          events := (runSteps down7 s.running).events ++
            [Event.mlr_stop, Event.shutdown_wr, Event.shutdown_rd] } s.draining ∧
      r.1 = (if s.doneAtReturn then LDM7_SHUTDOWN else r.2.exitStatus) := by
    intro r hr
    unfold waitOnTasks terminateTasks at hr
    dsimp only at hr
    split at hr
    · exact absurd hr (by simp)
    · injection hr with hr
      subst hr
      exact ⟨rfl, rfl⟩
  refine ⟨?_, ?_, ?_⟩
  · unfold waitOnTasks
    dsimp only
    by_cases hd : s.doneAtWake = true
    · simp [hd]
    · by_cases ht : (runSteps down7 s.running).taskExited = 0
      · simp [hd, ht]
      · simp [hd, ht]
  · intro r hr
    obtain ⟨hstate, hresult⟩ := hreturn r hr
    refine ⟨hstate, ?_, hresult⟩
    rw [hstate]
    exact runSteps_missedShutDown _ _ rfl
  · intro hunset hclear hnonneg
    constructor
    · constructor
      · intro hflag
        by_contra hnone
        have hother : ∀ step ∈ s.running, step.isExit = false := by
          intro step hmem
          cases step with
          | taskExit status => exact absurd ⟨status, hmem⟩ hnone
          | _ => rfl
        exact hflag (((runSteps_exit_fields_other s.running down7 hother).2).trans hclear)
      · rintro ⟨status, hmem⟩
        rw [runSteps_exit_sets_flag s.running down7 status hmem]
        decide
    · intro r hr
      obtain ⟨hstate, _⟩ := hreturn r hr
      rw [hstate, firstExit_append]
      have hrun := runSteps_exitStatus_first s.running down7 hunset
        (fun status hmem => hnonneg status (List.mem_append_left _ hmem))
      cases hfirst : firstExit s.running with
      | none =>
        rw [hfirst] at hrun
        have := runSteps_exitStatus_first s.draining
          { runSteps down7 s.running with
            msm := msm_shutDownMissedFiles (runSteps down7 s.running).msm
            events := (runSteps down7 s.running).events ++
              [Event.mlr_stop, Event.shutdown_wr, Event.shutdown_rd] }
          (by simpa using hrun)
          (fun status hmem => hnonneg status (List.mem_append_right _ hmem))
        simpa using this
      | some status =>
        rw [hfirst] at hrun
        have hpos : 0 ≤ status :=
          hnonneg status (List.mem_append_left _ (firstExit_mem _ _ hfirst))
        have := runSteps_exitStatus_latched s.draining
          { runSteps down7 s.running with
            msm := msm_shutDownMissedFiles (runSteps down7 s.running).msm
            events := (runSteps down7 s.running).events ++
              [Event.mlr_stop, Event.shutdown_wr, Event.shutdown_rd] }
          (by simpa [hrun] using hpos)
        simpa [hrun] using this

/-- The exits of the session `connectionLost` carry non-negative statuses. -/
theorem connectionLost_nonneg (status : Int)
    (hmem : TaskStep.taskExit status ∈ connectionLost.running ++ connectionLost.draining) :
    0 ≤ status := by
  simp only [connectionLost, startedSession, List.cons_append, List.nil_append,
    List.mem_cons, TaskStep.taskExit.injEq, List.mem_singleton, List.not_mem_nil,
    or_false] at hmem
  rcases hmem with h | h | h <;> rw [h] <;> decide

/-- Witness of C18: on a new coordinator the unicast receiver exits first, with
`LDM7_RPC`, and the two other tasks exit with `LDM7_SHUTDOWN` once they have
been stopped; no shutdown is requested. -/
theorem C18_waitOnTasks_witness :
    ((down7_new 0 emptyMemory).exitStatus = -1 ∧ (down7_new 0 emptyMemory).taskExited = 0 ∧
      (∀ status, TaskStep.taskExit status ∈ connectionLost.running ++ connectionLost.draining →
        0 ≤ status)) ∧
    (waitOnTasks (down7_new 0 emptyMemory) connectionLost).map
        (fun r => (r.1, r.2.exitStatus, r.2.msm.missedShutDown)) =
      some (LDM7_RPC, LDM7_RPC, true) := by
  have h := C18_waitOnTasks (down7_new 0 emptyMemory) connectionLost
  refine ⟨⟨rfl, rfl, connectionLost_nonneg⟩, ?_⟩
  cases hr : waitOnTasks (down7_new 0 emptyMemory) connectionLost with
  | none => exact absurd hr (by decide)
  | some r =>
    have hslot := (h.2.2 rfl rfl connectionLost_nonneg).2 r hr
    have hfirst : (firstExit (connectionLost.running ++ connectionLost.draining)).getD (-1)
        = LDM7_RPC := by decide
    obtain ⟨_, hshut, hresult⟩ := h.2.1 r hr
    have hdone : connectionLost.doneAtReturn = false := rfl
    rw [hfirst] at hslot
    rw [hdone, hslot] at hresult
    simp [hslot, hshut, hresult]

/-! ### The nap -/

/-- The wait loop of `nap` ends with the flag clear only when the flag was clear on
entry and a wait, before which no wait had timed out or found the flag set,
returned `ETIMEDOUT` with the flag still clear. -/
theorem napLoop_clear (waits : List (Bool × Bool)) (done : Bool)
    (h : napLoop done waits = some false) :
    done = false ∧ ∃ pre post, waits = pre ++ (true, false) :: post ∧
      ∀ w ∈ pre, w = (false, false) := by
  induction waits generalizing done with
  | nil =>
    cases done <;> simp [napLoop] at h
  | cons w rest ih =>
    obtain ⟨timedOut, doneAfter⟩ := w
    cases done with
    | true => simp [napLoop] at h
    | false =>
      refine ⟨rfl, ?_⟩
      cases timedOut with
      | true =>
        have hafter : doneAfter = false := by simpa [napLoop] using h
        subst hafter
        exact ⟨[], rest, rfl, fun w hw => absurd hw (List.not_mem_nil _)⟩
      | false =>
        have hrest : napLoop doneAfter rest = some false := by simpa [napLoop] using h
        obtain ⟨hafter, pre, post, hsplit, hpre⟩ := ih doneAfter hrest
        subst hafter
        refine ⟨(false, false) :: pre, post, by rw [hsplit]; rfl, ?_⟩
        intro w hw
        rcases List.mem_cons.mp hw with heq | hmem
        · exact heq
        · exact hpre w hmem

/-- C19: `nap` hands every wait the deadline `time(NULL) + 60` seconds (and no
nanoseconds); it finishes exactly when its wait loop does, and its result is
`LDM7_SHUTDOWN` when the flag `done` is set at that moment and `0` when it is
clear; with the flag set on entry it performs no wait (whatever the waits
would do, even if they never returned) and returns `LDM7_SHUTDOWN`; and it
returns `0` only if the flag was clear on entry and the last wait that it
performed, given that deadline, returned `ETIMEDOUT` with the flag still
clear, no earlier wait having timed out or found the flag set. -/
theorem C19_nap_result (now : Nat) (done : Bool) (waits : List (Nat × Nat → Bool × Bool)) :
    napAt now done waits =
        (napLoop done (waits.map fun wait => wait (now + 60, 0))).map
          (fun flag => if flag then LDM7_SHUTDOWN else 0) ∧
      LDM7_SHUTDOWN ≠ 0 ∧
      (done = true → napAt now done waits = some LDM7_SHUTDOWN) ∧
      (napAt now done waits = some 0 →
        done = false ∧ ∃ pre wait post, waits = pre ++ wait :: post ∧
          wait (now + 60, 0) = (true, false) ∧
          ∀ w ∈ pre, w (now + 60, 0) = (false, false)) := by
  have hmap : napAt now done waits =
      (napLoop done (waits.map fun wait => wait (now + 60, 0))).map
        (fun flag => if flag then LDM7_SHUTDOWN else 0) := by
    unfold napAt nap
    cases napLoop done (waits.map fun wait => wait (now + 60, 0)) <;> rfl
  refine ⟨hmap, by decide, ?_, ?_⟩
  · intro hdone
    subst hdone
    exact nap_done_on_entry _
  · intro hzero
    rw [hmap] at hzero
    have hclear : napLoop done (waits.map fun wait => wait (now + 60, 0)) = some false := by
      cases hl : napLoop done (waits.map fun wait => wait (now + 60, 0)) with
      | none => rw [hl] at hzero; exact absurd hzero (by simp)
      | some flag =>
        rw [hl] at hzero
        cases flag with
        | false => rfl
        | true => exact absurd hzero (by decide)
    obtain ⟨hdone, pre, post, hsplit, hpre⟩ := napLoop_clear _ _ hclear
    refine ⟨hdone, ?_⟩
    obtain ⟨pre', rest', hw, hpre', hrest'⟩ := List.map_eq_append_iff.mp hsplit
    obtain ⟨wait, post', hrest, hwait, _⟩ := List.map_eq_cons_iff.mp hrest'
    refine ⟨pre', wait, post', by rw [hw, hrest], hwait, ?_⟩
    intro w hmem
    exact hpre _ (by rw [← hpre']; exact List.mem_map_of_mem _ hmem)

/-- Witness of C19: entered at second 1000 with the flag set, `nap` returns
`LDM7_SHUTDOWN` without a wait; entered with the flag clear, it returns `0`
after a wait that was signalled before the deadline and a wait that timed out
at the deadline 1060. -/
theorem C19_nap_result_witness :
    napAt 1000 true [] = some LDM7_SHUTDOWN ∧
    (napAt 1000 false
        [fun _ => (false, false), fun absTime => (decide (absTime = (1060, 0)), false)]
        = some 0 ∧
      ∃ pre wait post,
        [fun _ => (false, false), fun absTime => (decide (absTime = (1060, 0)), false)]
          = pre ++ wait :: post ∧
        wait (1000 + 60, 0) = (true, false) ∧ ∀ w ∈ pre, w (1000 + 60, 0) = (false, false)) :=
  ⟨(C19_nap_result 1000 true []).2.2.1 rfl,
    by decide,
    ((C19_nap_result 1000 false
      [fun _ => (false, false), fun absTime => (decide (absTime = (1060, 0)), false)]).2.2.2
      (by decide)).2⟩

/-! ### Failures of the session memory -/

/-- C20: when the session memory cannot be opened, `runDown7Once` returns
`LDM7_SYSTEM` and leaves the coordinator object as it was, whatever the rest of
the session would bring (no connection is attempted); when it can be opened
and `createClientAndExecute` returns, `runDown7Once` returns `LDM7_SYSTEM` if
the session memory cannot be closed, whatever the status of the session, and
the status of `createClientAndExecute` otherwise; and in both cases of failure
`down7_execute` leaves its loop with `LDM7_SYSTEM`, without a nap and without
a further session. -/
theorem C20_session_memory_failures (down7 : Down7) (it : Iteration) (rest : List Iteration) :
    (it.session.msmOpenOk = false →
      runDown7Once down7 it.session = some (LDM7_SYSTEM, down7) ∧
        down7_execute down7 (it :: rest) = some (LDM7_SYSTEM, down7) ∧
        sessionEntries down7 (it :: rest) = [down7]) ∧
    (it.session.msmOpenOk = true →
      ∀ r, createClientAndExecute
          (openSession down7 { down7.msm with missedShutDown := false }) it.session = some r →
        (it.session.msmCloseOk = false →
          runDown7Once down7 it.session = some (LDM7_SYSTEM, r.2) ∧
            down7_execute down7 (it :: rest) = some (LDM7_SYSTEM, r.2) ∧
            sessionEntries down7 (it :: rest) = [down7]) ∧
        (it.session.msmCloseOk = true → runDown7Once down7 it.session = some r)) := by
  constructor
  · intro hopen
    have hrun : runDown7Once down7 it.session = some (LDM7_SYSTEM, down7) := by
      simp [runDown7Once, msm_open, hopen]
    exact ⟨hrun, by simp [down7_execute, hrun], by simp [sessionEntries, hrun]⟩
  · intro hopen r hr
    constructor
    · intro hclose
      have hrun : runDown7Once down7 it.session = some (LDM7_SYSTEM, r.2) := by
        simp [runDown7Once, msm_open, hopen, hr, hclose]
      exact ⟨hrun, by simp [down7_execute, hrun], by simp [sessionEntries, hrun]⟩
    · intro hclose
      simp [runDown7Once, msm_open, hopen, hr, hclose]

/-- Witness of C20 on a new coordinator: a session for which the session memory
cannot be opened; a session that ends with `LDM7_RPC` and whose session memory
cannot be closed; and a refused connection with a session memory that opens
and closes. -/
theorem C20_session_memory_failures_witness :
    ((unwoken memoryUnavailable).session.msmOpenOk = false ∧
      down7_execute (down7_new 0 emptyMemory) [unwoken memoryUnavailable, retry idle] =
        some (LDM7_SYSTEM, down7_new 0 emptyMemory)) ∧
    (((unwoken memoryNotClosed).session.msmOpenOk = true ∧
        (unwoken memoryNotClosed).session.msmCloseOk = false ∧
        (createClientAndExecute
          (openSession (down7_new 0 emptyMemory)
            { (down7_new 0 emptyMemory).msm with missedShutDown := false })
          (unwoken memoryNotClosed).session).map Prod.fst = some LDM7_RPC) ∧
      (down7_execute (down7_new 0 emptyMemory) [unwoken memoryNotClosed, retry idle]).map
        Prod.fst = some LDM7_SYSTEM) ∧
    (((retry refused).session.msmOpenOk = true ∧ (retry refused).session.msmCloseOk = true ∧
        createClientAndExecute
          (openSession (down7_new 0 emptyMemory)
            { (down7_new 0 emptyMemory).msm with missedShutDown := false })
          (retry refused).session = some (LDM7_REFUSED, down7_new 0 emptyMemory)) ∧
      runDown7Once (down7_new 0 emptyMemory) (retry refused).session =
        some (LDM7_REFUSED, down7_new 0 emptyMemory)) := by
  refine ⟨⟨rfl, ?_⟩, ⟨⟨rfl, rfl, by decide⟩, ?_⟩, ⟨⟨rfl, rfl, rfl⟩, ?_⟩⟩
  · exact ((C20_session_memory_failures (down7_new 0 emptyMemory) (unwoken memoryUnavailable)
      [retry idle]).1 rfl).2.1
  · cases hr : createClientAndExecute
        (openSession (down7_new 0 emptyMemory)
          { (down7_new 0 emptyMemory).msm with missedShutDown := false })
        (unwoken memoryNotClosed).session with
    | none => exact absurd hr (by decide)
    | some r =>
      rw [(((C20_session_memory_failures (down7_new 0 emptyMemory) (unwoken memoryNotClosed)
        [retry idle]).2 rfl r hr).1 rfl).2.1]
      rfl
  · exact ((C20_session_memory_failures (down7_new 0 emptyMemory) (retry refused)
      [retry idle]).2 rfl (LDM7_REFUSED, down7_new 0 emptyMemory) rfl).2 rfl

/-! ### The connection attempt -/

/-- A failure of `sa_getInetSockAddr` is returned by `getSocket` as it is. -/
theorem getSocket_resolution_failure (c : Connection) (h : c.addrStatus ≠ 0) :
    getSocket c = (c.addrStatus, none) := by
  simp [getSocket, h]

/-- After a successful resolution, `getSocket` returns `0` with the descriptor
or one of the four statuses of the socket and of the connection. -/
theorem getSocket_resolved (c : Connection) (h : c.addrStatus = 0) :
    getSocket c = (0, some (c.fd, c.ss_family)) ∨
      (getSocket c).2 = none ∧
        ((getSocket c).1 = LDM7_IPV6 ∨ (getSocket c).1 = LDM7_TIMEDOUT ∨
          (getSocket c).1 = LDM7_REFUSED ∨ (getSocket c).1 = LDM7_SYSTEM) := by
  unfold getSocket
  simp only [h]
  split_ifs <;> simp

/-- C21: `getSocket` does not map the failures of the address resolution to
`LDM7_INVAL` or `LDM7_SYSTEM`: whenever `sa_getInetSockAddr` fails, its status
(an `errno` value) is the result and nothing is set.  An identifier that does
not resolve gives `ENOENT` and an invalid port number gives `EINVAL`; the two
results differ, so whatever the value of `LDM7_INVAL` is, it is not the result
of both.  The failures of `socket` and `connect` are mapped as documented. -/
theorem C21_getSocket_returns_resolution_status :
    (∀ c : Connection, c.addrStatus ≠ 0 → getSocket c = (c.addrStatus, none)) ∧
    getSocket unresolvedHost = (ENOENT, none) ∧
    getSocket invalidPort = (EINVAL, none) ∧
    (∀ inval : Int,
      ¬ ((getSocket unresolvedHost).1 = inval ∧ (getSocket invalidPort).1 = inval)) ∧
    (∀ c : Connection, c.addrStatus = 0 → c.fd = -1 →
      getSocket c =
        ((if c.ss_family = AF_INET6 ∧ c.socketErrno = EAFNOSUPPORT then LDM7_IPV6
          else LDM7_SYSTEM), none)) ∧
    (∀ c : Connection, c.addrStatus = 0 → c.fd ≠ -1 → c.connectResult ≠ 0 →
      getSocket c =
        ((if c.connectErrno = ETIMEDOUT then LDM7_TIMEDOUT
          else if c.connectErrno = ECONNREFUSED then LDM7_REFUSED
          else LDM7_SYSTEM), none)) ∧
    (∀ c : Connection, c.addrStatus = 0 → c.fd ≠ -1 → c.connectResult = 0 →
      getSocket c = (0, some (c.fd, c.ss_family))) := by
  refine ⟨getSocket_resolution_failure, rfl, rfl, ?_, ?_, ?_, ?_⟩
  · rintro inval ⟨h1, h2⟩
    have h : (getSocket unresolvedHost).1 = (getSocket invalidPort).1 := h1.trans h2.symm
    exact absurd h (by decide)
  · intro c h hfd
    simp [getSocket, h, hfd]
  · intro c h hfd hc
    simp [getSocket, h, hfd, hc]
  · intro c h hfd hc
    simp [getSocket, h, hfd, hc]

/-- Witness of C21: the unresolved host, the refused connection and an
established one. -/
theorem C21_getSocket_returns_resolution_status_witness :
    unresolvedHost.addrStatus ≠ 0 ∧
    getSocket unresolvedHost = (unresolvedHost.addrStatus, none) ∧
    getSocket (connectFails ECONNREFUSED) = (LDM7_REFUSED, none) ∧
    getSocket { connectFails 0 with connectResult := 0 } = (0, some (3, AF_INET)) :=
  ⟨by decide,
    C21_getSocket_returns_resolution_status.1 unresolvedHost (by decide),
    (C21_getSocket_returns_resolution_status.2.2.2.2.2.1 (connectFails ECONNREFUSED) rfl
      (by decide) (by decide)).trans rfl,
    (C21_getSocket_returns_resolution_status.2.2.2.2.2.2
      { connectFails 0 with connectResult := 0 } rfl (by decide) rfl).trans rfl⟩

/-! ### The session memory across sessions -/

/-- C22: for every signature, `msm_setLastMcastProd` followed by
`msm_getLastMcastProd` yields `true` and the signature; so does
`msm_getLastMcastProd` after `msm_close` and `msm_open` of the same key; and on
a memory that was deleted and opened again it yields `false` and leaves the
buffer alone. -/
theorem C22_last_signature_round_trip (msm : McastSessionMemory) (sig buf : signaturet) :
    msm_getLastMcastProd (msm_setLastMcastProd msm sig) buf = (true, sig) ∧
    (msm_close (msm_setLastMcastProd msm sig) true).1 = true ∧
    (∃ reopened,
      msm_open (msm_close (msm_setLastMcastProd msm sig) true).2 true = some reopened ∧
      msm_getLastMcastProd reopened buf = (true, sig)) ∧
    (msm_delete msm).1 = true ∧
    (∃ created,
      msm_open (msm_delete msm).2 true = some created ∧
      msm_getLastMcastProd created buf = (false, buf)) :=
  ⟨rfl, rfl, ⟨_, rfl, rfl⟩, rfl, ⟨_, rfl, rfl⟩⟩

/-- Successful additions to the missed queue append to it and leave the rest of
the memory alone. -/
theorem addMissedFiles_eq (indices : List VcmtpProdIndex) (msm : McastSessionMemory) :
    addMissedFiles msm indices = { msm with missedQ := msm.missedQ ++ indices } := by
  induction indices generalizing msm with
  | nil => simp [addMissedFiles]
  | cons i rest ih =>
    have h : addMissedFiles msm (i :: rest) =
        addMissedFiles (msm_addMissedFile msm i true).2 rest := rfl
    rw [h, ih]
    simp [msm_addMissedFile]

/-- Successful additions to the requested queue append to it and leave the rest
of the memory alone. -/
theorem addRequestedFiles_eq (indices : List VcmtpProdIndex) (msm : McastSessionMemory) :
    addRequestedFiles msm indices =
      { msm with requestedQ := msm.requestedQ ++ indices } := by
  induction indices generalizing msm with
  | nil => simp [addRequestedFiles]
  | cons i rest ih =>
    have h : addRequestedFiles msm (i :: rest) =
        addRequestedFiles (msm_addRequestedFile msm i true).2 rest := rfl
    rw [h, ih]
    simp [msm_addRequestedFile]

/-- Removing as many entries as the missed queue holds yields them in the order
of the queue and empties it. -/
theorem removeMissedFiles_all (msm : McastSessionMemory) :
    removeMissedFiles msm.missedQ.length msm =
      (msm.missedQ.map some, { msm with missedQ := [] }) := by
  obtain ⟨missedQ, requestedQ, last, shut⟩ := msm
  induction missedQ with
  | nil => rfl
  | cons i rest ih =>
    simp only [List.length_cons, removeMissedFiles, msm_removeMissedFileNoWait, List.head?_cons,
      List.tail_cons, List.map_cons]
    simp only [List.length] at ih
    rw [ih]

/-- Removing as many entries as the requested queue holds yields them in the
order of the queue and empties it. -/
theorem removeRequestedFiles_all (msm : McastSessionMemory) :
    removeRequestedFiles msm.requestedQ.length msm =
      (msm.requestedQ.map some, { msm with requestedQ := [] }) := by
  obtain ⟨missedQ, requestedQ, last, shut⟩ := msm
  induction requestedQ with
  | nil => rfl
  | cons i rest ih =>
    simp only [List.length_cons, removeRequestedFiles, msm_removeRequestedFileNoWait,
      List.head?_cons, List.tail_cons, List.map_cons]
    simp only [List.length] at ih
    rw [ih]

/-- C23: the queues of the session memory are first-in first-out.  After the
indices of a list have been added to the missed queue of a cleared memory, the
peek yields the first of them and as many removals as there are indices yield
them in the order of the additions, after which a removal yields `false`; the
same holds for the requested queue; a get on a cleared memory yields `false`;
and `msm_close` followed by `msm_open` keeps both queues. -/
theorem C23_queues_are_fifo (msm : McastSessionMemory) (indices : List VcmtpProdIndex) :
    msm_peekMissedFileNoWait (addMissedFiles (msm_clearAllMissedFiles msm) indices) =
      indices.head? ∧
    (removeMissedFiles indices.length
        (addMissedFiles (msm_clearAllMissedFiles msm) indices)).1 = indices.map some ∧
    (msm_removeMissedFileNoWait
      (removeMissedFiles indices.length
        (addMissedFiles (msm_clearAllMissedFiles msm) indices)).2).1 = none ∧
    msm_peekRequestedFileNoWait (addRequestedFiles (msm_clearAllMissedFiles msm) indices) =
      indices.head? ∧
    (removeRequestedFiles indices.length
        (addRequestedFiles (msm_clearAllMissedFiles msm) indices)).1 = indices.map some ∧
    (msm_removeRequestedFileNoWait
      (removeRequestedFiles indices.length
        (addRequestedFiles (msm_clearAllMissedFiles msm) indices)).2).1 = none ∧
    (msm_getAnyMissedFileNoWait (msm_clearAllMissedFiles msm)).1 = none ∧
    (msm_peekMissedFileNoWait (msm_clearAllMissedFiles msm) = none ∧
      msm_peekRequestedFileNoWait (msm_clearAllMissedFiles msm) = none) ∧
    (∃ reopened, msm_open (msm_close msm true).2 true = some reopened ∧
      reopened.missedQ = msm.missedQ ∧ reopened.requestedQ = msm.requestedQ) ∧
    (∃ reopened, msm_open (msm_close (testedMemory msm) true).2 true = some reopened ∧
      msm_peekMissedFileNoWait (addMissedFiles (msm_clearAllMissedFiles msm) [1, 2, 3]) =
        some 1 ∧
      (removeMissedFiles 2 (addMissedFiles (msm_clearAllMissedFiles msm) [1, 2, 3])).1 =
        [some 1, some 2] ∧
      (msm_getAnyMissedFileNoWait reopened).1 = some 2 ∧
      (msm_getAnyMissedFileNoWait (msm_getAnyMissedFileNoWait reopened).2).1 = some 3 ∧
      (msm_getAnyMissedFileNoWait
        (msm_getAnyMissedFileNoWait (msm_getAnyMissedFileNoWait reopened).2).2).1 = none) := by
  have hm := addMissedFiles_eq indices (msm_clearAllMissedFiles msm)
  have hr := addRequestedFiles_eq indices (msm_clearAllMissedFiles msm)
  have hml : (addMissedFiles (msm_clearAllMissedFiles msm) indices).missedQ = indices := by
    rw [hm]
    simp [msm_clearAllMissedFiles]
  have hrl : (addRequestedFiles (msm_clearAllMissedFiles msm) indices).requestedQ =
      indices := by
    rw [hr]
    simp [msm_clearAllMissedFiles]
  have hma := removeMissedFiles_all (addMissedFiles (msm_clearAllMissedFiles msm) indices)
  have hra :=
    removeRequestedFiles_all (addRequestedFiles (msm_clearAllMissedFiles msm) indices)
  rw [hml] at hma
  rw [hrl] at hra
  refine ⟨?_, ?_, ?_, ?_, ?_, ?_, rfl, ⟨rfl, rfl⟩, ⟨_, rfl, rfl, rfl⟩, ?_⟩
  · simp [msm_peekMissedFileNoWait, hml]
  · rw [hma]
  · rw [hma]
    rfl
  · simp [msm_peekRequestedFileNoWait, hrl]
  · rw [hra]
  · rw [hra]
    rfl
  · exact ⟨_, rfl, rfl, rfl, rfl, rfl, rfl⟩

/-! ### Deliveries after a refusal or a failed insertion -/

/-- C29: `no_such_product_7_svc` changes neither queue.  Hence, when the
requested queue is `a :: b :: rest` with `a ≠ b` and the upstream LDM-7 answers
the request for `a` with `no_such_product`, a delivery that claims the index
`b` is treated as unexpected: the delivery failure is reported, no insertion
is attempted and the session memory, whose requested queue still has the head
`a`, is unchanged. -/
theorem C29_no_such_product_blocks_queue (down7 : Down7) (iProd : VcmtpProdIndex) :
    (no_such_product_7_svc down7 iProd).msm = down7.msm ∧
    ∀ (a b : VcmtpProdIndex) (rest : List VcmtpProdIndex) (missedProd : MissedProduct)
      (lockStatus insertStatus : Int),
      down7.msm.requestedQ = a :: b :: rest → a ≠ b → missedProd.iProd = b →
      deliver_missed_product_7_svc (no_such_product_7_svc down7 a) missedProd lockStatus
          insertStatus =
        { down7 with
          events := down7.events ++
            [Event.uwarn_no_such_product a, Event.deliveryFailure missedProd.prod.info] } ∧
      msm_peekRequestedFileNoWait
        (deliver_missed_product_7_svc (no_such_product_7_svc down7 a) missedProd lockStatus
          insertStatus).msm = some a := by
  refine ⟨rfl, ?_⟩
  intro a b rest missedProd lockStatus insertStatus hq hab hb
  have h : deliver_missed_product_7_svc (no_such_product_7_svc down7 a) missedProd lockStatus
      insertStatus =
      { down7 with
        events := down7.events ++
          [Event.uwarn_no_such_product a, Event.deliveryFailure missedProd.prod.info] } := by
    simp [deliver_missed_product_7_svc, no_such_product_7_svc, msm_peekRequestedFileNoWait, hq,
      hb, hab, deliveryFailure]
  rw [h]
  refine ⟨rfl, ?_⟩
  simp [msm_peekRequestedFileNoWait, hq]

/-- Witness of C29: the requested queue is `[1, 2]`, the upstream LDM-7 has no
product 1 and then delivers product 2. -/
theorem C29_no_such_product_blocks_queue_witness :
    deliver_missed_product_7_svc
        (no_such_product_7_svc
          (down7_new 0 { emptyMemory with requestedQ := [1, 2] }) 1)
        ⟨2, ⟨⟨20⟩, []⟩⟩ 0 0 =
      { down7_new 0 { emptyMemory with requestedQ := [1, 2] } with
        events := [Event.uwarn_no_such_product 1, Event.deliveryFailure ⟨20⟩] } ∧
    msm_peekRequestedFileNoWait
      (deliver_missed_product_7_svc
        (no_such_product_7_svc
          (down7_new 0 { emptyMemory with requestedQ := [1, 2] }) 1)
        ⟨2, ⟨⟨20⟩, []⟩⟩ 0 0).msm = some 1 :=
  (C29_no_such_product_blocks_queue
    (down7_new 0 { emptyMemory with requestedQ := [1, 2] }) 1).2 1 2 [] ⟨2, ⟨⟨20⟩, []⟩⟩ 0 0
    rfl (by decide) rfl

/-- C30: when the delivered index equals the head of the requested queue,
`deliver_missed_product_7_svc` removes the head whatever the insertion yields,
and the removal changes nothing else of the session memory.  When the
product-queue cannot be locked, no insertion is attempted and the delivery
failure is reported; when `pq_insert` returns `EINVAL`, that one insertion is
attempted and the delivery failure is reported.  In both cases the index is
gone from the requested queue. -/
theorem C30_failed_insertion_loses_index (down7 : Down7) (missedProd : MissedProduct)
    (rest : List VcmtpProdIndex) (lockStatus insertStatus : Int)
    (hq : down7.msm.requestedQ = missedProd.iProd :: rest) :
    (deliver_missed_product_7_svc down7 missedProd lockStatus insertStatus).msm =
      { down7.msm with requestedQ := rest } ∧
    (lockStatus ≠ 0 →
      deliver_missed_product_7_svc down7 missedProd lockStatus insertStatus =
        { down7 with
          msm := { down7.msm with requestedQ := rest }
          events := down7.events ++ [Event.deliveryFailure missedProd.prod.info] }) ∧
    (lockStatus = 0 → insertStatus = EINVAL →
      deliver_missed_product_7_svc down7 missedProd lockStatus insertStatus =
        { down7 with
          msm := { down7.msm with requestedQ := rest }
          events := down7.events ++
            [Event.pq_insert missedProd.prod EINVAL,
              Event.deliveryFailure missedProd.prod.info] }) := by
  refine ⟨?_, ?_, ?_⟩
  · simp only [deliver_missed_product_7_svc, msm_peekRequestedFileNoWait, hq, List.head?_cons,
      ne_eq, not_true_eq_false, if_false, msm_removeRequestedFileNoWait, List.tail_cons,
      deliver_product, insertAndUnlock, deliveryFailure]
    repeat' split
    all_goals rfl
  · intro hl
    simp [deliver_missed_product_7_svc, msm_peekRequestedFileNoWait, hq,
      msm_removeRequestedFileNoWait, deliver_product, hl, deliveryFailure, LDM7_SYSTEM]
  · intro hl hi
    simp [deliver_missed_product_7_svc, msm_peekRequestedFileNoWait, hq,
      msm_removeRequestedFileNoWait, deliver_product, insertAndUnlock, hl, hi, deliveryFailure,
      LDM7_SYSTEM, EINVAL]

/-- Witness of C30: the requested queue is `[1, 2]` and product 1 is delivered
while the product-queue cannot be locked, or is rejected by `pq_insert`. -/
theorem C30_failed_insertion_loses_index_witness :
    (deliver_missed_product_7_svc (down7_new 0 { emptyMemory with requestedQ := [1, 2] })
        ⟨1, ⟨⟨10⟩, []⟩⟩ 1 0).msm.requestedQ = [2] ∧
    (deliver_missed_product_7_svc (down7_new 0 { emptyMemory with requestedQ := [1, 2] })
        ⟨1, ⟨⟨10⟩, []⟩⟩ 1 0).events = [Event.deliveryFailure ⟨10⟩] ∧
    (deliver_missed_product_7_svc (down7_new 0 { emptyMemory with requestedQ := [1, 2] })
        ⟨1, ⟨⟨10⟩, []⟩⟩ 0 EINVAL).events =
      [Event.pq_insert ⟨⟨10⟩, []⟩ EINVAL, Event.deliveryFailure ⟨10⟩] := by
  have h := C30_failed_insertion_loses_index
    (down7_new 0 { emptyMemory with requestedQ := [1, 2] }) ⟨1, ⟨⟨10⟩, []⟩⟩ [2] 1 0 rfl
  have h2 := C30_failed_insertion_loses_index
    (down7_new 0 { emptyMemory with requestedQ := [1, 2] }) ⟨1, ⟨⟨10⟩, []⟩⟩ [2] 0 EINVAL rfl
  refine ⟨?_, ?_, ?_⟩
  · rw [h.1]
  · rw [h.2.1 (by decide)]
    rfl
  · rw [h2.2.2 rfl rfl]
    rfl

/-! ### Unsigned integers of the registry -/

/-- The digit characters have their values. -/
theorem digitValue_digit (d : Nat) (h : d < 10) : digitValue (Char.ofNat (48 + d)) = some d := by
  interval_cases d <;> rfl

/-- A digit character is neither white space nor a sign. -/
theorem digit_plain (d : Nat) (h : d < 10) :
    isspace (Char.ofNat (48 + d)) = false ∧ Char.ofNat (48 + d) ≠ '-' ∧
      Char.ofNat (48 + d) ≠ '+' ∧ (Char.ofNat (48 + d) = '0' ↔ d = 0) := by
  interval_cases d <;> decide

/-- Scanning the decimal digits of a number yields the number. -/
theorem scanDigits_decimal (n : Nat) (rest : List Char) :
    scanDigits 10 (decimal n ++ rest) 0 = scanDigits 10 rest n := by
  induction n using Nat.strong_induction_on generalizing rest with
  | _ n ih =>
    rw [decimal]
    split_ifs with h
    · simp [scanDigits, digitValue_digit n h, h]
    · have hlt : n / 10 < n := by omega
      have hd : n % 10 < 10 := by omega
      rw [List.append_assoc, ih (n / 10) hlt]
      simp only [List.singleton_append, scanDigits, digitValue_digit (n % 10) hd, hd, if_true]
      congr 1
      omega

/-- The decimal digits of a number start with a digit, which is `0` for the
number zero only. -/
theorem decimal_head (n : Nat) :
    ∃ d cs, decimal n = Char.ofNat (48 + d) :: cs ∧ d < 10 ∧ (d = 0 → n = 0 ∧ cs = []) := by
  induction n using Nat.strong_induction_on with
  | _ n ih =>
    rw [decimal]
    split_ifs with h
    · exact ⟨n, [], rfl, h, fun h0 => ⟨h0, rfl⟩⟩
    · obtain ⟨d, cs, hd, hlt, h0⟩ := ih (n / 10) (by omega)
      refine ⟨d, cs ++ [Char.ofNat (48 + n % 10)], by rw [hd]; rfl, hlt, ?_⟩
      intro hz
      have := (h0 hz).1
      omega

/-- The decimal digits of a number are converted to the number. -/
theorem strtoul_decimal (n : Nat) (hn : n ≤ ULONG_MAX) (noConvErrno : Int) :
    strtoul (decimal n) noConvErrno = (n, [], 0) := by
  obtain ⟨d, cs, hd, hlt, h0⟩ := decimal_head n
  have hscan := scanDigits_decimal n []
  rw [List.append_nil, hd] at hscan
  obtain ⟨hsp, hminus, hplus, hzero⟩ := digit_plain d hlt
  have hdig := digitValue_digit d hlt
  by_cases hz : d = 0
  · obtain ⟨hn0, hcs⟩ := h0 hz
    subst hz hn0 hcs
    rw [hd]
    rfl
  · have hne : Char.ofNat (48 + d) ≠ '0' := fun h => hz (hzero.1 h)
    rw [hd]
    have hhex : hexPrefix (Char.ofNat (48 + d) :: cs) = false := by
      cases cs with
      | nil => rfl
      | cons x t => cases t <;> simp [hexPrefix, hne]
    have hdo : isDigitOf 10 (Char.ofNat (48 + d)) = true := by
      simp [isDigitOf, hdig, hlt]
    have hle : ¬ ULONG_MAX < n := by omega
    simp [strtoul, List.dropWhile, hsp, hminus, hplus, hne, hhex, hdo, hscan, scanDigits, hle]

/-- The string that `formatUint` produces is parsed back to the value. -/
theorem parseUint_decimal (v : Nat) (hv : v ≤ UINT_MAX) (noConvErrno : Int) :
    parseUint (decimal v) noConvErrno = (0, some v) := by
  have hu : v ≤ ULONG_MAX := le_trans hv (by decide)
  have hlt : v < 4294967296 := lt_of_le_of_lt hv (by decide)
  simp [parseUint, strtoul_decimal v hu, Nat.mod_eq_of_lt hlt]

/-- C28: the round trip of an unsigned integer through the registry holds:
`parseUint` yields `v` from the string of `formatUint`, and `reg_getUint` after
`reg_putUint` on the same path yields `v`.  But `parseUint` does not return
`EILSEQ` for every string that does not represent an unsigned integer: it
accepts `-1` as `UINT_MAX`, a number of twenty digits as `UINT_MAX`,
`4294967296` as `0`, and the empty string as `0` when `strtoul` leaves `errno`
alone. -/
theorem C28_parseUint_accepts_minus_one :
    (∀ (v : Nat) (noConvErrno : Int), v ≤ UINT_MAX →
      (formatUint v true).2 = some (decimal v) ∧
      parseUint (decimal v) noConvErrno = (0, some v)) ∧
    (∀ (reg : Registry) (path : List Char) (v : Nat) (noConvErrno : Int), v ≤ UINT_MAX →
      (reg_putUint reg path v 0 true 0 0).1 = 0 ∧
      reg_getUint (reg_putUint reg path v 0 true 0 0).2 path 0 noConvErrno = (0, some v)) ∧
    (∀ noConvErrno : Int, parseUint ['-', '1'] noConvErrno = (0, some UINT_MAX)) ∧
    (∀ noConvErrno : Int,
      parseUint (List.replicate 20 '9') noConvErrno = (0, some UINT_MAX)) ∧
    (∀ noConvErrno : Int,
      parseUint ['4', '2', '9', '4', '9', '6', '7', '2', '9', '6'] noConvErrno =
        (0, some 0)) ∧
    parseUint [] 0 = (0, some 0) ∧
    parseUint [] EINVAL = (EILSEQ, none) ∧
    (∀ noConvErrno : Int, parseUint ['1', 'x'] noConvErrno = (EILSEQ, none)) := by
  refine ⟨?_, ?_, ?_, ?_, ?_, rfl, rfl, ?_⟩
  · intro v noConvErrno hv
    exact ⟨rfl, parseUint_decimal v hv noConvErrno⟩
  · intro reg path v noConvErrno hv
    refine ⟨rfl, ?_⟩
    simp [reg_putUint, formatUint, reg_getUint, rn_getValue, rn_putValue,
      parseUint_decimal v hv noConvErrno]
  all_goals
    intro noConvErrno
    simp [parseUint, strtoul, List.dropWhile, isspace, hexPrefix, isDigitOf, digitValue,
      scanDigits, ULONG_MAX, UINT_MAX, EILSEQ, ERANGE, List.replicate]

/-- Witness of C28: the value 42 goes through the registry unchanged. -/
theorem C28_parseUint_accepts_minus_one_witness :
    reg_getUint (reg_putUint [] ['/', 'n'] 42 0 true 0 0).2 ['/', 'n'] 0 0 = (0, some 42) ∧
    parseUint (decimal 42) 0 = (0, some 42) :=
  ⟨(C28_parseUint_accepts_minus_one.2.1 [] ['/', 'n'] 42 0 (by decide)).2,
    (C28_parseUint_accepts_minus_one.1 42 0 (by decide)).2⟩

/-! ### REQUEST entries of the configuration file -/

/-- Bits of the complement of a feedtype. -/
theorem feedtype_not_testBit (f : feedtypet) (i : Nat) :
    (feedtype_not f).testBit i = (decide (i < 32) && !f.testBit i) := by
  unfold feedtype_not
  rw [Nat.testBit_xor, Nat.testBit_two_pow_sub_one, Nat.testBit_mod_two_pow]
  by_cases h : i < 32 <;> simp [h]

/-- A feedtype without the feeds of another one is disjoint from it. -/
theorem and_not_disjoint (a b : feedtypet) : (a &&& feedtype_not b) &&& b = 0 := by
  apply Nat.eq_of_testBit_eq
  intro i
  simp only [Nat.testBit_and, feedtype_not_testBit, Nat.zero_testBit]
  cases a.testBit i <;> cases b.testBit i <;> simp

/-- Taking feeds away from a feedtype keeps it disjoint from what it was
disjoint from. -/
theorem and_disjoint (a x c : feedtypet) (h : a &&& c = 0) : (a &&& x) &&& c = 0 := by
  apply Nat.eq_of_testBit_eq
  intro i
  have hi : (a &&& c).testBit i = false := by rw [h]; exact Nat.zero_testBit i
  simp only [Nat.testBit_and, Nat.zero_testBit] at hi ⊢
  cases ha : a.testBit i <;> cases hc : c.testBit i <;> simp_all

/-- The subscription that `sub_remove` leaves has the pattern of the target and
is disjoint from the removed one when the patterns are equal. -/
theorem sub_remove_spec (target remove : Subscription) :
    (sub_remove target remove).2.pattern = target.pattern ∧
    (remove.pattern = target.pattern →
      (sub_remove target remove).2.feedtype &&& remove.feedtype = 0) ∧
    (∀ c, target.feedtype &&& c = 0 → (sub_remove target remove).2.feedtype &&& c = 0) := by
  unfold sub_remove
  split_ifs with h
  · exact ⟨rfl, fun _ => and_not_disjoint _ _, fun c hc => and_disjoint _ _ c hc⟩
  · refine ⟨rfl, fun hp => ?_, fun c hc => hc⟩
    by_contra hne
    exact h ⟨hp.symm, hne⟩

/-- The subscription that the loop of `serverEntry_reduceSub` leaves has the
pattern it had and is disjoint from every request with that pattern. -/
theorem reduce_disjoint (requests : List Subscription) (sub : Subscription) :
    (requests.foldl (fun s entrySub => (sub_remove s entrySub).2) sub).pattern = sub.pattern ∧
    (∀ req ∈ requests, req.pattern = sub.pattern →
      (requests.foldl (fun s entrySub => (sub_remove s entrySub).2) sub).feedtype &&&
        req.feedtype = 0) ∧
    (∀ c, sub.feedtype &&& c = 0 →
      (requests.foldl (fun s entrySub => (sub_remove s entrySub).2) sub).feedtype &&& c = 0) := by
  induction requests generalizing sub with
  | nil => exact ⟨rfl, fun _ h => absurd h (List.not_mem_nil _), fun c hc => hc⟩
  | cons q qs ih =>
    obtain ⟨hp, hq, hsub⟩ := sub_remove_spec sub q
    obtain ⟨ihp, ihq, ihsub⟩ := ih (sub_remove sub q).2
    simp only [List.foldl_cons]
    refine ⟨ihp.trans hp, ?_, fun c hc => ihsub c (hsub c hc)⟩
    intro req hreq hpat
    rcases List.mem_cons.1 hreq with rfl | hmem
    · exact ihsub _ (hq hpat)
    · exact ihq req hmem (hpat.trans hp.symm)

/-- The function `serverEntry_add` keeps the invariant of the server-entry and
its server information. -/
theorem serverEntry_add_disjoint (entry : ServerEntry) (sub : Subscription)
    (cloneOk requestOk : Bool) (h : entry.disjoint) :
    (serverEntry_add entry sub cloneOk requestOk).2.1.disjoint ∧
    (serverEntry_add entry sub cloneOk requestOk).2.1.serverInfo = entry.serverInfo := by
  unfold serverEntry_add serverEntry_reduceSub
  cases cloneOk
  · exact ⟨h, rfl⟩
  · simp only [if_true, ne_eq, not_true_eq_false, if_false]
    obtain ⟨hp, hq, _⟩ := reduce_disjoint entry.requests sub
    split_ifs with he hr
    · exact ⟨h, rfl⟩
    · refine ⟨⟨?_, ?_⟩, rfl⟩
      · intro req hreq
        rcases List.mem_cons.1 hreq with rfl | hmem
        · simpa [sub_isEmpty] using he
        · exact h.1 req hmem
      · refine List.Pairwise.cons ?_ h.2
        intro req hreq hpat
        exact hq req hreq (hpat.symm.trans hp)
    · exact ⟨h, rfl⟩

/-- The function `addRequest` keeps the invariant of the server-entry and its
server information. -/
theorem addRequest_disjoint (sub : Subscription) (entry : ServerEntry) (subs : List SubEntry)
    (a : Allocations) (h : entry.disjoint) :
    (addRequest sub entry subs a).2.1.disjoint ∧
    (addRequest sub entry subs a).2.1.serverInfo = entry.serverInfo := by
  have hadd := serverEntry_add_disjoint entry sub a.reduceSub a.request h
  unfold addRequest
  dsimp only
  split_ifs
  · exact ⟨h, rfl⟩
  · exact hadd
  · exact hadd
  · split
    · exact hadd
    · exact hadd

/-- Equality of server information as the source tests it. -/
theorem serverInfo_equal_iff (s1 s2 : ServerInfo) : serverInfo_equal s1 s2 = true ↔ s1 = s2 := by
  cases s1
  cases s2
  simp [serverInfo_equal]

/-- An entry that `serverEntryOf` finds is in the list and has the server
information. -/
theorem serverEntryOf_some (entries : List ServerEntry) (server : ServerInfo)
    (entry : ServerEntry) (h : serverEntryOf entries server = some entry) :
    entry ∈ entries ∧ entry.serverInfo = server := by
  unfold serverEntryOf at h
  refine ⟨List.mem_of_find?_eq_some h, ?_⟩
  have := List.find?_some h
  exact ((serverInfo_equal_iff _ _).1 this).symm

/-- Every entry of the list after an assignment is the new entry or an entry of
the list before. -/
theorem mem_setServerEntry (server : ServerInfo) (newEntry : ServerEntry)
    (entries : List ServerEntry) (e : ServerEntry)
    (h : e ∈ setServerEntry server newEntry entries) : e = newEntry ∨ e ∈ entries := by
  induction entries with
  | nil => exact absurd h (List.not_mem_nil _)
  | cons x rest ih =>
    unfold setServerEntry at h
    split_ifs at h
    · rcases List.mem_cons.1 h with rfl | hm
      · exact Or.inl rfl
      · exact Or.inr (List.mem_cons_of_mem _ hm)
    · rcases List.mem_cons.1 h with rfl | hm
      · exact Or.inr (List.mem_cons_self _ _)
      · rcases ih hm with rfl | hr
        · exact Or.inl rfl
        · exact Or.inr (List.mem_cons_of_mem _ hr)

/-- Every entry of the list that `servers_addIfAbsent` leaves is an entry of the
list before or has no request. -/
theorem mem_servers_addIfAbsent (entries result : List ServerEntry) (server : ServerInfo)
    (ok : Bool) (h : servers_addIfAbsent entries server ok = some result) (e : ServerEntry)
    (he : e ∈ result) : e ∈ entries ∨ e.requests = [] := by
  unfold servers_addIfAbsent at h
  split_ifs at h
  · cases h
    exact Or.inl he
  · cases h
    rcases List.mem_cons.1 he with rfl | hm
    · exact Or.inr rfl
    · exact Or.inl hm

/-- A call of `lcf_addRequest` keeps the invariant of every server-entry. -/
theorem lcf_addRequest_disjoint (st : Requests) (feedtype : feedtypet)
    (pattern hostId : List Char) (port : Nat) (a : Allocations)
    (h : ∀ entry ∈ st.serverEntries, entry.disjoint) :
    ∀ entry ∈ (lcf_addRequest st feedtype pattern hostId port a).2.serverEntries,
      entry.disjoint := by
  have hnew : ∀ result, servers_addIfAbsent st.serverEntries ⟨hostId, port⟩ a.serverEntry =
      some result → ∀ e ∈ result, e.disjoint := by
    intro result hres e he
    rcases mem_servers_addIfAbsent _ _ _ _ hres e he with hm | hnil
    · exact h e hm
    · constructor
      · intro req hreq
        rw [hnil] at hreq
        exact absurd hreq (List.not_mem_nil _)
      · rw [hnil]
        exact List.Pairwise.nil
  unfold lcf_addRequest
  dsimp only
  cases a.serverInfo
  · exact h
  · simp only [Bool.not_true, Bool.false_eq_true, if_false]
    cases hres : servers_addIfAbsent st.serverEntries ⟨hostId, port⟩ a.serverEntry with
    | none => exact h
    | some result =>
      dsimp only
      cases hof : serverEntryOf result ⟨hostId, port⟩ with
      | none => exact hnew result hres
      | some entry =>
        dsimp only
        cases a.sub
        · exact hnew result hres
        · simp only [Bool.not_true, Bool.false_eq_true, if_false]
          intro e he
          rcases mem_setServerEntry _ _ _ _ he with rfl | hm
          · exact (addRequest_disjoint _ entry st.subs a
              (hnew result hres entry (serverEntryOf_some _ _ _ hof).1)).1
          · exact hnew result hres e hm

/-- Calls of `lcf_addRequest` keep the invariant of every server-entry. -/
theorem addRequests_disjoint (entries : List RequestEntry) (st : Requests)
    (h : ∀ entry ∈ st.serverEntries, entry.disjoint) :
    ∀ entry ∈ (addRequests st entries).serverEntries, entry.disjoint := by
  induction entries generalizing st with
  | nil => exact h
  | cons e rest ih =>
    exact ih _ (lcf_addRequest_disjoint st e.feedtype e.pattern e.hostId e.port e.alloc h)

/-- A feedtype of 32 bits has no bit from 32 on. -/
theorem feedtype_high_bit (a : feedtypet) (ha : a < 2 ^ 32) (i : Nat) (hi : ¬ i < 32) :
    a.testBit i = false :=
  Nat.testBit_lt_two_pow (lt_of_lt_of_le ha (Nat.pow_le_pow_right (by decide) (by omega)))

/-- Removing no feed from a feedtype of 32 bits leaves it as it is. -/
theorem and_not_zero (a : feedtypet) (ha : a < 2 ^ 32) : a &&& feedtype_not 0 = a := by
  apply Nat.eq_of_testBit_eq
  intro i
  simp only [Nat.testBit_and, feedtype_not_testBit, Nat.zero_testBit]
  by_cases hi : i < 32
  · simp [hi]
  · simp [hi, feedtype_high_bit a ha i hi]

/-- Removing two feedtypes in turn removes their union. -/
theorem and_not_and_not (a q f : feedtypet) :
    (a &&& feedtype_not q) &&& feedtype_not f = a &&& feedtype_not (q ||| f) := by
  apply Nat.eq_of_testBit_eq
  intro i
  simp only [Nat.testBit_and, feedtype_not_testBit, Nat.testBit_or]
  cases a.testBit i <;> cases q.testBit i <;> cases f.testBit i <;> simp

/-- Removing a feedtype that is disjoint from the target changes nothing. -/
theorem and_not_of_disjoint (a q f : feedtypet) (h : a &&& q = 0) :
    a &&& feedtype_not f = a &&& feedtype_not (q ||| f) := by
  apply Nat.eq_of_testBit_eq
  intro i
  have hi : (a &&& q).testBit i = false := by rw [h]; exact Nat.zero_testBit i
  simp only [Nat.testBit_and, feedtype_not_testBit, Nat.testBit_or] at hi ⊢
  cases ha : a.testBit i <;> cases hq : q.testBit i <;> cases f.testBit i <;> simp_all

/-- The loop of `serverEntry_reduceSub` removes from the feedtype the feeds of
the requests that have the pattern of the subscription. -/
theorem reduce_eq (requests : List Subscription) (sub : Subscription)
    (hsub : sub.feedtype < 2 ^ 32) :
    requests.foldl (fun s entrySub => (sub_remove s entrySub).2) sub =
      { sub with
        feedtype := sub.feedtype &&& feedtype_not (feedsOf sub.pattern requests) } := by
  induction requests generalizing sub with
  | nil =>
    simp only [List.foldl_nil, feedsOf, List.foldr_nil]
    rw [and_not_zero sub.feedtype hsub]
  | cons q qs ih =>
    simp only [List.foldl_cons]
    have hfeeds : feedsOf sub.pattern (q :: qs) =
        if q.pattern = sub.pattern then q.feedtype ||| feedsOf sub.pattern qs
        else feedsOf sub.pattern qs := rfl
    rw [hfeeds]
    by_cases h : sub.pattern = q.pattern ∧ sub.feedtype &&& q.feedtype ≠ 0
    · have hstep : (sub_remove sub q).2 =
          { sub with feedtype := sub.feedtype &&& feedtype_not q.feedtype } := by
        simp [sub_remove, h]
      have hlt : sub.feedtype &&& feedtype_not q.feedtype < 2 ^ 32 :=
        lt_of_le_of_lt Nat.and_le_left hsub
      rw [hstep, ih _ hlt, if_pos h.1.symm]
      simp only [and_not_and_not]
    · have hstep : (sub_remove sub q).2 = sub := by
        simp only [sub_remove, h, if_false]
      rw [hstep, ih sub hsub]
      by_cases hq : q.pattern = sub.pattern
      · have hd : sub.feedtype &&& q.feedtype = 0 := by
          by_contra hne
          exact h ⟨hq.symm, hne⟩
        rw [if_pos hq, ← and_not_of_disjoint _ _ _ hd]
      · rw [if_neg hq]

/-- The entry that `serverEntryOf` finds after an assignment to the entry of a
server. -/
theorem serverEntryOf_setServerEntry (server : ServerInfo) (newEntry : ServerEntry)
    (hnew : newEntry.serverInfo = server) (entries : List ServerEntry)
    (hsome : (serverEntryOf entries server).isSome = true) (s : ServerInfo) :
    serverEntryOf (setServerEntry server newEntry entries) s =
      if s = server then some newEntry else serverEntryOf entries s := by
  induction entries with
  | nil => simp [serverEntryOf] at hsome
  | cons x rest ih =>
    unfold setServerEntry
    by_cases hx : serverInfo_equal server x.serverInfo = true
    · have hxs : server = x.serverInfo := (serverInfo_equal_iff _ _).1 hx
      simp only [hx, if_true]
      by_cases hs : s = server
      · subst hs
        have hself : serverInfo_equal s newEntry.serverInfo = true :=
          (serverInfo_equal_iff _ _).2 hnew.symm
        simp [serverEntryOf, List.find?_cons, hself]
      · have h1 : serverInfo_equal s newEntry.serverInfo = false := by
          rw [hnew]
          exact Bool.eq_false_iff.2 fun h => hs ((serverInfo_equal_iff _ _).1 h)
        have h2 : serverInfo_equal s x.serverInfo = false := by
          rw [← hxs]
          exact Bool.eq_false_iff.2 fun h => hs ((serverInfo_equal_iff _ _).1 h)
        simp [serverEntryOf, List.find?, h1, h2, hs]
    · have hx' : serverInfo_equal server x.serverInfo = false := Bool.eq_false_iff.2 hx
      have hrest : (serverEntryOf rest server).isSome = true := by
        simpa [serverEntryOf, List.find?, hx'] using hsome
      simp only [hx', Bool.false_eq_true, if_false]
      by_cases hs : s = server
      · subst hs
        have := ih hrest
        simp only [if_true] at this
        simp only [serverEntryOf, List.find?, hx', if_true] at this ⊢
        exact this
      · have := ih hrest
        simp only [hs, if_false] at this
        simp only [serverEntryOf, List.find?, hs, if_false] at this ⊢
        cases hsx : serverInfo_equal s x.serverInfo
        · exact this
        · rfl

/-- The list that `servers_addIfAbsent` leaves has an entry for the server, with
the requests that were stored for the server, and stores for every server the
requests that were stored for it. -/
theorem servers_addIfAbsent_spec (st : Requests) (server : ServerInfo) :
    ∃ result entry,
      servers_addIfAbsent st.serverEntries server true = some result ∧
      serverEntryOf result server = some entry ∧
      entry.serverInfo = server ∧
      entry.requests = requestsOf st server ∧
      ∀ s, requestsOf { st with serverEntries := result } s = requestsOf st s := by
  unfold servers_addIfAbsent
  by_cases hany : (st.serverEntries.any fun entry => serverInfo_equal server entry.serverInfo)
      = true
  · simp only [hany, if_true]
    cases hof : serverEntryOf st.serverEntries server with
    | none =>
      unfold serverEntryOf at hof
      rw [List.find?_eq_none] at hof
      rw [List.any_eq_true] at hany
      obtain ⟨x, hx, hxe⟩ := hany
      exact absurd hxe (hof x hx)
    | some entry =>
      refine ⟨_, entry, rfl, hof, (serverEntryOf_some _ _ _ hof).2, ?_, fun s => rfl⟩
      simp [requestsOf, hof]
  · simp only [hany, Bool.false_eq_true, if_false, if_true]
    have hnone : serverEntryOf st.serverEntries server = none := by
      unfold serverEntryOf
      rw [List.find?_eq_none]
      intro x hx hxe
      exact hany (List.any_eq_true.2 ⟨x, hx, hxe⟩)
    have hself : serverInfo_equal server server = true := (serverInfo_equal_iff _ _).2 rfl
    refine ⟨_, ⟨server, []⟩, rfl, ?_, rfl, ?_, ?_⟩
    · simp [serverEntryOf, List.find?, hself]
    · simp [requestsOf, hnone]
    · intro s
      by_cases hs : s = server
      · subst hs
        have hl : serverEntryOf (⟨s, []⟩ :: st.serverEntries) s = some ⟨s, []⟩ := by
          simp [serverEntryOf, List.find?_cons, hself]
        simp only [requestsOf, hnone, hl]
      · have h1 : serverInfo_equal s server = false :=
          Bool.eq_false_iff.2 fun h => hs ((serverInfo_equal_iff _ _).1 h)
        simp [requestsOf, serverEntryOf, List.find?, h1]

/-- What a call of `lcf_addRequest` does when the allocations up to the
reduction succeed: a subscription that the reduction leaves empty changes
nothing, and another one is stored, reduced, in front of the requests of its
server when the request can be allocated. -/
theorem lcf_addRequest_spec (st : Requests) (feedtype : feedtypet)
    (pattern hostId : List Char) (port : Nat) (a : Allocations)
    (hft : feedtype < 2 ^ 32) (h1 : a.serverInfo = true) (h2 : a.serverEntry = true)
    (h3 : a.sub = true) (h4 : a.origSub = true) (h5 : a.reduceSub = true) :
    (feedtype &&& feedtype_not (feedsOf pattern (requestsOf st ⟨hostId, port⟩)) = NONE →
      (lcf_addRequest st feedtype pattern hostId port a).1 = 0 ∧
      (lcf_addRequest st feedtype pattern hostId port a).2.subs = st.subs ∧
      ∀ s, requestsOf (lcf_addRequest st feedtype pattern hostId port a).2 s =
        requestsOf st s) ∧
    (feedtype &&& feedtype_not (feedsOf pattern (requestsOf st ⟨hostId, port⟩)) ≠ NONE →
      a.request = true →
      requestsOf (lcf_addRequest st feedtype pattern hostId port a).2 ⟨hostId, port⟩ =
        ⟨pattern, feedtype &&& feedtype_not (feedsOf pattern (requestsOf st ⟨hostId, port⟩))⟩ ::
          requestsOf st ⟨hostId, port⟩ ∧
      ∀ s, s ≠ ⟨hostId, port⟩ →
        requestsOf (lcf_addRequest st feedtype pattern hostId port a).2 s =
          requestsOf st s) := by
  obtain ⟨result, entry, hres, hof, hinfo, hreqs, hall⟩ :=
    servers_addIfAbsent_spec st ⟨hostId, port⟩
  have hsome : (serverEntryOf result ⟨hostId, port⟩).isSome = true := by
    rw [hof]
    rfl
  have hred : entry.requests.foldl (fun s entrySub => (sub_remove s entrySub).2)
      ⟨pattern, feedtype⟩ =
      ⟨pattern, feedtype &&& feedtype_not (feedsOf pattern (requestsOf st ⟨hostId, port⟩))⟩ := by
    rw [reduce_eq _ _ hft, hreqs]
  have hlcf : lcf_addRequest st feedtype pattern hostId port a =
      ((addRequest ⟨pattern, feedtype⟩ entry st.subs a).1,
        { serverEntries := setServerEntry ⟨hostId, port⟩
            (addRequest ⟨pattern, feedtype⟩ entry st.subs a).2.1 result,
          subs := (addRequest ⟨pattern, feedtype⟩ entry st.subs a).2.2 }) := by
    simp [lcf_addRequest, h1, h2, h3, hres, hof]
  have hreq : ∀ newEntry : ServerEntry, newEntry.serverInfo = ⟨hostId, port⟩ →
      ∀ subs s, requestsOf
        { serverEntries := setServerEntry ⟨hostId, port⟩ newEntry result, subs := subs } s =
        if s = ⟨hostId, port⟩ then newEntry.requests else requestsOf st s := by
    intro newEntry hne subs s
    have := serverEntryOf_setServerEntry ⟨hostId, port⟩ newEntry hne result hsome s
    simp only [requestsOf, this]
    by_cases hs : s = ⟨hostId, port⟩
    · simp [hs]
    · have hk := hall s
      simp only [requestsOf] at hk
      simp only [hs, if_false]
      exact hk
  constructor
  · intro hnone
    have hadd : addRequest ⟨pattern, feedtype⟩ entry st.subs a = (0, entry, st.subs) := by
      simp [addRequest, h4, h5, serverEntry_add, serverEntry_reduceSub, hred, sub_isEmpty, hnone]
    rw [hlcf, hadd]
    refine ⟨rfl, rfl, fun s => ?_⟩
    rw [hreq entry hinfo st.subs s]
    by_cases hs : s = ⟨hostId, port⟩
    · simp [hs, hreqs]
    · simp [hs]
  · intro hne hrq
    have hadd : (addRequest ⟨pattern, feedtype⟩ entry st.subs a).2.1 =
        { entry with requests :=
          ⟨pattern, feedtype &&& feedtype_not (feedsOf pattern (requestsOf st ⟨hostId, port⟩))⟩ ::
            entry.requests } := by
      simp only [addRequest, h4, h5, hrq, serverEntry_add, serverEntry_reduceSub, hred,
        sub_isEmpty, hne, Bool.not_true, Bool.false_eq_true, if_false, if_true, ne_eq,
        not_true_eq_false, decide_False]
      split <;> rfl
    rw [hlcf, hadd]
    dsimp only
    have hinfo2 : ∀ rs, (⟨entry.serverInfo, rs⟩ : ServerEntry).serverInfo = ⟨hostId, port⟩ :=
      fun _ => hinfo
    refine ⟨?_, fun s hs => ?_⟩
    · rw [hreq _ (hinfo2 _)]
      simp [hreqs]
    · rw [hreq _ (hinfo2 _)]
      simp [hs]

/-- What is left of a feedtype of 32 bits after a removal, together with what
was removed, has the feeds of both. -/
theorem and_not_or (a f : feedtypet) (ha : a < 2 ^ 32) :
    (a &&& feedtype_not f) ||| f = a ||| f := by
  apply Nat.eq_of_testBit_eq
  intro i
  simp only [Nat.testBit_and, feedtype_not_testBit, Nat.testBit_or]
  by_cases hi : i < 32
  · cases a.testBit i <;> cases f.testBit i <;> simp [hi]
  · simp [hi, feedtype_high_bit a ha i hi]

/-- The feeds stored for a server and a pattern after a call of `lcf_addRequest`
whose allocations succeed. -/
theorem lcf_addRequest_feeds (st : Requests) (e : RequestEntry) (hft : e.feedtype < 2 ^ 32)
    (ha : e.alloc = allocated) (pattern : List Char) (s : ServerInfo) :
    feedsOf pattern
        (requestsOf (lcf_addRequest st e.feedtype e.pattern e.hostId e.port e.alloc).2 s) =
      if e.pattern = pattern ∧ (⟨e.hostId, e.port⟩ : ServerInfo) = s then
        e.feedtype ||| feedsOf pattern (requestsOf st s)
      else feedsOf pattern (requestsOf st s) := by
  obtain ⟨hnone, hsome⟩ := lcf_addRequest_spec st e.feedtype e.pattern e.hostId e.port e.alloc
    hft (by rw [ha]; rfl) (by rw [ha]; rfl) (by rw [ha]; rfl) (by rw [ha]; rfl)
    (by rw [ha]; rfl)
  by_cases hred : e.feedtype &&&
      feedtype_not (feedsOf e.pattern (requestsOf st ⟨e.hostId, e.port⟩)) = NONE
  · rw [(hnone hred).2.2 s]
    split_ifs with hm
    · obtain ⟨hp, hs⟩ := hm
      subst hp hs
      have := and_not_or e.feedtype (feedsOf e.pattern (requestsOf st ⟨e.hostId, e.port⟩)) hft
      rw [hred] at this
      simpa [NONE] using this
    · rfl
  · obtain ⟨hsame, hother⟩ := hsome hred (by rw [ha]; rfl)
    by_cases hs : s = ⟨e.hostId, e.port⟩
    · subst hs
      rw [hsame]
      simp only [and_true]
      have hcons : ∀ (r : Subscription) (rs : List Subscription),
          feedsOf pattern (r :: rs) =
            if r.pattern = pattern then r.feedtype ||| feedsOf pattern rs
            else feedsOf pattern rs := fun _ _ => rfl
      rw [hcons]
      dsimp only
      split_ifs with hp
      · subst hp
        exact and_not_or _ _ hft
      · rfl
    · rw [hother s hs]
      have : ¬ (e.pattern = pattern ∧ (⟨e.hostId, e.port⟩ : ServerInfo) = s) :=
        fun h => hs h.2.symm
      rw [if_neg this]

/-- The feeds stored for a server and a pattern after the calls of
`lcf_addRequest` for a list of REQUEST entries whose allocations succeed: the
feeds stored before, and the feeds that the entries ask from the server with
the pattern. -/
theorem addRequests_feeds (entries : List RequestEntry) (st : Requests)
    (hft : ∀ e ∈ entries, e.feedtype < 2 ^ 32) (ha : ∀ e ∈ entries, e.alloc = allocated)
    (pattern : List Char) (s : ServerInfo) :
    feedsOf pattern (requestsOf (addRequests st entries) s) =
      feedsOf pattern (requestsOf st s) ||| requestedFeeds pattern s entries := by
  induction entries generalizing st with
  | nil => simp [addRequests, requestedFeeds]
  | cons e rest ih =>
    have hstep : addRequests st (e :: rest) =
        addRequests (lcf_addRequest st e.feedtype e.pattern e.hostId e.port e.alloc).2 rest :=
      rfl
    have hreq : requestedFeeds pattern s (e :: rest) =
        if e.pattern = pattern ∧ (⟨e.hostId, e.port⟩ : ServerInfo) = s then
          e.feedtype ||| requestedFeeds pattern s rest
        else requestedFeeds pattern s rest := rfl
    rw [hstep, ih _ (fun x hx => hft x (List.mem_cons_of_mem _ hx))
      (fun x hx => ha x (List.mem_cons_of_mem _ hx)),
      lcf_addRequest_feeds st e (hft e (List.mem_cons_self _ _)) (ha e (List.mem_cons_self _ _)),
      hreq]
    split_ifs
    · rw [Nat.or_comm e.feedtype, Nat.or_assoc]
    · rfl

/-- C24: after the calls of `lcf_addRequest` for any list of REQUEST entries, no
stored request of a server-entry has the feedtype `NONE` and two stored
requests of a server-entry with the same pattern have disjoint feedtypes.  A
further subscription whose allocations up to the reduction succeed is reduced
by the feeds of the stored requests of its server that have its pattern: when
nothing is left, `lcf_addRequest` returns `0` and changes neither the
subscription-entries nor the requests of any server; otherwise, when the
request can be allocated, the reduced subscription is stored in front of the
requests of its server.  When all allocations succeed, the feeds stored for a
server and a pattern are those that the entries asked from the server with the
pattern, so that the reduction is by all earlier subscriptions. -/
theorem C24_requests_stay_disjoint (entries : List RequestEntry) :
    (∀ entry ∈ (addRequests noRequests entries).serverEntries, entry.disjoint) ∧
    (∀ e : RequestEntry, e.feedtype < 2 ^ 32 → e.alloc.serverInfo = true →
      e.alloc.serverEntry = true → e.alloc.sub = true → e.alloc.origSub = true →
      e.alloc.reduceSub = true →
      (e.feedtype &&& feedtype_not (feedsOf e.pattern
          (requestsOf (addRequests noRequests entries) ⟨e.hostId, e.port⟩)) = NONE →
        (lcf_addRequest (addRequests noRequests entries) e.feedtype e.pattern e.hostId e.port
          e.alloc).1 = 0 ∧
        (lcf_addRequest (addRequests noRequests entries) e.feedtype e.pattern e.hostId e.port
          e.alloc).2.subs = (addRequests noRequests entries).subs ∧
        ∀ s, requestsOf (lcf_addRequest (addRequests noRequests entries) e.feedtype e.pattern
            e.hostId e.port e.alloc).2 s =
          requestsOf (addRequests noRequests entries) s) ∧
      (e.feedtype &&& feedtype_not (feedsOf e.pattern
          (requestsOf (addRequests noRequests entries) ⟨e.hostId, e.port⟩)) ≠ NONE →
        e.alloc.request = true →
        requestsOf (lcf_addRequest (addRequests noRequests entries) e.feedtype e.pattern
            e.hostId e.port e.alloc).2 ⟨e.hostId, e.port⟩ =
          ⟨e.pattern, e.feedtype &&& feedtype_not (feedsOf e.pattern
            (requestsOf (addRequests noRequests entries) ⟨e.hostId, e.port⟩))⟩ ::
            requestsOf (addRequests noRequests entries) ⟨e.hostId, e.port⟩)) ∧
    ((∀ e ∈ entries, e.feedtype < 2 ^ 32) → (∀ e ∈ entries, e.alloc = allocated) →
      ∀ pattern s,
        feedsOf pattern (requestsOf (addRequests noRequests entries) s) =
          requestedFeeds pattern s entries) := by
  refine ⟨?_, ?_, ?_⟩
  · apply addRequests_disjoint
    intro entry hentry
    exact absurd hentry (List.not_mem_nil _)
  · intro e hft h1 h2 h3 h4 h5
    have h := lcf_addRequest_spec (addRequests noRequests entries) e.feedtype e.pattern
      e.hostId e.port e.alloc hft h1 h2 h3 h4 h5
    exact ⟨h.1, fun hne hrq => (h.2 hne hrq).1⟩
  · intro hft ha pattern s
    rw [addRequests_feeds entries noRequests hft ha pattern s]
    simp [requestsOf, noRequests, serverEntryOf, feedsOf]

/-- Witness of C24: after a request for the feeds 3 from a server, a request for
the feed 1 with the same pattern is ignored, a request for the feeds 6 is stored
as 4, and the feeds stored after the requests for 3 and 6 are 7. -/
theorem C24_requests_stay_disjoint_witness :
    (lcf_addRequest
      (addRequests noRequests [⟨3, ['.', '*'], ['h'], 388, allocated⟩])
      1 ['.', '*'] ['h'] 388 allocated).1 = 0 ∧
    requestsOf
      (lcf_addRequest
        (addRequests noRequests [⟨3, ['.', '*'], ['h'], 388, allocated⟩])
        6 ['.', '*'] ['h'] 388 allocated).2 ⟨['h'], 388⟩ =
      [⟨['.', '*'], 4⟩, ⟨['.', '*'], 3⟩] ∧
    feedsOf ['.', '*']
      (requestsOf
        (addRequests noRequests
          [⟨3, ['.', '*'], ['h'], 388, allocated⟩, ⟨6, ['.', '*'], ['h'], 388, allocated⟩])
        ⟨['h'], 388⟩) = 7 := by
  refine ⟨?_, ?_, ?_⟩
  · exact ((C24_requests_stay_disjoint [⟨3, ['.', '*'], ['h'], 388, allocated⟩]).2.1
      ⟨1, ['.', '*'], ['h'], 388, allocated⟩ (by decide) rfl rfl rfl rfl rfl).1 (by decide) |>.1
  · exact ((C24_requests_stay_disjoint [⟨3, ['.', '*'], ['h'], 388, allocated⟩]).2.1
      ⟨6, ['.', '*'], ['h'], 388, allocated⟩ (by decide) rfl rfl rfl rfl rfl).2 (by decide) rfl
  · exact (C24_requests_stay_disjoint
      [⟨3, ['.', '*'], ['h'], 388, allocated⟩, ⟨6, ['.', '*'], ['h'], 388, allocated⟩]).2.2
      (by decide) (by decide) ['.', '*'] ⟨['h'], 388⟩

/-! ### ALLOW entries of the configuration file -/

/-- The first loop of `lcf_reduceToAllowed` collects the feedtypes of the entries
whose host set contains the host, up to `MAXHITS` of them. -/
theorem matchingFeedtypes_eq (name dotAddr : List Char) (entries : List AllowEntry)
    (feedType : List feedtypet) (h : feedType.length < MAXHITS) :
    matchingFeedtypes name dotAddr entries feedType =
      (feedType ++
        (entries.filter fun entry => contains entry.hsp name dotAddr).map
          fun entry => entry.ft).take MAXHITS := by
  induction entries generalizing feedType with
  | nil =>
    simp only [matchingFeedtypes, List.filter_nil, List.map_nil, List.append_nil]
    rw [List.take_of_length_le (le_of_lt h)]
  | cons entry rest ih =>
    unfold matchingFeedtypes
    by_cases hc : contains entry.hsp name dotAddr = true
    · simp only [hc, if_true, List.filter_cons_of_pos, List.map_cons]
      by_cases hfull : (feedType ++ [entry.ft]).length ≥ MAXHITS
      · simp only [hfull, if_true]
        have hlen : (feedType ++ [entry.ft]).length = MAXHITS := by
          simp only [List.length_append, List.length_singleton] at hfull ⊢
          omega
        have happ : feedType ++ entry.ft ::
            List.map (fun entry => entry.ft)
              (List.filter (fun entry => contains entry.hsp name dotAddr) rest) =
            (feedType ++ [entry.ft]) ++
            List.map (fun entry => entry.ft)
              (List.filter (fun entry => contains entry.hsp name dotAddr) rest) := by
          simp
        rw [happ, ← hlen, List.take_left]
      · simp only [hfull, if_false]
        rw [ih _ (by omega)]
        simp
    · have hc' : contains entry.hsp name dotAddr = false := Bool.eq_false_iff.2 hc
      simp only [hc', Bool.false_eq_true, if_false]
      rw [ih _ h]
      simp [hc']

/-- The loop over the matching feedtypes yields the allowed feedtype. -/
theorem firstHit_eq (feedtype : feedtypet) (hits : List feedtypet) (ft : feedtypet) :
    (allowedFeedtype hits feedtype ≠ NONE →
      firstHit feedtype hits ft = (allowedFeedtype hits feedtype, allowedFeedtype hits feedtype)) ∧
    (allowedFeedtype hits feedtype = NONE →
      (firstHit feedtype hits ft).2 = feedtype ∧
      (firstHit feedtype hits ft).1 = if hits = [] then ft else NONE) := by
  induction hits generalizing ft with
  | nil => simp [allowedFeedtype, firstHit, NONE]
  | cons hit rest ih =>
    unfold firstHit
    by_cases hz : feedtype &&& hit = 0
    · have ha : allowedFeedtype (hit :: rest) feedtype = allowedFeedtype rest feedtype := by
        simp [allowedFeedtype, List.find?_cons, hz, NONE]
      rw [ha]
      simp only [hz, ne_eq, not_true_eq_false, if_false]
      obtain ⟨ih1, ih2⟩ := ih 0
      refine ⟨ih1, fun hn => ⟨(ih2 hn).1, ?_⟩⟩
      rw [(ih2 hn).2]
      by_cases hr : rest = []
      · simp [hr, NONE]
      · simp [hr]
    · have ha : allowedFeedtype (hit :: rest) feedtype = feedtype &&& hit := by
        simp [allowedFeedtype, List.find?_cons, hz, NONE]
      rw [ha]
      simp only [ne_eq, hz, not_false_eq_true, if_true]
      exact ⟨fun _ => trivial, fun hn => absurd hn hz⟩

/-- The body of the loop over the wanted specifications gives a specification
its allowed feedtype. -/
theorem intersectSpec_eq (uninit : feedtypet) (hits : List feedtypet) (hne : hits ≠ [])
    (sp : prod_spec) :
    intersectSpec uninit hits sp =
      { sp with feedtype := allowedFeedtype hits sp.feedtype } := by
  obtain ⟨h1, h2⟩ := firstHit_eq sp.feedtype hits uninit
  unfold intersectSpec
  by_cases ha : allowedFeedtype hits sp.feedtype = NONE
  · obtain ⟨_, h3⟩ := h2 ha
    simp only [hne, if_false] at h3
    simp [h3, ha]
  · rw [h1 ha]
    simp [ha]

/-- The intersection of two feedtypes has the feeds of the first one only. -/
theorem and_and_self (a b : feedtypet) : (a &&& b) &&& a = a &&& b := by
  apply Nat.eq_of_testBit_eq
  intro i
  simp only [Nat.testBit_and]
  cases a.testBit i <;> cases b.testBit i <;> rfl

/-- The allowed feedtype has feeds of the wanted feedtype only. -/
theorem allowedFeedtype_subset (allowed : List feedtypet) (wanted : feedtypet) :
    allowedFeedtype allowed wanted &&& wanted = allowedFeedtype allowed wanted := by
  unfold allowedFeedtype
  cases hf : (allowed.map fun ft => wanted &&& ft).find? fun ft => decide (ft ≠ NONE) with
  | none => simp [NONE]
  | some x =>
    have hmem := List.mem_of_find?_eq_some hf
    obtain ⟨ft, _, rfl⟩ := List.mem_map.1 hmem
    simp only [Option.getD_some]
    exact and_and_self wanted ft

/-- The allowed class is empty when nothing is wanted or nothing is allowed. -/
theorem allowedClass_empty (allowEntries : List AllowEntry) (name dotAddr : List Char)
    (want : prod_class)
    (h : want.psa = [] ∨
      (allowEntries.filter fun entry => contains entry.hsp name dotAddr) = []) :
    allowedClass allowEntries name dotAddr want = { psa := [] } := by
  unfold allowedClass
  rcases h with h | h
  · simp [h]
  · simp [h, allowedFeedtype, NONE]

/-- The result of `lcf_reduceToAllowed` in terms of the allowed class. -/
theorem lcf_reduceToAllowed_eq (allowEntries : List AllowEntry) (name dotAddr : List Char)
    (want : prod_class) (uninit : feedtypet) (newOk : Bool) (cpError : Int) :
    lcf_reduceToAllowed allowEntries name dotAddr want uninit newOk cpError =
      if newOk = false then (ENOMEM, none)
      else if (want.psa ≠ [] ∧
          (allowEntries.filter fun entry => contains entry.hsp name dotAddr).length ≠ 0) ∧
          cpError ≠ 0 then (cpError, none)
      else (0, some (allowedClass allowEntries name dotAddr want)) := by
  unfold lcf_reduceToAllowed
  cases newOk
  · simp
  · simp only [Bool.not_true, Bool.false_eq_true, if_false]
    by_cases hw : want.psa = []
    · simp [hw, allowedClass_empty allowEntries name dotAddr want (Or.inl hw)]
    · by_cases hf : (allowEntries.filter fun entry => contains entry.hsp name dotAddr) = []
      · have hm : matchingFeedtypes name dotAddr allowEntries [] = [] := by
          rw [matchingFeedtypes_eq _ _ _ _ (by decide), hf]
          rfl
        simp [hf, hm, allowedClass_empty allowEntries name dotAddr want (Or.inr hf)]
      · have ha : allowEntries ≠ [] := by
          intro h
          apply hf
          rw [h]
          rfl
        have hm : matchingFeedtypes name dotAddr allowEntries [] =
            ((allowEntries.filter fun entry => contains entry.hsp name dotAddr).take
              MAXHITS).map fun entry => entry.ft := by
          rw [matchingFeedtypes_eq _ _ _ _ (by decide), List.nil_append, List.map_take]
        have hne : (((allowEntries.filter fun entry => contains entry.hsp name dotAddr).take
              MAXHITS).map fun entry => entry.ft) ≠ [] := by
          cases hl : allowEntries.filter fun entry => contains entry.hsp name dotAddr with
          | nil => exact absurd hl hf
          | cons x xs => simp [MAXHITS]
        have hlen : (((allowEntries.filter fun entry => contains entry.hsp name dotAddr).take
              MAXHITS).map fun entry => entry.ft).length ≠ 0 := by
          intro h0
          exact hne (List.length_eq_zero.1 h0)
        have hmap : want.psa.map (intersectSpec uninit
            (((allowEntries.filter fun entry => contains entry.hsp name dotAddr).take
              MAXHITS).map fun entry => entry.ft)) =
            want.psa.map fun sp =>
              { sp with
                feedtype := allowedFeedtype
                  (((allowEntries.filter fun entry => contains entry.hsp name dotAddr).take
                    MAXHITS).map fun entry => entry.ft) sp.feedtype } :=
          List.map_congr_left fun sp _ => intersectSpec_eq uninit _ hne sp
        have he : (allowEntries.isEmpty || want.psa.isEmpty) = false := by
          simp [List.isEmpty_iff, ha, hw]
        have hfl : (allowEntries.filter fun entry => contains entry.hsp name dotAddr).length
            ≠ 0 := fun h0 => hf (List.length_eq_zero.1 h0)
        simp only [he, Bool.false_eq_true, if_false, hm, hlen, ne_eq, not_false_eq_true, if_true,
          hmap, hw, hfl, and_self, true_and]
        by_cases hc : cpError = 0
        · simp only [hc, if_true, not_true_eq_false, if_false]
          rfl
        · simp [hc]

/-- C25: whenever `lcf_reduceToAllowed` returns `0`, the class that it assigns to
`*intersect` is the intersection of the wanted class with what the ALLOW
entries allow: every wanted specification has its feedtype intersected with
the feedtype of the first entry, among the first `MAXHITS` entries whose host
set contains the host, that it intersects, and the specifications that
intersect none are removed.  The function returns `0` when the class can be
allocated and copied.  Every resulting specification comes from a wanted one,
with the same pattern and a feedtype that is not `NONE` and has feeds of the
wanted feedtype only; and the result is empty when there is no ALLOW entry, no
entry whose host set contains the host, or no wanted specification. -/
theorem C25_reduceToAllowed_intersection (allowEntries : List AllowEntry)
    (name dotAddr : List Char) (want : prod_class) (uninit : feedtypet) (newOk : Bool)
    (cpError : Int) :
    ((lcf_reduceToAllowed allowEntries name dotAddr want uninit newOk cpError).1 = 0 →
      (lcf_reduceToAllowed allowEntries name dotAddr want uninit newOk cpError).2 =
        some (allowedClass allowEntries name dotAddr want)) ∧
    (newOk = true → cpError = 0 →
      lcf_reduceToAllowed allowEntries name dotAddr want uninit newOk cpError =
        (0, some (allowedClass allowEntries name dotAddr want))) ∧
    (∀ sp ∈ (allowedClass allowEntries name dotAddr want).psa,
      sp.feedtype ≠ NONE ∧
      ∃ w ∈ want.psa, sp.pattern = w.pattern ∧ sp.feedtype &&& w.feedtype = sp.feedtype) ∧
    (allowEntries = [] ∨ want.psa = [] ∨
        (∀ entry ∈ allowEntries, contains entry.hsp name dotAddr = false) →
      allowedClass allowEntries name dotAddr want = { psa := [] }) := by
  have heq := lcf_reduceToAllowed_eq allowEntries name dotAddr want uninit newOk cpError
  refine ⟨?_, ?_, ?_, ?_⟩
  · intro h0
    rw [heq] at h0 ⊢
    split_ifs at h0 ⊢ with h1 h2
    · exact absurd h0 (by decide)
    · exact absurd h0 h2.2
    · rfl
  · intro hn hc
    rw [heq]
    simp [hn, hc]
  · intro sp hsp
    unfold allowedClass at hsp
    obtain ⟨hmem, hnone⟩ := List.mem_filter.1 hsp
    obtain ⟨w, hw, rfl⟩ := List.mem_map.1 hmem
    exact ⟨of_decide_eq_true hnone, w, hw, rfl, allowedFeedtype_subset _ _⟩
  · intro h
    apply allowedClass_empty
    rcases h with h | h | h
    · right
      rw [h]
      rfl
    · exact Or.inl h
    · right
      rw [List.filter_eq_nil_iff]
      intro entry hentry
      rw [h entry hentry]
      decide

/-- Witness of C25: the host `h` is allowed the feeds 3 and then the feeds 12; it
wants the feeds 6, 8 and 16: it gets the feeds 2 and 8. -/
theorem C25_reduceToAllowed_intersection_witness :
    lcf_reduceToAllowed [allowHost 3, allowHost 12] ['h'] ['1'] ⟨[⟨6, []⟩, ⟨8, []⟩, ⟨16, []⟩]⟩
        0 true 0 =
      (0, some ⟨[⟨2, []⟩, ⟨8, []⟩]⟩) ∧
    lcf_reduceToAllowed [] ['h'] ['1'] ⟨[⟨6, []⟩]⟩ 0 true 0 = (0, some ⟨[]⟩) := by
  refine ⟨?_, ?_⟩
  · exact ((C25_reduceToAllowed_intersection [allowHost 3, allowHost 12] ['h'] ['1']
      ⟨[⟨6, []⟩, ⟨8, []⟩, ⟨16, []⟩]⟩ 0 true 0).2.1 rfl rfl).trans (by decide)
  · rw [(C25_reduceToAllowed_intersection [] ['h'] ['1'] ⟨[⟨6, []⟩]⟩ 0 true 0).2.1 rfl rfl,
      (C25_reduceToAllowed_intersection [] ['h'] ['1'] ⟨[⟨6, []⟩]⟩ 0 true 0).2.2.2 (Or.inl rfl)]

/-! ### The upstream filter -/

/-- When every addition succeeds, the loop of `lcf_getUpstreamFilter` adds, for
each wanted specification in order, the component of its controlling entry,
and leaves no error object. -/
theorem addComponents_all (allowEntries : List AllowEntry) (name dotAddr : List Char)
    (addOk : UpFilter → feedtypet → Bool) (hok : ∀ filt ft, addOk filt ft = true)
    (specs : List prod_spec) (filt : UpFilter) :
    addComponents allowEntries name dotAddr addOk specs (none, filt) =
      (none, filt ++ specs.filterMap fun sp =>
        (controllingEntry name dotAddr sp.feedtype allowEntries).map fun hit =>
          ⟨hit.1, hit.2.okPattern, hit.2.notPattern⟩) := by
  induction specs generalizing filt with
  | nil => simp [addComponents]
  | cons sp rest ih =>
    unfold addComponents
    cases hc : controllingEntry name dotAddr sp.feedtype allowEntries with
    | none =>
      simp only [List.filterMap_cons, hc, Option.map_none']
      exact ih filt
    | some hit =>
      obtain ⟨ft, entry⟩ := hit
      simp only [upFilter_addComponent, hok, if_true, Bool.false_eq_true, if_false,
        List.filterMap_cons, hc, Option.map_some']
      rw [ih]
      simp

/-- C26: `lcf_getUpstreamFilter` assigns to `*upFilter` exactly when it returns
no error object, and when every addition succeeds the filter has, for each
wanted specification in order, the component of the first ALLOW entry whose
feedtype intersects it and whose host set contains the host, `NULL` standing
for a filter without component.  But a failed addition is not always
reported: the error object of an addition is replaced by the result of the
next one.  For the host `h`, allowed the feeds 3, that wants the feeds 1 and
the feeds 2, the addition of the first component fails and the second one
succeeds: the function returns no error object and assigns a filter that has
the second component only. -/
theorem C26_failed_addition_not_reported :
    (∀ (allowEntries : List AllowEntry) (name dotAddr : List Char) (want : prod_class)
      (newOk : Bool) (addOk : UpFilter → feedtypet → Bool),
      (lcf_getUpstreamFilter allowEntries name dotAddr want newOk addOk).1 = none ↔
        (lcf_getUpstreamFilter allowEntries name dotAddr want newOk addOk).2 ≠ none) ∧
    (∀ (allowEntries : List AllowEntry) (name dotAddr : List Char) (want : prod_class)
      (addOk : UpFilter → feedtypet → Bool), (∀ filt ft, addOk filt ft = true) →
      lcf_getUpstreamFilter allowEntries name dotAddr want true addOk =
        (none,
          some (if (want.psa.filterMap fun sp =>
              (controllingEntry name dotAddr sp.feedtype allowEntries).map fun hit =>
                (⟨hit.1, hit.2.okPattern, hit.2.notPattern⟩ : FilterComponent)) = [] then none
            else some (want.psa.filterMap fun sp =>
              (controllingEntry name dotAddr sp.feedtype allowEntries).map fun hit =>
                ⟨hit.1, hit.2.okPattern, hit.2.notPattern⟩)))) ∧
    (upFilter_addComponent [] 1 ['.', '*'] none (decide ((1 : feedtypet) ≠ 1))).1 = true ∧
    lcf_getUpstreamFilter [allowHost 3] ['h'] ['1'] ⟨[⟨1, []⟩, ⟨2, []⟩]⟩ true
        (fun _ ft => decide (ft ≠ 1)) =
      (none, some (some [⟨2, ['.', '*'], none⟩])) := by
  refine ⟨?_, ?_, by decide, by decide⟩
  · intro allowEntries name dotAddr want newOk addOk
    unfold lcf_getUpstreamFilter
    cases newOk
    · simp
    · simp only [Bool.not_true, Bool.false_eq_true, if_false]
      cases (addComponents allowEntries name dotAddr addOk want.psa (none, [])).1 with
      | none =>
        dsimp only
        split_ifs <;> simp
      | some errObj => simp
  · intro allowEntries name dotAddr want addOk hok
    unfold lcf_getUpstreamFilter
    simp only [Bool.not_true, Bool.false_eq_true, if_false]
    rw [addComponents_all allowEntries name dotAddr addOk hok want.psa []]
    simp only [List.nil_append, upFilter_getComponentCount]
    split_ifs with h1 h2 h2
    · rw [h2] at h1
      exact absurd h1 (by decide)
    · rfl
    · rfl
    · exact absurd (Nat.pos_of_ne_zero fun h0 => h2 (List.length_eq_zero.1 h0)) h1

/-- Witness of C26: when every addition succeeds, the host `h`, allowed the
feeds 3 and then the feeds 6, that wants the feeds 6 and the feeds 8 gets a
filter with the one component for the feeds 2. -/
theorem C26_failed_addition_not_reported_witness :
    lcf_getUpstreamFilter [allowHost 3, allowHost 6] ['h'] ['1'] ⟨[⟨6, []⟩, ⟨8, []⟩]⟩ true
        (fun _ _ => true) =
      (none, some (some [⟨2, ['.', '*'], none⟩])) :=
  (C26_failed_addition_not_reported.2.1 [allowHost 3, allowHost 6] ['h'] ['1']
    ⟨[⟨6, []⟩, ⟨8, []⟩]⟩ (fun _ _ => true) (fun _ _ => rfl)).trans (by decide)

/-! ### EXEC entries of the configuration file -/

/-- The words of a command line from the second one on, each after a space. -/
theorem joinWords_cons (word : List Char) (rest : List (List Char)) :
    joinWords (word :: rest) = word ++ (rest.map fun w => ' ' :: w).flatten := by
  induction rest generalizing word with
  | nil => simp [joinWords]
  | cons w ws ih =>
    have h : joinWords (word :: w :: ws) = word ++ ' ' :: joinWords (w :: ws) := rfl
    rw [h, ih]
    simp

/-- A call of `snprintf` whose text fits the size with its NUL writes the text
and the NUL. -/
theorem snprintf_fits (buf : List Char) (cp size : Nat) (text : List Char)
    (h : text.length < size) :
    snprintf buf cp size text =
      ((text.length : Int),
        buf.take cp ++ (text ++ [NUL]) ++ buf.drop (cp + text.length + 1)) := by
  unfold snprintf
  have h0 : size ≠ 0 := by omega
  have ht : text.take (size - 1) = text := List.take_of_length_le (by omega)
  simp only [h0, if_false, ht]

/-- A text written at an offset and a second text written right after it, each
with its NUL, leave the two texts and one NUL. -/
theorem write_twice (buf : List Char) (cp : Nat) (hcp : cp ≤ buf.length)
    (text more : List Char) :
    ((buf.take cp ++ (text ++ [NUL]) ++ buf.drop (cp + text.length + 1)).take
        (cp + text.length) ++ (more ++ [NUL]) ++
      (buf.take cp ++ (text ++ [NUL]) ++ buf.drop (cp + text.length + 1)).drop
        (cp + text.length + more.length + 1)) =
      buf.take cp ++ (text ++ more ++ [NUL]) ++
        buf.drop (cp + (text ++ more).length + 1) := by
  have hlen : (buf.take cp ++ text).length = cp + text.length := by
    simp [List.length_take, Nat.min_eq_left hcp]
  have hsplit : buf.take cp ++ (text ++ [NUL]) ++ buf.drop (cp + text.length + 1) =
      (buf.take cp ++ text) ++ (NUL :: buf.drop (cp + text.length + 1)) := by
    simp
  rw [hsplit, List.take_left' hlen]
  have hdrop : ((buf.take cp ++ text) ++ (NUL :: buf.drop (cp + text.length + 1))).drop
      (cp + text.length + more.length + 1) =
      buf.drop (cp + (text ++ more).length + 1) := by
    have h1 : cp + text.length + more.length + 1 =
        (buf.take cp ++ text).length + (more.length + 1) := by
      rw [hlen]
      omega
    rw [h1, List.drop_append, List.drop_succ_cons, List.drop_drop, List.length_append]
    congr 1
    omega
  rw [hdrop]
  simp

/-- The loop of `lcf_getCommandLine` from a word after the first one on, when
the words that are left fit the size that is left with their NUL: every word
is written after a space, and one NUL after the last word. -/
theorem writeWords_fits (words : List (List Char)) (i : Nat) (hi : i ≠ 0) (buf : List Char)
    (cp size : Nat) (hcp : cp ≤ buf.length)
    (hfit : ((words.map fun w => ' ' :: w).flatten).length < size) :
    writeWords words i buf cp size =
      (0, cp + ((words.map fun w => ' ' :: w).flatten).length,
        if words = [] then buf
        else buf.take cp ++ ((words.map fun w => ' ' :: w).flatten ++ [NUL]) ++
          buf.drop (cp + ((words.map fun w => ' ' :: w).flatten).length + 1)) := by
  induction words generalizing i buf cp size with
  | nil => simp [writeWords]
  | cons w rest ih =>
    have hflat : ((w :: rest).map fun w => ' ' :: w).flatten =
        (' ' :: w) ++ (rest.map fun w => ' ' :: w).flatten := by
      simp
    rw [hflat] at hfit ⊢
    have hlen : (' ' :: w).length +
        ((rest.map fun w => ' ' :: w).flatten).length < size := by
      rw [← List.length_append]
      exact hfit
    unfold writeWords
    simp only [hi, if_false]
    rw [snprintf_fits buf cp size (' ' :: w) (by omega)]
    have hcond : (0 : Int) ≤ ((' ' :: w).length : Int) ∧ ((' ' :: w).length : Int) ≤ size :=
      ⟨Int.natCast_nonneg _, by exact_mod_cast (by omega : (' ' :: w).length ≤ size)⟩
    simp only [hcond, and_self, if_true, Int.toNat_ofNat]
    have hcp1 : cp + (' ' :: w).length ≤
        (buf.take cp ++ ((' ' :: w) ++ [NUL]) ++
          buf.drop (cp + (' ' :: w).length + 1)).length := by
      simp only [List.length_append, List.length_take, Nat.min_eq_left hcp,
        List.length_singleton]
      omega
    rw [ih (i + 1) (by omega) _ _ _ hcp1 (by omega)]
    by_cases hr : rest = []
    · subst hr
      simp
    · simp only [hr, if_false, reduceCtorEq]
      rw [write_twice buf cp hcp (' ' :: w) ((rest.map fun w => ' ' :: w).flatten)]
      simp only [List.length_append]
      congr 2
      omega

/-- The loop of `lcf_getCommandLine` from the first word on, when the command
line fits the size with its NUL. -/
theorem writeWords_first (words : List (List Char)) (buf : List Char) (size : Nat)
    (hfit : (joinWords words).length < size) :
    writeWords words 0 buf 0 size =
      (0, (joinWords words).length,
        if words = [] then buf
        else joinWords words ++ [NUL] ++ buf.drop ((joinWords words).length + 1)) := by
  cases words with
  | nil => simp [writeWords, joinWords]
  | cons w rest =>
    rw [joinWords_cons] at hfit ⊢
    have hlen : w.length + ((rest.map fun w => ' ' :: w).flatten).length < size := by
      rw [← List.length_append]
      exact hfit
    unfold writeWords
    simp only [if_true]
    rw [snprintf_fits buf 0 size w (by omega)]
    have hcond : (0 : Int) ≤ (w.length : Int) ∧ (w.length : Int) ≤ size :=
      ⟨Int.natCast_nonneg _, by exact_mod_cast (by omega : w.length ≤ size)⟩
    simp only [hcond, and_self, if_true, Int.toNat_ofNat]
    have hcp1 : 0 + w.length ≤
        (buf.take 0 ++ (w ++ [NUL]) ++ buf.drop (0 + w.length + 1)).length := by
      simp only [List.length_append, List.length_take, List.length_singleton]
      omega
    rw [writeWords_fits rest (0 + 1) (by omega) _ _ _ hcp1 (by omega)]
    by_cases hr : rest = []
    · subst hr
      simp
    · simp only [hr, if_false, reduceCtorEq]
      rw [write_twice buf 0 (Nat.zero_le _) w ((rest.map fun w => ' ' :: w).flatten)]
      simp only [List.length_append, List.take_zero, List.nil_append, Nat.zero_add]

/-- C27: `lcf_getCommandLine` returns `-2` when no EXEC entry has the process
identifier, and when the command line of the entry fits the size with its
NUL, it returns the length of the words joined by single spaces and the buffer
holds them and a NUL.  But when the command line has exactly `size`
characters, the returned number is `size` although `snprintf` has written only
`size - 1` of them, followed by a NUL: for the command line `ab` and the size 2
the result is 2 and the buffer holds `a` and a NUL. -/
theorem C27_command_line_truncated :
    (∀ (processes : List Process) (pid : Int) (buf : List Char) (size : Nat),
      (∀ ep ∈ processes, ep.pid ≠ pid) →
      lcf_getCommandLine processes pid buf size = (-2, buf)) ∧
    (∀ (processes : List Process) (pid : Int) (buf : List Char) (size : Nat) (ep : Process),
      (processes.find? fun ep => decide (ep.pid = pid)) = some ep →
      (joinWords ep.wrdexp).length < size →
      lcf_getCommandLine processes pid buf size =
        (((joinWords ep.wrdexp).length : Int),
          if ep.wrdexp = [] then buf
          else joinWords ep.wrdexp ++ [NUL] ++ buf.drop ((joinWords ep.wrdexp).length + 1))) ∧
    lcf_getCommandLine [⟨7, [['a', 'b']]⟩] 7 ['x', 'y'] 2 = (2, ['a', NUL]) := by
  refine ⟨?_, ?_, by decide⟩
  · intro processes pid buf size hnone
    unfold lcf_getCommandLine
    have hfind : (processes.find? fun ep => decide (ep.pid = pid)) = none := by
      rw [List.find?_eq_none]
      intro ep hep
      simpa using hnone ep hep
    rw [hfind]
  · intro processes pid buf size ep hfind hfit
    unfold lcf_getCommandLine
    rw [hfind]
    dsimp only
    rw [writeWords_first ep.wrdexp buf size hfit]
    simp

/-- Witness of C27: no entry for the process 8, and the command line `ab c` of
the process 7 in a buffer of six characters. -/
theorem C27_command_line_truncated_witness :
    lcf_getCommandLine [⟨7, [['a', 'b'], ['c']]⟩] 8 ['x', 'x', 'x', 'x', 'x', 'x'] 6 =
      (-2, ['x', 'x', 'x', 'x', 'x', 'x']) ∧
    lcf_getCommandLine [⟨7, [['a', 'b'], ['c']]⟩] 7 ['x', 'x', 'x', 'x', 'x', 'x'] 6 =
      (4, ['a', 'b', ' ', 'c', NUL, 'x']) :=
  ⟨C27_command_line_truncated.1 [⟨7, [['a', 'b'], ['c']]⟩] 8 ['x', 'x', 'x', 'x', 'x', 'x'] 6
      (by decide),
    (C27_command_line_truncated.2.1 [⟨7, [['a', 'b'], ['c']]⟩] 7
      ['x', 'x', 'x', 'x', 'x', 'x'] 6 ⟨7, [['a', 'b'], ['c']]⟩ rfl (by decide)).trans
      (by decide)⟩

end LDM
